import Mathlib

/-! utea: the matrix cache of the camera and the curve base class.

A shallow embedding of `src/Camera.js` and `src/utils/curves/Curve.js`.

Numbers are the elements of a linearly ordered field `K` (exact arithmetic:
no rounding, no NaN, no infinities).  The functions the code takes from the
JavaScript runtime (`Math.sqrt`, `Math.tan`, `Math.atan2`, `Math.PI`) are
parameters of the definitions that use them.  The `vec3` arrays of a camera
are held by reference (`Ref`), since the camera stores the arrays it is given
and changes one in place.  The four matrices of a camera are objects it
creates itself and never replaces, and no two of them are one object, so they
are held by value, and so are the typed arrays of a curve.
-/

namespace Utea

/-! ## Vectors and the matrix library -/

/-- A three-component vector (a `vec3` of gl-matrix, or any array read at
indices 0, 1 and 2). -/
structure Vec3 (K : Type) where
  x : K
  y : K
  z : K
deriving DecidableEq, Repr

/-- The `mat4` functions of gl-matrix that `Camera.js` calls, over a matrix
type `M`.  `create` is the identity matrix.  `lookAt`, `perspective` and
`multiply` overwrite every entry of their `out` argument, so they are
functions of their inputs alone; `invert out a` takes the previous content of
`out` as well, because gl-matrix leaves `out` untouched when `a` has no
inverse. -/
structure Mat4Lib (K M : Type) where
  create : M
  lookAt : Vec3 K → Vec3 K → Vec3 K → M
  invert : M → M → M
  perspective : K → K → K → K → M
  multiply : M → M → M

/-- A 4x4 matrix as gl-matrix stores it: sixteen numbers, column after
column (`m4` is row 0 of column 1). -/
structure Mat4 (K : Type) where
  m0 : K
  m1 : K
  m2 : K
  m3 : K
  m4 : K
  m5 : K
  m6 : K
  m7 : K
  m8 : K
  m9 : K
  m10 : K
  m11 : K
  m12 : K
  m13 : K
  m14 : K
  m15 : K
deriving DecidableEq, Repr

namespace mat4

variable {K : Type} [LinearOrderedField K]

/-- Modelled from the spec: the matrix library is an external collaborator,
absent from the sources.  This is `mat4.create` of gl-matrix: the identity
matrix. -/
def create : Mat4 K := ⟨1, 0, 0, 0, 0, 1, 0, 0, 0, 0, 1, 0, 0, 0, 0, 1⟩

/-- Modelled from the spec: the matrix library is absent from the sources.
This is `glMatrix.EPSILON`. -/
def EPSILON : K := 1 / 1000000

/-- Modelled from the spec: the matrix library is absent from the sources.
This is `mat4.determinant` of gl-matrix. -/
def determinant (a : Mat4 K) : K :=
  let b00 := a.m0 * a.m5 - a.m1 * a.m4
  let b01 := a.m0 * a.m6 - a.m2 * a.m4
  let b02 := a.m0 * a.m7 - a.m3 * a.m4
  let b03 := a.m1 * a.m6 - a.m2 * a.m5
  let b04 := a.m1 * a.m7 - a.m3 * a.m5
  let b05 := a.m2 * a.m7 - a.m3 * a.m6
  let b06 := a.m8 * a.m13 - a.m9 * a.m12
  let b07 := a.m8 * a.m14 - a.m10 * a.m12
  let b08 := a.m8 * a.m15 - a.m11 * a.m12
  let b09 := a.m9 * a.m14 - a.m10 * a.m13
  let b10 := a.m9 * a.m15 - a.m11 * a.m13
  let b11 := a.m10 * a.m15 - a.m11 * a.m14
  b00 * b11 - b01 * b10 + b02 * b09 + b03 * b08 - b04 * b07 + b05 * b06

/-- Modelled from the spec: the matrix library is absent from the sources.
This is `mat4.invert (out, a)` of gl-matrix: the cofactor formula, and when
the determinant is zero the call returns null and `out` keeps its content. -/
def invert (out a : Mat4 K) : Mat4 K :=
  let a00 := a.m0
  let a01 := a.m1
  let a02 := a.m2
  let a03 := a.m3
  let a10 := a.m4
  let a11 := a.m5
  let a12 := a.m6
  let a13 := a.m7
  let a20 := a.m8
  let a21 := a.m9
  let a22 := a.m10
  let a23 := a.m11
  let a30 := a.m12
  let a31 := a.m13
  let a32 := a.m14
  let a33 := a.m15
  let b00 := a00 * a11 - a01 * a10
  let b01 := a00 * a12 - a02 * a10
  let b02 := a00 * a13 - a03 * a10
  let b03 := a01 * a12 - a02 * a11
  let b04 := a01 * a13 - a03 * a11
  let b05 := a02 * a13 - a03 * a12
  let b06 := a20 * a31 - a21 * a30
  let b07 := a20 * a32 - a22 * a30
  let b08 := a20 * a33 - a23 * a30
  let b09 := a21 * a32 - a22 * a31
  let b10 := a21 * a33 - a23 * a31
  let b11 := a22 * a33 - a23 * a32
  let det := b00 * b11 - b01 * b10 + b02 * b09 + b03 * b08 - b04 * b07 + b05 * b06
  if det = 0 then out
  else
    let det := 1 / det
    { m0 := (a11 * b11 - a12 * b10 + a13 * b09) * det
      m1 := (a02 * b10 - a01 * b11 - a03 * b09) * det
      m2 := (a31 * b05 - a32 * b04 + a33 * b03) * det
      m3 := (a22 * b04 - a21 * b05 - a23 * b03) * det
      m4 := (a12 * b08 - a10 * b11 - a13 * b07) * det
      m5 := (a00 * b11 - a02 * b08 + a03 * b07) * det
      m6 := (a32 * b02 - a30 * b05 - a33 * b01) * det
      m7 := (a20 * b05 - a22 * b02 + a23 * b01) * det
      m8 := (a10 * b10 - a11 * b08 + a13 * b06) * det
      m9 := (a01 * b08 - a00 * b10 - a03 * b06) * det
      m10 := (a30 * b04 - a31 * b02 + a33 * b00) * det
      m11 := (a21 * b02 - a20 * b04 - a23 * b00) * det
      m12 := (a11 * b07 - a10 * b09 - a12 * b06) * det
      m13 := (a00 * b09 - a01 * b07 + a02 * b06) * det
      m14 := (a31 * b01 - a30 * b03 - a32 * b00) * det
      m15 := (a20 * b03 - a21 * b01 + a22 * b00) * det }

/-- Modelled from the spec: the matrix library is absent from the sources.
This is `mat4.multiply (out, a, b)` of gl-matrix, the matrix product `a * b`. -/
def multiply (a b : Mat4 K) : Mat4 K :=
  { m0 := b.m0 * a.m0 + b.m1 * a.m4 + b.m2 * a.m8 + b.m3 * a.m12
    m1 := b.m0 * a.m1 + b.m1 * a.m5 + b.m2 * a.m9 + b.m3 * a.m13
    m2 := b.m0 * a.m2 + b.m1 * a.m6 + b.m2 * a.m10 + b.m3 * a.m14
    m3 := b.m0 * a.m3 + b.m1 * a.m7 + b.m2 * a.m11 + b.m3 * a.m15
    m4 := b.m4 * a.m0 + b.m5 * a.m4 + b.m6 * a.m8 + b.m7 * a.m12
    m5 := b.m4 * a.m1 + b.m5 * a.m5 + b.m6 * a.m9 + b.m7 * a.m13
    m6 := b.m4 * a.m2 + b.m5 * a.m6 + b.m6 * a.m10 + b.m7 * a.m14
    m7 := b.m4 * a.m3 + b.m5 * a.m7 + b.m6 * a.m11 + b.m7 * a.m15
    m8 := b.m8 * a.m0 + b.m9 * a.m4 + b.m10 * a.m8 + b.m11 * a.m12
    m9 := b.m8 * a.m1 + b.m9 * a.m5 + b.m10 * a.m9 + b.m11 * a.m13
    m10 := b.m8 * a.m2 + b.m9 * a.m6 + b.m10 * a.m10 + b.m11 * a.m14
    m11 := b.m8 * a.m3 + b.m9 * a.m7 + b.m10 * a.m11 + b.m11 * a.m15
    m12 := b.m12 * a.m0 + b.m13 * a.m4 + b.m14 * a.m8 + b.m15 * a.m12
    m13 := b.m12 * a.m1 + b.m13 * a.m5 + b.m14 * a.m9 + b.m15 * a.m13
    m14 := b.m12 * a.m2 + b.m13 * a.m6 + b.m14 * a.m10 + b.m15 * a.m14
    m15 := b.m12 * a.m3 + b.m13 * a.m7 + b.m14 * a.m11 + b.m15 * a.m15 }

/-- Modelled from the spec: the matrix library is absent from the sources.
This is `mat4.perspective (out, fovy, aspect, near, far)` of gl-matrix, with
`Math.tan` as the parameter `tan`. -/
def perspective (tan : K → K) (fovy aspect near far : K) : Mat4 K :=
  let f := 1 / tan (fovy / 2)
  let nf := 1 / (near - far)
  { m0 := f / aspect
    m1 := 0
    m2 := 0
    m3 := 0
    m4 := 0
    m5 := f
    m6 := 0
    m7 := 0
    m8 := 0
    m9 := 0
    m10 := (far + near) * nf
    m11 := -1
    m12 := 0
    m13 := 0
    m14 := 2 * far * near * nf
    m15 := 0 }

/-- Modelled from the spec: the matrix library is absent from the sources.
This is `mat4.lookAt (out, eye, center, up)` of gl-matrix, with `Math.sqrt`
as the parameter `sqrt`: the identity when eye and center coincide within
`EPSILON`, and a zero axis in place of an axis of length zero. -/
def lookAt (sqrt : K → K) (eye center up : Vec3 K) : Mat4 K :=
  let eyex := eye.x
  let eyey := eye.y
  let eyez := eye.z
  let upx := up.x
  let upy := up.y
  let upz := up.z
  let centerx := center.x
  let centery := center.y
  let centerz := center.z
  if |eyex - centerx| < EPSILON ∧ |eyey - centery| < EPSILON ∧ |eyez - centerz| < EPSILON then
    create
  else
    let z0 := eyex - centerx
    let z1 := eyey - centery
    let z2 := eyez - centerz
    let len := 1 / sqrt (z0 * z0 + z1 * z1 + z2 * z2)
    let z0 := z0 * len
    let z1 := z1 * len
    let z2 := z2 * len
    let x0 := upy * z2 - upz * z1
    let x1 := upz * z0 - upx * z2
    let x2 := upx * z1 - upy * z0
    let len := sqrt (x0 * x0 + x1 * x1 + x2 * x2)
    let x : Vec3 K := if len = 0 then ⟨0, 0, 0⟩ else ⟨x0 * (1 / len), x1 * (1 / len), x2 * (1 / len)⟩
    let x0 := x.x
    let x1 := x.y
    let x2 := x.z
    let y0 := z1 * x2 - z2 * x1
    let y1 := z2 * x0 - z0 * x2
    let y2 := z0 * x1 - z1 * x0
    let len := sqrt (y0 * y0 + y1 * y1 + y2 * y2)
    let y : Vec3 K := if len = 0 then ⟨0, 0, 0⟩ else ⟨y0 * (1 / len), y1 * (1 / len), y2 * (1 / len)⟩
    let y0 := y.x
    let y1 := y.y
    let y2 := y.z
    { m0 := x0
      m1 := y0
      m2 := z0
      m3 := 0
      m4 := x1
      m5 := y1
      m6 := z1
      m7 := 0
      m8 := x2
      m9 := y2
      m10 := z2
      m11 := 0
      m12 := -(x0 * eyex + x1 * eyey + x2 * eyez)
      m13 := -(y0 * eyex + y1 * eyey + y2 * eyez)
      m14 := -(z0 * eyex + z1 * eyey + z2 * eyez)
      m15 := 1 }

end mat4

/-- Modelled from the spec: the matrix library is absent from the sources.
The gl-matrix functions above as the library a camera works with, over the
runtime functions `Math.sqrt` and `Math.tan`. -/
def glMatrix {K : Type} [LinearOrderedField K] (sqrt tan : K → K) : Mat4Lib K (Mat4 K) :=
  { create := mat4.create
    lookAt := mat4.lookAt sqrt
    invert := mat4.invert
    perspective := mat4.perspective tan
    multiply := mat4.multiply }

namespace vec3

variable {K : Type} [LinearOrderedField K]

/-- Modelled from the spec: the vector library is absent from the sources.
This is `vec3.create` of gl-matrix: the zero vector. -/
def create : Vec3 K := ⟨0, 0, 0⟩

/-- Modelled from the spec: the vector library is absent from the sources.
This is `vec3.cross (out, a, b)` of gl-matrix, which overwrites all of `out`. -/
def cross (a b : Vec3 K) : Vec3 K :=
  let ax := a.x
  let ay := a.y
  let az := a.z
  let bx := b.x
  let by_ := b.y
  let bz := b.z
  ⟨ay * bz - az * by_, az * bx - ax * bz, ax * by_ - ay * bx⟩

/-- Modelled from the spec: the vector library is absent from the sources.
This is `vec3.normalize (out, a)` of gl-matrix, with `Math.sqrt` as the
parameter `sqrt`: `a` scaled by `1 / sqrt (a . a)`, and `out` left as it is
when `a . a` is not positive. -/
def normalize (sqrt : K → K) (out a : Vec3 K) : Vec3 K :=
  let x := a.x
  let y := a.y
  let z := a.z
  let len := x * x + y * y + z * z
  if len > 0 then
    let len := 1 / sqrt len
    ⟨a.x * len, a.y * len, a.z * len⟩
  else out

end vec3

/-! ## Camera.js -/

/-- Line 3 of Camera.js: `deg*Math.PI/180.0`. -/
def deg_to_rad {K : Type} [Field K] (PI : K) (deg : K) : K :=
  deg * PI / 180

/-- The name of a `vec3` array object.  The camera stores the arrays it is
given by reference and changes its position array in place, so its vectors are
held by name: `newAt`, `newPosition` and `newUp` are the three arrays the
constructor creates, `caller n` is an array of the caller. -/
inductive Ref where
  | newAt
  | newPosition
  | newUp
  | caller (n : Nat)
deriving DecidableEq, Repr

/-- The fields of a `Camera` object, and `arrays`, the content of every `vec3`
array of the program: the fields `_at`, `_position` and `_up` are references
into it. -/
structure Camera (K M : Type) where
  arrays : Ref → Vec3 K
  _dirty : Bool
  _dirtyInverse : Bool
  _width : K
  _height : K
  _fov : K
  _near : K
  _far : K
  _ar : K
  _at : Ref
  _position : Ref
  _up : Ref
  _viewMatrix : M
  _projectionMatrix : M
  _projectionViewMatrix : M
  _inverseProjectionViewMatrix : M

namespace Camera

variable {K M : Type} [Field K]

/-- The constructor: `constructor (fov=70, near=0.1, far=1000)`; an omitted
argument is `none`.  `arrays` gives the content of the arrays of the caller;
the constructor creates three new ones. -/
def constructor (gl : Mat4Lib K M) (arrays : Ref → Vec3 K) (fov near far : Option K) :
    Camera K M :=
  { arrays :=
      Function.update
        (Function.update (Function.update arrays Ref.newAt ⟨0, 0, 0⟩) Ref.newPosition ⟨0, 0, -1⟩)
        Ref.newUp ⟨0, 1, 0⟩
    _dirty := true
    _dirtyInverse := true
    _width := 0
    _height := 0
    _fov := fov.getD 70
    _near := near.getD (1 / 10)
    _far := far.getD 1000
    _ar := 1
    _at := Ref.newAt
    _position := Ref.newPosition
    _up := Ref.newUp
    _viewMatrix := gl.create
    _projectionMatrix := gl.create
    _projectionViewMatrix := gl.create
    _inverseProjectionViewMatrix := gl.create }

/-- The method `_updateProjectionViewMatrix`, statement by statement. -/
def _updateProjectionViewMatrix (PI : K) (gl : Mat4Lib K M) (c : Camera K M) :
    Camera K M :=
  let c1 := { c with
    _viewMatrix := gl.lookAt (c.arrays c._position) (c.arrays c._at) (c.arrays c._up) }
  let c2 := { c1 with _viewMatrix := gl.invert c1._viewMatrix c1._viewMatrix }
  let c3 := { c2 with
    _projectionMatrix := gl.perspective (deg_to_rad PI c2._fov) c2._ar c2._near c2._far }
  { c3 with _projectionViewMatrix := gl.multiply c3._projectionMatrix c3._viewMatrix }

/-- The getter `projectionViewMatrix`: the returned matrix and the camera
after the call. -/
def projectionViewMatrix (PI : K) (gl : Mat4Lib K M) (c : Camera K M) :
    M × Camera K M :=
  let c1 := if c._dirty then { _updateProjectionViewMatrix PI gl c with _dirty := false } else c
  (c1._projectionViewMatrix, c1)

/-- The getter `inverseProjectionViewMatrix`: the returned matrix and the
camera after the call. -/
def inverseProjectionViewMatrix (PI : K) (gl : Mat4Lib K M) (c : Camera K M) :
    M × Camera K M :=
  let c1 := if c._dirty then { _updateProjectionViewMatrix PI gl c with _dirty := false } else c
  let c2 := if c1._dirtyInverse then
      { c1 with
        _inverseProjectionViewMatrix :=
          gl.invert c1._inverseProjectionViewMatrix c1._projectionViewMatrix
        _dirtyInverse := false }
    else c1
  (c2._inverseProjectionViewMatrix, c2)

/-- The setter `position`: it stores the array it is given, by reference. -/
def set_position (c : Camera K M) (value : Ref) : Camera K M :=
  { c with _position := value, _dirty := true, _dirtyInverse := true }

/-- The setter `at`: it stores the array it is given, by reference. -/
def set_at (c : Camera K M) (value : Ref) : Camera K M :=
  { c with _at := value, _dirty := true, _dirtyInverse := true }

/-- The setter `up`: it stores the array it is given, by reference. -/
def set_up (c : Camera K M) (value : Ref) : Camera K M :=
  { c with _up := value, _dirty := true, _dirtyInverse := true }

/-- The setter `ar`. -/
def set_ar (c : Camera K M) (value : K) : Camera K M :=
  { c with _ar := value, _dirty := true, _dirtyInverse := true }

/-- The setter `fov`. -/
def set_fov (c : Camera K M) (value : K) : Camera K M :=
  { c with _fov := value, _dirty := true, _dirtyInverse := true }

/-- The method `incrementPosition (x, y=0.0, z=0.0)`; an omitted argument is
`none`.  The three additions are done in place on the array `this._position`
refers to. -/
def incrementPosition (c : Camera K M) (x : K) (y z : Option K) : Camera K M :=
  { c with
    arrays := Function.update c.arrays c._position
      ⟨(c.arrays c._position).x + x, (c.arrays c._position).y + y.getD 0,
        (c.arrays c._position).z + z.getD 0⟩
    _dirty := true
    _dirtyInverse := true }

end Camera

/-- One call on a camera: a setter, `incrementPosition`, or a read of one of
the two cached matrices.  The setters of position, at and up are given an
array by reference: one of the caller, or one read from the camera through a
getter.  A write of the caller into an array it shares with the camera is not
a call on the camera and is not among these. -/
inductive CameraOp (K : Type) where
  | setPosition (value : Ref)
  | setAt (value : Ref)
  | setUp (value : Ref)
  | setAr (value : K)
  | setFov (value : K)
  | incrementPosition (x : K) (y z : Option K)
  | readProjectionViewMatrix
  | readInverseProjectionViewMatrix

namespace CameraOp

variable {K M : Type} [Field K]

/-- The camera after one call. -/
def apply (PI : K) (gl : Mat4Lib K M) (c : Camera K M) : CameraOp K → Camera K M
  | setPosition v => c.set_position v
  | setAt v => c.set_at v
  | setUp v => c.set_up v
  | setAr a => c.set_ar a
  | setFov f => c.set_fov f
  | incrementPosition x y z => c.incrementPosition x y z
  | readProjectionViewMatrix => (c.projectionViewMatrix PI gl).2
  | readInverseProjectionViewMatrix => (c.inverseProjectionViewMatrix PI gl).2

/-- The camera after a sequence of calls, first call first. -/
def run (PI : K) (gl : Mat4Lib K M) (c : Camera K M) (ops : List (CameraOp K)) :
    Camera K M :=
  ops.foldl (apply PI gl) c

end CameraOp

/-- The matrix `_updateProjectionViewMatrix` computes from the parameters of a
camera: `perspective(fov*PI/180, ar, near, far) * invert(lookAt(position, at, up))`,
the inversion done in place on the look-at matrix. -/
def Camera.freshProjectionView {K M : Type} [Field K] (PI : K) (gl : Mat4Lib K M)
    (c : Camera K M) : M :=
  gl.multiply (gl.perspective (c._fov * PI / 180) c._ar c._near c._far)
    (gl.invert (gl.lookAt (c.arrays c._position) (c.arrays c._at) (c.arrays c._up))
      (gl.lookAt (c.arrays c._position) (c.arrays c._at) (c.arrays c._up)))

/-- The cache invariant of the forward matrix: when the camera is not marked
dirty, the cached matrix is the one its parameters give. -/
def Camera.ViewCoherent {K M : Type} [Field K] (PI : K) (gl : Mat4Lib K M)
    (c : Camera K M) : Prop :=
  c._dirty = false → c._projectionViewMatrix = c.freshProjectionView PI gl

/-! ## Typed arrays and the batch renderer -/

/-- The errors the code can throw. -/
inductive JsError where
  | TypeError
  | RangeError
  | ReferenceError
deriving DecidableEq, Repr

namespace TypedArray

variable {K : Type}

/-- A read `a[i]` of a `Float32Array`, held as the list of its elements.  The
numbers of the model have no NaN: a read past the end, `undefined` in the
code, is given as 0, and the theorems below read within the array. -/
def get [Zero K] (a : List K) (i : Nat) : K :=
  a.getD i 0

/-- An index `i/3` as the code computes it: `i` is a number or `undefined`
(`none`), and the quotient is an array index only when `i` is a multiple of 3;
otherwise it is NaN or a fraction (`none`). -/
def div3 (i : Option Nat) : Option Nat :=
  match i with
  | some i => if i % 3 = 0 then some (i / 3) else none
  | none => none

/-- A write `a[i] = v` on a typed array: a write at an index that is not an
index of the array (past the end, NaN, a fraction) does nothing. -/
def put (a : List K) (i : Option Nat) (v : K) : List K :=
  match i with
  | some i => a.set i v
  | none => a

/-- The method `a.set (src, offset)` of a typed array: the elements of `src`
copied to `a` from index `offset` on, and a RangeError when they do not fit. -/
def set (a src : List K) (offset : Nat) : Except JsError (List K) :=
  if offset + src.length > a.length then .error .RangeError
  else .ok (a.take offset ++ src ++ a.drop (offset + src.length))

/-- The method `a.subarray (begin, end)`, by value. -/
def subarray (a : List K) (b e : Nat) : List K :=
  (a.take e).drop b

end TypedArray

/-- Modelled from the spec: `utea/renderers/BatchRenderer` is not among the
sources.  A renderer is the buffer of the `coords` attribute it holds. -/
structure BatchRenderer (K : Type) where
  coords : List K
deriving DecidableEq, Repr

namespace BatchRenderer

variable {K Cam : Type}

/-- Modelled from the spec: BatchRenderer is not among the sources; `submit`
appends. -/
def submit (r : BatchRenderer K) (coords : List K) : BatchRenderer K :=
  ⟨r.coords ++ coords⟩

/-- Modelled from the spec: BatchRenderer is not among the sources; `update`
patches the buffer in place at the point of the given index (scalars
`3*index` on); a patch that does not fit the buffer leaves it as it is. -/
def update (r : BatchRenderer K) (index : Nat) (coords : List K) : BatchRenderer K :=
  if index * 3 + coords.length ≤ r.coords.length then
    ⟨r.coords.take (index * 3) ++ coords ++ r.coords.drop (index * 3 + coords.length)⟩
  else r

/-- Modelled from the spec: BatchRenderer is not among the sources; `reset`
replaces the whole buffer. -/
def reset (_r : BatchRenderer K) (coords : List K) : BatchRenderer K :=
  ⟨coords⟩

/-- Modelled from the spec: BatchRenderer is not among the sources; `flush`
draws with the camera and leaves the buffer as it is. -/
def flush (r : BatchRenderer K) (_camera : Cam) : BatchRenderer K :=
  r

end BatchRenderer

/-! ## Curve.js -/

/-- The object `this.points`. -/
structure CurvePoints (K : Type) where
  control : List K
  curve : List K

/-- The object `this.renderers`. -/
structure CurveRenderers (K : Type) where
  control : BatchRenderer K
  curve : BatchRenderer K

/-- The fields of a `Curve` object; `Cam` is the type of the camera it keeps. -/
structure Curve (K Cam : Type) where
  _camera : Cam
  _curveLength : Nat
  _normals : List K
  _slopes : List K
  points : CurvePoints K
  renderers : CurveRenderers K
  _iterations : Nat
  _tempPoint : Vec3 K
  _offset : Nat

/-- The class of the object under construction, as far as `Curve.js` looks at
it: whether it is `Curve` itself (`this.constructor == Curve`), and the methods
`_calculate` and `_reset` a subclass may define (`none` when it does not: the
base class defines neither). -/
structure CurveClass (K Cam : Type) where
  isCurve : Bool
  _calculate : Option (Curve K Cam → Except JsError (Curve K Cam))
  _reset : Option (Curve K Cam → List K → Nat → Except JsError (Curve K Cam))

namespace Curve

variable {K Cam : Type} [LinearOrderedField K]

/-- The constructor `constructor (gl, camera, control=[], iterations=20)`; an
omitted argument is `none`.  The graphics context only reaches the renderers
and is left out. -/
def constructor (cls : CurveClass K Cam) (camera : Cam) (_control : Option (List K))
    (iterations : Option Nat) : Except JsError (Curve K Cam) :=
  let iterations := iterations.getD 20
  let _curveLength := iterations * 3 + 3
  let _normals : List K := List.replicate 63 0
  let _slopes : List K := List.replicate (63 / 3) 0
  if cls.isCurve then .error .TypeError
  else if cls._calculate.isNone then .error .TypeError
  else
    .ok
      { _camera := camera
        _curveLength := _curveLength
        _normals := _normals
        _slopes := _slopes
        points := { control := List.replicate 60 0, curve := List.replicate _curveLength 0 }
        renderers := { control := ⟨[]⟩, curve := ⟨[]⟩ }
        _iterations := iterations
        _tempPoint := vec3.create
        _offset := 0 }

/-- The method `_resetCurveRenderer`: `this._calculate ()`, then a reset of
the curve renderer with the curve samples. -/
def _resetCurveRenderer (cls : CurveClass K Cam) (c : Curve K Cam) :
    Except JsError (Curve K Cam) :=
  match cls._calculate with
  | none => .error .TypeError
  | some calculate =>
    match calculate c with
    | .error e => .error e
    | .ok c1 =>
      .ok { c1 with
        renderers := { c1.renderers with curve := c1.renderers.curve.reset c1.points.curve } }

/-- The method `_resetControlRenderer`. -/
def _resetControlRenderer (c : Curve K Cam) : Curve K Cam :=
  { c with
    renderers := { c.renderers with
      control := c.renderers.control.reset (TypedArray.subarray c.points.control 0 c._offset) } }

/-- The method `_appendToControlRenderer (points)`. -/
def _appendToControlRenderer (c : Curve K Cam) (points : List K) :
    Except JsError (Curve K Cam) :=
  match TypedArray.set c.points.control points c._offset with
  | .error e => .error e
  | .ok control =>
    .ok { c with
      points := { c.points with control := control }
      _offset := c._offset + points.length
      renderers := { c.renderers with control := c.renderers.control.submit points } }

/-- The method `setControlPoints (controlPoints, offset)`: a call of
`this._reset`, a method that `Curve.js` does not define. -/
def setControlPoints (cls : CurveClass K Cam) (c : Curve K Cam) (controlPoints : List K)
    (offset : Nat) : Except JsError (Curve K Cam) :=
  match cls._reset with
  | none => .error .TypeError
  | some reset => reset c controlPoints offset

/-- The setter `iterations`. -/
def set_iterations (cls : CurveClass K Cam) (c : Curve K Cam) (iterations : Nat) :
    Except JsError (Curve K Cam) :=
  let c1 := { c with _iterations := iterations }
  let c2 := { c1 with
    points := { c1.points with curve := List.replicate (iterations * 3 + 3) 0 } }
  _resetCurveRenderer cls c2

/-- The method `render`. -/
def render (c : Curve K Cam) : Curve K Cam :=
  let c1 := { c with
    renderers := { c.renderers with curve := c.renderers.curve.flush c._camera } }
  { c1 with
    renderers := { c1.renderers with control := c1.renderers.control.flush c1._camera } }

/-- The method `updateControlPoint (index, point)`. -/
def updateControlPoint (cls : CurveClass K Cam) (c : Curve K Cam) (index : Nat)
    (point : List K) : Except JsError (Curve K Cam) :=
  match TypedArray.set c.points.control point (index * 3) with
  | .error e => .error e
  | .ok control =>
    let c1 := { c with points := { c.points with control := control } }
    let c2 := { c1 with
      renderers := { c1.renderers with
        control := c1.renderers.control.update index point } }
    _resetCurveRenderer cls c2

/-- The loop of `intersectsControlPoint` from the index `i` on:
`for (...; i < this._offset; i+=3)`. -/
def intersectsControlPointLoop (control : List K) (offset : Nat) (p : Vec3 K) (error : K)
    (i : Nat) : Int :=
  if i < offset then
    let x := p.x - TypedArray.get control i
    let y := p.y - TypedArray.get control (i + 1)
    let z := p.z - TypedArray.get control (i + 2)
    let dist := x * x + y * y + z * z
    if dist < error then ((i / 3 : Nat) : Int)
    else intersectsControlPointLoop control offset p error (i + 3)
  else -1
termination_by offset - i

/-- The method `intersectsControlPoint (p, error=0.01)`; an omitted `error` is
`none`.  The loop index is a multiple of 3 throughout, so `i/3` is the
quotient. -/
def intersectsControlPoint (c : Curve K Cam) (p : Vec3 K) (error : Option K) : Int :=
  intersectsControlPointLoop c.points.control c._offset p (error.getD (1 / 100)) 0

/-- The variables of `_calculateSlopes` at the head of its loop. -/
structure SlopesState (K : Type) where
  i : Nat
  lx : K
  ly : K
  cx : K
  cy : K
  slopes : List K

/-- The loop of `_calculateSlopes`: `for (var i = 3; i < n-3; i += 3)`, from
the state `s` on; the result is the state at the exit. -/
def _calculateSlopesLoop (atan2 : K → K → K) (curve : List K) (n : Nat)
    (s : SlopesState K) : SlopesState K :=
  if s.i + 3 < n then
    let cx := TypedArray.get curve s.i
    let cy := TypedArray.get curve (s.i + 1)
    let slopes := TypedArray.put s.slopes (TypedArray.div3 (some s.i)) (atan2 (cy - s.ly) (cx - s.lx))
    _calculateSlopesLoop atan2 curve n
      { i := s.i + 3, lx := cx, ly := cy, cx := cx, cy := cy, slopes := slopes }
  else s
termination_by n - s.i

/-- The method `_calculateSlopes`, with `Math.atan2` as the parameter `atan2`.
The first write is at `i/3` with the loop variable `i` (a `var`, hoisted to
the top of the function) not yet assigned. -/
def _calculateSlopes (atan2 : K → K → K) (c : Curve K Cam) : Curve K Cam :=
  let n := c.points.curve.length
  let lx := TypedArray.get c.points.curve 0
  let ly := TypedArray.get c.points.curve 1
  let cx := TypedArray.get c.points.curve 3
  let cy := TypedArray.get c.points.curve 4
  let i : Option Nat := none
  let slopes := TypedArray.put c._slopes (TypedArray.div3 i) (atan2 (cy - ly) (cx - lx))
  let s := _calculateSlopesLoop atan2 c.points.curve n
    { i := 3, lx := lx, ly := ly, cx := cx, cy := cy, slopes := slopes }
  let cx := TypedArray.get c.points.curve s.i
  let cy := TypedArray.get c.points.curve (s.i + 1)
  { c with
    _slopes := TypedArray.put s.slopes (TypedArray.div3 (some s.i)) (atan2 (cy - s.ly) (cx - s.lx)) }

/-- The variables of `_calculateNormals` at the head of its loop. -/
structure NormalsState (K : Type) where
  i : Nat
  lx : K
  ly : K
  cx : K
  cy : K
  tmpNormal : Vec3 K
  normals : List K

/-- The loop of `_calculateNormals`: `for (var i = 3; i < n-3; i += 3)`, from
the state `s` on; the result is the state at the exit, or the RangeError of
`this._normals.set`.  In the body `normalize` comes before `cross`, which then
overwrites its result. -/
def _calculateNormalsLoop (sqrt : K → K) (curve : List K) (n : Nat)
    (s : NormalsState K) : Except JsError (NormalsState K) :=
  if s.i + 3 < n then
    let cx := TypedArray.get curve s.i
    let cy := TypedArray.get curve (s.i + 1)
    let _tmpNormal := vec3.normalize sqrt s.tmpNormal s.tmpNormal
    let tmpNormal := vec3.cross ⟨cx - s.lx, cy - s.ly, 0⟩ ⟨0, 0, -1⟩
    match TypedArray.set s.normals [tmpNormal.x, tmpNormal.y, tmpNormal.z] s.i with
    | .error e => .error e
    | .ok normals =>
      _calculateNormalsLoop sqrt curve n
        { i := s.i + 3, lx := cx, ly := cy, cx := cx, cy := cy, tmpNormal := tmpNormal,
          normals := normals }
  else .ok s
termination_by n - s.i

/-- The method `_calculateNormals`, with `Math.sqrt` as the parameter `sqrt`. -/
def _calculateNormals (sqrt : K → K) (c : Curve K Cam) : Except JsError (Curve K Cam) :=
  let n := c.points.curve.length
  let lx := TypedArray.get c.points.curve 0
  let ly := TypedArray.get c.points.curve 1
  let cx := TypedArray.get c.points.curve 3
  let cy := TypedArray.get c.points.curve 4
  let _tmpNormal : Vec3 K := vec3.create
  let tmpNormal := vec3.cross ⟨cx - lx, cy - ly, 0⟩ ⟨0, 0, -1⟩
  let tmpNormal := vec3.normalize sqrt tmpNormal tmpNormal
  match TypedArray.set c._normals [tmpNormal.x, tmpNormal.y, tmpNormal.z] 0 with
  | .error e => .error e
  | .ok normals =>
    match _calculateNormalsLoop sqrt c.points.curve n
        { i := 3, lx := lx, ly := ly, cx := cx, cy := cy, tmpNormal := tmpNormal,
          normals := normals } with
    | .error e => .error e
    | .ok s =>
      let tmpNormal := vec3.cross ⟨s.cx - s.lx, s.cy - s.ly, 0⟩ ⟨0, 0, -1⟩
      let tmpNormal := vec3.normalize sqrt tmpNormal tmpNormal
      match TypedArray.set s.normals [tmpNormal.x, tmpNormal.y, tmpNormal.z] s.i with
      | .error e => .error e
      | .ok normals => .ok { c with _normals := normals }

end Curve

/-- The squared Euclidean distance between `p` and control point `j` of a
curve, the point held in scalars `3*j`, `3*j+1` and `3*j+2` of the control
buffer. -/
def Curve.controlDistSq {K Cam : Type} [LinearOrderedField K] (c : Curve K Cam) (p : Vec3 K)
    (j : Nat) : K :=
  (p.x - TypedArray.get c.points.control (3 * j)) * (p.x - TypedArray.get c.points.control (3 * j))
    + (p.y - TypedArray.get c.points.control (3 * j + 1))
      * (p.y - TypedArray.get c.points.control (3 * j + 1))
    + (p.z - TypedArray.get c.points.control (3 * j + 2))
      * (p.z - TypedArray.get c.points.control (3 * j + 2))

/-- A curve state with the given control buffer, write offset and curve
samples, its tangent angles and normals as a new curve has them; the states of
the examples. -/
def Curve.ofBuffers {K : Type} [LinearOrderedField K] (control : List K) (offset : Nat)
    (curve : List K) : Curve K Unit :=
  { _camera := ()
    _curveLength := curve.length
    _normals := List.replicate 63 0
    _slopes := List.replicate (63 / 3) 0
    points := { control := control, curve := curve }
    renderers := { control := ⟨[]⟩, curve := ⟨[]⟩ }
    _iterations := curve.length / 3 - 1
    _tempPoint := vec3.create
    _offset := offset }

/-- A `_calculate` that only populates the curve-sample buffer: it fills the
buffer in place, leaves every other field of the curve as it was, and does not
throw. -/
def CurveClass.OnlyPopulatesCurve {K Cam : Type}
    (calculate : Curve K Cam → Except JsError (Curve K Cam)) : Prop :=
  ∀ s : Curve K Cam, ∃ samples : List K, samples.length = s.points.curve.length
    ∧ calculate s = .ok { s with points := { s.points with curve := samples } }

/-- The `_calculate` of the subclass of the examples: it fills the buffer in
place with samples on the X axis, sample `k` at `(2k, 0, 0)`. -/
def Curve.lineCalculate {K Cam : Type} [LinearOrderedField K] (s : Curve K Cam) :
    Except JsError (Curve K Cam) :=
  .ok { s with
    points := { s.points with
      curve := (List.range s.points.curve.length).map
        (fun i => if i % 3 = 0 then 2 * ((i / 3 : Nat) : K) else 0) } }

/-- The subclass of the examples: it defines `_calculate` and nothing else. -/
def CurveClass.line {K Cam : Type} [LinearOrderedField K] : CurveClass K Cam :=
  { isCurve := false, _calculate := some Curve.lineCalculate, _reset := none }

/-- The tangent angle the backward difference gives for sample `j` of a
curve-sample buffer: `atan2 (y_j - y_(j-1), x_j - x_(j-1))`. -/
def Curve.backwardSlope {K : Type} [LinearOrderedField K] (atan2 : K → K → K) (curve : List K) (j : Nat) : K :=
  atan2 (TypedArray.get curve (3 * j + 1) - TypedArray.get curve (3 * (j - 1) + 1))
    (TypedArray.get curve (3 * j) - TypedArray.get curve (3 * (j - 1)))

/-- The X component of the in-plane tangent of sample `i` of a curve-sample
buffer: sample `i` minus sample `i-1`, and sample 1 minus sample 0 for the
first sample. -/
def Curve.tangentX {K : Type} [LinearOrderedField K] (curve : List K) (i : Nat) : K :=
  if i = 0 then TypedArray.get curve 3 - TypedArray.get curve 0
  else TypedArray.get curve (3 * i) - TypedArray.get curve (3 * (i - 1))

/-- The Y component of the in-plane tangent of sample `i`. -/
def Curve.tangentY {K : Type} [LinearOrderedField K] (curve : List K) (i : Nat) : K :=
  if i = 0 then TypedArray.get curve 4 - TypedArray.get curve 1
  else TypedArray.get curve (3 * i + 1) - TypedArray.get curve (3 * (i - 1) + 1)

/-- The normal stored for sample `i` (scalars `3*i`, `3*i+1`, `3*i+2` of
`normals`) has a z-component of 0 and is orthogonal to the tangent
`(dx, dy, 0)` of that sample. -/
def Curve.NormalInPlane {K : Type} [LinearOrderedField K] (curve normals : List K) (i : Nat) :
    Prop :=
  TypedArray.get normals (3 * i + 2) = 0
    ∧ TypedArray.get normals (3 * i) * Curve.tangentX curve i
        + TypedArray.get normals (3 * i + 1) * Curve.tangentY curve i
        + TypedArray.get normals (3 * i + 2) * 0 = 0

/-- One call on a curve: a buffer helper, `updateControlPoint`, the
`iterations` setter or `render`. -/
inductive CurveOp (K : Type) where
  | appendToControlRenderer (points : List K)
  | resetControlRenderer
  | updateControlPoint (index : Nat) (point : List K)
  | resetCurveRenderer
  | setIterations (iterations : Nat)
  | render

/-- The result of one call on a curve. -/
def CurveOp.apply {K Cam : Type} [LinearOrderedField K] (cls : CurveClass K Cam)
    (c : Curve K Cam) : CurveOp K → Except JsError (Curve K Cam)
  | appendToControlRenderer points => c._appendToControlRenderer points
  | resetControlRenderer => .ok c._resetControlRenderer
  | updateControlPoint index point => c.updateControlPoint cls index point
  | resetCurveRenderer => c._resetCurveRenderer cls
  | setIterations iterations => c.set_iterations cls iterations
  | render => .ok c.render

/-- The side conditions on a call in a state: an append fits the capacity of
60 scalars, and an update writes a 3-component point at a populated index. -/
def CurveOp.Admissible {K Cam : Type} (c : Curve K Cam) : CurveOp K → Prop
  | appendToControlRenderer points => c._offset + points.length ≤ 60
  | updateControlPoint index point => point.length = 3 ∧ index * 3 + 3 ≤ c._offset
  | _ => True

/-- The states a curve reaches from its construction through calls that meet
the side conditions and return. -/
inductive Curve.Reachable {K Cam : Type} [LinearOrderedField K] (cls : CurveClass K Cam) :
    Curve K Cam → Prop where
  | constructed (camera : Cam) (control : Option (List K)) (iterations : Option Nat)
      (c : Curve K Cam) (h : Curve.constructor cls camera control iterations = .ok c) :
      Curve.Reachable cls c
  | step (c c' : Curve K Cam) (op : CurveOp K) (hc : Curve.Reachable cls c)
      (hop : op.Admissible c) (h : op.apply cls c = .ok c') : Curve.Reachable cls c'

/-- The buffer of the control-point renderer is `control[0 .. writeOffset)`,
the write offset is within the control buffer, and that buffer has its 60
scalars. -/
def Curve.ControlMirrored {K Cam : Type} (c : Curve K Cam) : Prop :=
  c.renderers.control.coords = TypedArray.subarray c.points.control 0 c._offset
    ∧ c._offset ≤ c.points.control.length ∧ c.points.control.length = 60

/-! ## PaintBoard.js -/

/-- The fields of a `PaintBoard` that record the input state: the objects
`_buttons` and `_keys`, a property that was never assigned being `none`. -/
structure PaintBoard where
  _buttons : Nat → Option Bool
  _keys : Nat → Option Bool

/-- The properties of the argument of `bindControls` that the method reads; a
property that is absent is `none`. -/
structure ControlProps where
  keys : Option Bool
  mouse : Option Bool
  interceptRightClick : Option Bool

/-- The groups of listeners that `bindControls` registers on the window. -/
structure Listeners where
  keys : Bool
  mouse : Bool
  interceptRightClick : Bool

/-- The events the listeners are registered for. -/
inductive WindowEvent where
  | keydown (keyCode : Nat)
  | keyup (keyCode : Nat)
  | mousedown (button : Nat)
  | mouseup (button : Nat)
  | contextmenu

namespace PaintBoard

/-- The expression `a || b` where `a` is a property that holds a boolean or is
absent. -/
def orDefault (a : Option Bool) (b : Bool) : Bool :=
  match a with
  | some true => true
  | _ => b

/-- The fields `_buttons` and `_keys` after the constructor: two empty
objects. -/
def constructor : PaintBoard :=
  { _buttons := fun _ => none, _keys := fun _ => none }

/-- The listeners `bindControls (props={})` registers: `props.keys || true`,
`props.mouse || true` and `props.interceptRightClick || false` decide the
three groups. -/
def bindControls (props : Option ControlProps) : Listeners :=
  let props := props.getD { keys := none, mouse := none, interceptRightClick := none }
  { keys := orDefault props.keys true
    mouse := orDefault props.mouse true
    interceptRightClick := orDefault props.interceptRightClick false }

/-- The board after the registered listeners have run on one event. -/
def dispatch (l : Listeners) (pb : PaintBoard) : WindowEvent → PaintBoard
  | .keydown keyCode =>
    if l.keys then { pb with _keys := Function.update pb._keys keyCode (some true) } else pb
  | .keyup keyCode =>
    if l.keys then { pb with _keys := Function.update pb._keys keyCode (some false) } else pb
  | .mousedown button =>
    if l.mouse then { pb with _buttons := Function.update pb._buttons button (some false) }
    else pb
  | .mouseup button =>
    if l.mouse then { pb with _buttons := Function.update pb._buttons button (some false) }
    else pb
  | .contextmenu => pb

/-- The board after a sequence of events, first event first. -/
def run (l : Listeners) (pb : PaintBoard) (events : List WindowEvent) : PaintBoard :=
  events.foldl (dispatch l) pb

/-- The method `isKeyActive (code)`. -/
def isKeyActive (pb : PaintBoard) (code : Nat) : Option Bool :=
  pb._keys code

/-- The method `isButtonActive (button)`: it returns `this._buttons[code]`,
where `code` is not its parameter but a free variable, `globalCode`: a global
of that name if the page has one, and a ReferenceError if it has none. -/
def isButtonActive (globalCode : Option Nat) (pb : PaintBoard) (_button : Nat) :
    Except JsError (Option Bool) :=
  match globalCode with
  | none => .error .ReferenceError
  | some code => .ok (pb._buttons code)

end PaintBoard

/-- In the library `gl`, `b` is a two-sided inverse of `a`: both products are
the identity matrix `create`. -/
def Mat4Lib.IsInverse {K M : Type} (gl : Mat4Lib K M) (b a : M) : Prop :=
  gl.multiply b a = gl.create ∧ gl.multiply a b = gl.create

/-- The contract of the library's `invert`: whatever `out` held, `invert out a`
is an inverse of `a` whenever `a` has one. -/
def Mat4Lib.InvertInverts {K M : Type} (gl : Mat4Lib K M) : Prop :=
  ∀ out a b : M, gl.IsInverse b a → gl.IsInverse (gl.invert out a) a

/-- The cache invariant of the inverse matrix: when the inverse is not marked
dirty, the forward matrix is not dirty either and the cached inverse is the
result of `invert` on the cached forward matrix. -/
def Camera.InverseCoherent {K M : Type} (gl : Mat4Lib K M) (c : Camera K M) : Prop :=
  c._dirtyInverse = false →
    c._dirty = false ∧
      ∃ out : M, c._inverseProjectionViewMatrix = gl.invert out c._projectionViewMatrix

/-! ## Theorems -/

section CameraCache

variable {K M : Type} [Field K]

theorem Camera.update_projectionViewMatrix (PI : K) (gl : Mat4Lib K M) (c : Camera K M) :
    (c._updateProjectionViewMatrix PI gl)._projectionViewMatrix
      = c.freshProjectionView PI gl := by
  simp [Camera._updateProjectionViewMatrix, Camera.freshProjectionView, deg_to_rad]

theorem Camera.update_freshProjectionView (PI : K) (gl : Mat4Lib K M) (c : Camera K M) :
    (c._updateProjectionViewMatrix PI gl).freshProjectionView PI gl
      = c.freshProjectionView PI gl := by
  simp [Camera._updateProjectionViewMatrix, Camera.freshProjectionView]

theorem Camera.projectionViewMatrix_fresh (PI : K) (gl : Mat4Lib K M) (c : Camera K M)
    (h : c.ViewCoherent PI gl) :
    (c.projectionViewMatrix PI gl).1 = c.freshProjectionView PI gl := by
  unfold Camera.projectionViewMatrix
  cases hd : c._dirty with
  | true => simp [Camera.update_projectionViewMatrix]
  | false => simpa using h hd

theorem Camera.viewCoherent_read (PI : K) (gl : Mat4Lib K M) (c : Camera K M)
    (h : c.ViewCoherent PI gl) :
    (c.projectionViewMatrix PI gl).2.ViewCoherent PI gl := by
  unfold Camera.projectionViewMatrix Camera.ViewCoherent
  cases hd : c._dirty with
  | true =>
    intro _
    simp [Camera._updateProjectionViewMatrix, Camera.freshProjectionView, deg_to_rad]
  | false => simpa using fun _ => h hd

theorem Camera.viewCoherent_readInverse (PI : K) (gl : Mat4Lib K M) (c : Camera K M)
    (h : c.ViewCoherent PI gl) :
    (c.inverseProjectionViewMatrix PI gl).2.ViewCoherent PI gl := by
  unfold Camera.inverseProjectionViewMatrix Camera.ViewCoherent
  cases hd : c._dirty with
  | true =>
    intro _
    simp only [if_true]
    split <;>
      simp [Camera._updateProjectionViewMatrix, Camera.freshProjectionView, deg_to_rad]
  | false =>
    intro _
    have := h hd
    simp only [Bool.false_eq_true, if_false]
    split <;> simpa [Camera.freshProjectionView] using this

theorem CameraOp.viewCoherent_apply (PI : K) (gl : Mat4Lib K M) (c : Camera K M)
    (op : CameraOp K) (h : c.ViewCoherent PI gl) :
    (CameraOp.apply PI gl c op).ViewCoherent PI gl := by
  cases op with
  | readProjectionViewMatrix => exact Camera.viewCoherent_read PI gl c h
  | readInverseProjectionViewMatrix => exact Camera.viewCoherent_readInverse PI gl c h
  | _ => intro hd; simp [CameraOp.apply, Camera.set_position, Camera.set_at, Camera.set_up,
      Camera.set_ar, Camera.set_fov, Camera.incrementPosition] at hd

theorem CameraOp.viewCoherent_run (PI : K) (gl : Mat4Lib K M) (ops : List (CameraOp K)) :
    ∀ c : Camera K M, c.ViewCoherent PI gl → (CameraOp.run PI gl c ops).ViewCoherent PI gl := by
  induction ops with
  | nil => intro c h; exact h
  | cons op ops ih =>
    intro c h
    exact ih _ (CameraOp.viewCoherent_apply PI gl c op h)

theorem Camera.viewCoherent_constructor (PI : K) (gl : Mat4Lib K M) (arrays : Ref → Vec3 K)
    (fov near far : Option K) :
    (Camera.constructor gl arrays fov near far).ViewCoherent PI gl := by
  intro hd
  simp [Camera.constructor] at hd

/-- C1: after any finite sequence of setter, incrementPosition and matrix-read
calls on a freshly constructed camera, a read of projectionViewMatrix returns
the matrix that _updateProjectionViewMatrix computes from the current
parameters, perspective(fov*PI/180, ar, near, far) * invert(lookAt(position,
at, up)): never a matrix of earlier parameter values.  Here position, at and
up are the contents, at the time of the read, of the arrays the camera holds. -/
theorem Camera.projectionViewMatrix_never_stale (PI : K) (gl : Mat4Lib K M)
    (arrays : Ref → Vec3 K) (fov near far : Option K) (ops : List (CameraOp K)) :
    ((CameraOp.run PI gl
        (Camera.constructor gl arrays fov near far) ops).projectionViewMatrix PI gl).1
        = ((CameraOp.run PI gl
            (Camera.constructor gl arrays fov near far) ops)._updateProjectionViewMatrix
            PI gl)._projectionViewMatrix
      ∧ ((CameraOp.run PI gl
          (Camera.constructor gl arrays fov near far) ops).projectionViewMatrix PI gl).1
        = gl.multiply
            (gl.perspective
              ((CameraOp.run PI gl (Camera.constructor gl arrays fov near far) ops)._fov * PI / 180)
              (CameraOp.run PI gl (Camera.constructor gl arrays fov near far) ops)._ar
              (CameraOp.run PI gl (Camera.constructor gl arrays fov near far) ops)._near
              (CameraOp.run PI gl (Camera.constructor gl arrays fov near far) ops)._far)
            (gl.invert
              (gl.lookAt ((CameraOp.run PI gl
                  (Camera.constructor gl arrays fov near far) ops).arrays (CameraOp.run PI gl
                  (Camera.constructor gl arrays fov near far) ops)._position)
                ((CameraOp.run PI gl (Camera.constructor gl arrays fov near far) ops).arrays
                    (CameraOp.run PI gl (Camera.constructor gl arrays fov near far) ops)._at)
                ((CameraOp.run PI gl (Camera.constructor gl arrays fov near far) ops).arrays
                    (CameraOp.run PI gl (Camera.constructor gl arrays fov near far) ops)._up))
              (gl.lookAt ((CameraOp.run PI gl
                  (Camera.constructor gl arrays fov near far) ops).arrays (CameraOp.run PI gl
                  (Camera.constructor gl arrays fov near far) ops)._position)
                ((CameraOp.run PI gl (Camera.constructor gl arrays fov near far) ops).arrays
                    (CameraOp.run PI gl (Camera.constructor gl arrays fov near far) ops)._at)
                ((CameraOp.run PI gl (Camera.constructor gl arrays fov near far) ops).arrays
                    (CameraOp.run PI gl
                    (Camera.constructor gl arrays fov near far) ops)._up))) := by
  have h := CameraOp.viewCoherent_run PI gl ops _
    (Camera.viewCoherent_constructor PI gl arrays fov near far)
  have h1 := Camera.projectionViewMatrix_fresh PI gl _ h
  refine ⟨?_, ?_⟩
  · rw [h1, Camera.update_projectionViewMatrix]
  · rw [h1]; rfl

theorem Camera.inverseCoherent_constructor (gl : Mat4Lib K M) (arrays : Ref → Vec3 K)
    (fov near far : Option K) :
    (Camera.constructor gl arrays fov near far).InverseCoherent gl := by
  intro hd
  simp [Camera.constructor] at hd

theorem Camera.inverseCoherent_read (PI : K) (gl : Mat4Lib K M) (c : Camera K M)
    (h : c.InverseCoherent gl) :
    (c.projectionViewMatrix PI gl).2.InverseCoherent gl := by
  unfold Camera.projectionViewMatrix Camera.InverseCoherent
  cases hd : c._dirty with
  | true =>
    intro hi
    simp [Camera._updateProjectionViewMatrix] at hi
    have := (h hi).1
    simp [hd] at this
  | false => simpa using h

theorem Camera.inverseCoherent_readInverse (PI : K) (gl : Mat4Lib K M) (c : Camera K M)
    (h : c.InverseCoherent gl) :
    (c.inverseProjectionViewMatrix PI gl).2.InverseCoherent gl := by
  unfold Camera.inverseProjectionViewMatrix Camera.InverseCoherent
  intro _
  cases hd : c._dirty with
  | true =>
    cases hi : c._dirtyInverse with
    | true =>
      simp [Camera._updateProjectionViewMatrix, hi]
      exact ⟨_, rfl⟩
    | false =>
      have := (h hi).1
      simp [hd] at this
  | false =>
    cases hi : c._dirtyInverse with
    | true =>
      simp [hi]
      exact ⟨hd, _, rfl⟩
    | false => simpa [hi, hd] using (h hi).2

theorem CameraOp.inverseCoherent_apply (PI : K) (gl : Mat4Lib K M) (c : Camera K M)
    (op : CameraOp K) (h : c.InverseCoherent gl) :
    (CameraOp.apply PI gl c op).InverseCoherent gl := by
  cases op with
  | readProjectionViewMatrix => exact Camera.inverseCoherent_read PI gl c h
  | readInverseProjectionViewMatrix => exact Camera.inverseCoherent_readInverse PI gl c h
  | _ => intro hd; simp [CameraOp.apply, Camera.set_position, Camera.set_at, Camera.set_up,
      Camera.set_ar, Camera.set_fov, Camera.incrementPosition] at hd

theorem CameraOp.inverseCoherent_run (PI : K) (gl : Mat4Lib K M) (ops : List (CameraOp K)) :
    ∀ c : Camera K M, c.InverseCoherent gl → (CameraOp.run PI gl c ops).InverseCoherent gl := by
  induction ops with
  | nil => intro c h; exact h
  | cons op ops ih =>
    intro c h
    exact ih _ (CameraOp.inverseCoherent_apply PI gl c op h)

/-- What a read of the inverse returns in a state that satisfies both cache
invariants: `invert` applied to the matrix the parameters give, and the forward
matrix stored after the read is that matrix. -/
theorem Camera.inverseProjectionViewMatrix_fresh (PI : K) (gl : Mat4Lib K M) (c : Camera K M)
    (hv : c.ViewCoherent PI gl) (hi : c.InverseCoherent gl) :
    (∃ out : M, (c.inverseProjectionViewMatrix PI gl).1
        = gl.invert out (c.freshProjectionView PI gl))
      ∧ (c.inverseProjectionViewMatrix PI gl).2._projectionViewMatrix
        = c.freshProjectionView PI gl
      ∧ (c.inverseProjectionViewMatrix PI gl).2._dirty = false := by
  unfold Camera.inverseProjectionViewMatrix
  cases hd : c._dirty with
  | true =>
    cases hdi : c._dirtyInverse with
    | true =>
      simp [Camera._updateProjectionViewMatrix, hdi, Camera.freshProjectionView, deg_to_rad]
      exact ⟨_, rfl⟩
    | false =>
      have := (hi hdi).1
      simp [hd] at this
  | false =>
    have hpv := hv hd
    cases hdi : c._dirtyInverse with
    | true =>
      simp [hdi, hd, ← hpv]
      exact ⟨_, rfl⟩
    | false =>
      obtain ⟨out, ho⟩ := (hi hdi).2
      simp only [hdi, hd, Bool.false_eq_true, if_false, ← hpv]
      exact ⟨⟨out, ho⟩, trivial, trivial⟩

/-- C2: after any finite sequence of setter, incrementPosition and matrix-read
calls on a freshly constructed camera, and for a library whose invert writes
the inverse whenever there is one: if the matrix that projectionViewMatrix
returns has an inverse, a read of inverseProjectionViewMatrix returns an
inverse of it.  The forward matrix is refreshed first (the matrix cached after
the read is the one the current parameters give), and the returned matrix is
the result of invert on that matrix, never on an earlier one. -/
theorem Camera.inverseProjectionViewMatrix_inverts (PI : K) (gl : Mat4Lib K M)
    (hgl : gl.InvertInverts) (arrays : Ref → Vec3 K) (fov near far : Option K) (ops : List
        (CameraOp K)) (b : M)
    (hb : gl.IsInverse b
      ((CameraOp.run PI gl
          (Camera.constructor gl arrays fov near far) ops).projectionViewMatrix PI gl).1) :
    gl.IsInverse
        ((CameraOp.run PI gl
            (Camera.constructor gl arrays fov near far) ops).inverseProjectionViewMatrix
          PI gl).1
        ((CameraOp.run PI gl
            (Camera.constructor gl arrays fov near far) ops).projectionViewMatrix PI gl).1
      ∧ ((CameraOp.run PI gl
          (Camera.constructor gl arrays fov near far) ops).inverseProjectionViewMatrix
          PI gl).2._projectionViewMatrix
        = (CameraOp.run PI gl
            (Camera.constructor gl arrays fov near far) ops).freshProjectionView PI gl
      ∧ ∃ out : M,
        ((CameraOp.run PI gl
            (Camera.constructor gl arrays fov near far) ops).inverseProjectionViewMatrix
          PI gl).1
        = gl.invert out
          ((CameraOp.run PI gl
              (Camera.constructor gl arrays fov near far) ops).freshProjectionView PI gl) := by
  have hv := CameraOp.viewCoherent_run PI gl ops _
    (Camera.viewCoherent_constructor PI gl arrays fov near far)
  have hi := CameraOp.inverseCoherent_run PI gl ops _
    (Camera.inverseCoherent_constructor gl arrays fov near far)
  have h1 := Camera.projectionViewMatrix_fresh PI gl _ hv
  obtain ⟨⟨out, ho⟩, hpv, _⟩ := Camera.inverseProjectionViewMatrix_fresh PI gl _ hv hi
  rw [h1] at hb ⊢
  refine ⟨?_, hpv, out, ho⟩
  rw [ho]
  exact hgl out _ b hb

/-- A read of the forward matrix right after a read of the inverse returns the
matrix the parameters give. -/
theorem Camera.projectionViewMatrix_after_inverse (PI : K) (gl : Mat4Lib K M) (c : Camera K M)
    (hv : c.ViewCoherent PI gl) (hi : c.InverseCoherent gl) :
    ((c.inverseProjectionViewMatrix PI gl).2.projectionViewMatrix PI gl).1
      = c.freshProjectionView PI gl := by
  obtain ⟨_, hpv, hd⟩ := Camera.inverseProjectionViewMatrix_fresh PI gl c hv hi
  unfold Camera.projectionViewMatrix
  simp only [hd, Bool.false_eq_true, if_false]
  exact hpv

end CameraCache

section GlMatrix

variable {K : Type} [LinearOrderedField K]

open mat4 in
theorem mat4.determinant_multiply (a b : Mat4 K) :
    mat4.determinant (mat4.multiply a b) = mat4.determinant a * mat4.determinant b := by
  simp only [determinant, multiply]
  ring

open mat4 in
theorem mat4.determinant_create : determinant (create : Mat4 K) = 1 := by
  simp [determinant, create]

set_option maxHeartbeats 1000000 in
open mat4 in
theorem mat4.multiply_invert (out a : Mat4 K) (h : determinant a ≠ 0) :
    multiply (invert out a) a = create ∧ multiply a (invert out a) = create := by
  obtain ⟨d, hd⟩ : ∃ d, determinant a * d = 1 := ⟨1 / determinant a, by field_simp⟩
  have hd1 : 1 / determinant a = d := by
    field_simp
    linear_combination -hd
  have hinv : invert out a = if determinant a = 0 then out else
      { m0 := (a.m5 * (a.m10 * a.m15 - a.m11 * a.m14) - a.m6 *
          (a.m9 * a.m15 - a.m11 * a.m13) + a.m7 * (a.m9 * a.m14 - a.m10 * a.m13)) *
          (1 / determinant a)
        m1 := (a.m2 * (a.m9 * a.m15 - a.m11 * a.m13) - a.m1 *
            (a.m10 * a.m15 - a.m11 * a.m14) - a.m3 * (a.m9 * a.m14 - a.m10 * a.m13)) *
            (1 / determinant a)
        m2 := (a.m13 * (a.m2 * a.m7 - a.m3 * a.m6) - a.m14 * (a.m1 * a.m7 - a.m3 * a.m5) + a.m15 *
            (a.m1 * a.m6 - a.m2 * a.m5)) * (1 / determinant a)
        m3 := (a.m10 * (a.m1 * a.m7 - a.m3 * a.m5) - a.m9 * (a.m2 * a.m7 - a.m3 * a.m6) - a.m11 *
            (a.m1 * a.m6 - a.m2 * a.m5)) * (1 / determinant a)
        m4 := (a.m6 * (a.m8 * a.m15 - a.m11 * a.m12) - a.m4 *
            (a.m10 * a.m15 - a.m11 * a.m14) - a.m7 * (a.m8 * a.m14 - a.m10 * a.m12)) *
            (1 / determinant a)
        m5 := (a.m0 * (a.m10 * a.m15 - a.m11 * a.m14) - a.m2 *
            (a.m8 * a.m15 - a.m11 * a.m12) + a.m3 * (a.m8 * a.m14 - a.m10 * a.m12)) *
            (1 / determinant a)
        m6 := (a.m14 * (a.m0 * a.m7 - a.m3 * a.m4) - a.m12 * (a.m2 * a.m7 - a.m3 * a.m6) - a.m15 *
            (a.m0 * a.m6 - a.m2 * a.m4)) * (1 / determinant a)
        m7 := (a.m8 * (a.m2 * a.m7 - a.m3 * a.m6) - a.m10 * (a.m0 * a.m7 - a.m3 * a.m4) + a.m11 *
            (a.m0 * a.m6 - a.m2 * a.m4)) * (1 / determinant a)
        m8 := (a.m4 * (a.m9 * a.m15 - a.m11 * a.m13) - a.m5 *
            (a.m8 * a.m15 - a.m11 * a.m12) + a.m7 * (a.m8 * a.m13 - a.m9 * a.m12)) *
            (1 / determinant a)
        m9 := (a.m1 * (a.m8 * a.m15 - a.m11 * a.m12) - a.m0 *
            (a.m9 * a.m15 - a.m11 * a.m13) - a.m3 * (a.m8 * a.m13 - a.m9 * a.m12)) *
            (1 / determinant a)
        m10 := (a.m12 * (a.m1 * a.m7 - a.m3 * a.m5) - a.m13 *
            (a.m0 * a.m7 - a.m3 * a.m4) + a.m15 * (a.m0 * a.m5 - a.m1 * a.m4)) * (1 / determinant a)
        m11 := (a.m9 * (a.m0 * a.m7 - a.m3 * a.m4) - a.m8 * (a.m1 * a.m7 - a.m3 * a.m5) - a.m11 *
            (a.m0 * a.m5 - a.m1 * a.m4)) * (1 / determinant a)
        m12 := (a.m5 * (a.m8 * a.m14 - a.m10 * a.m12) - a.m4 *
            (a.m9 * a.m14 - a.m10 * a.m13) - a.m6 * (a.m8 * a.m13 - a.m9 * a.m12)) *
            (1 / determinant a)
        m13 := (a.m0 * (a.m9 * a.m14 - a.m10 * a.m13) - a.m1 *
            (a.m8 * a.m14 - a.m10 * a.m12) + a.m2 * (a.m8 * a.m13 - a.m9 * a.m12)) *
            (1 / determinant a)
        m14 := (a.m13 * (a.m0 * a.m6 - a.m2 * a.m4) - a.m12 *
            (a.m1 * a.m6 - a.m2 * a.m5) - a.m14 * (a.m0 * a.m5 - a.m1 * a.m4)) * (1 / determinant a)
        m15 := (a.m8 * (a.m1 * a.m6 - a.m2 * a.m5) - a.m9 * (a.m0 * a.m6 - a.m2 * a.m4) + a.m10 *
            (a.m0 * a.m5 - a.m1 * a.m4)) * (1 / determinant a) } := rfl
  rw [hinv, if_neg h, hd1]
  simp only [determinant] at hd
  simp only [multiply, create, Mat4.mk.injEq]
  constructor
  · refine ⟨?_, ?_, ?_, ?_, ?_, ?_, ?_, ?_, ?_, ?_, ?_, ?_, ?_, ?_, ?_, ?_⟩
    · linear_combination hd
    · ring1
    · ring1
    · ring1
    · ring1
    · linear_combination hd
    · ring1
    · ring1
    · ring1
    · ring1
    · linear_combination hd
    · ring1
    · ring1
    · ring1
    · ring1
    · linear_combination hd
  · refine ⟨?_, ?_, ?_, ?_, ?_, ?_, ?_, ?_, ?_, ?_, ?_, ?_, ?_, ?_, ?_, ?_⟩
    · linear_combination hd
    · ring1
    · ring1
    · ring1
    · ring1
    · linear_combination hd
    · ring1
    · ring1
    · ring1
    · ring1
    · linear_combination hd
    · ring1
    · ring1
    · ring1
    · ring1
    · linear_combination hd


/-- The determinant of the perspective matrix of gl-matrix. -/
theorem mat4.determinant_perspective (tan : K → K) (fovy aspect near far : K) :
    mat4.determinant (mat4.perspective tan fovy aspect near far)
      = 1 / tan (fovy / 2) / aspect * (1 / tan (fovy / 2))
        * (2 * far * near * (1 / (near - far))) := by
  simp only [mat4.determinant, mat4.perspective]
  ring

/-- The perspective matrix is non-singular exactly when the tangent of half the
field of view, the aspect ratio, near and far are other than zero and near
differs from far. -/
theorem mat4.determinant_perspective_ne_zero_iff (tan : K → K) (fovy aspect near far : K) :
    mat4.determinant (mat4.perspective tan fovy aspect near far) ≠ 0
      ↔ tan (fovy / 2) ≠ 0 ∧ aspect ≠ 0 ∧ near ≠ 0 ∧ far ≠ 0 ∧ near ≠ far := by
  rw [mat4.determinant_perspective]
  simp only [ne_eq, mul_eq_zero, div_eq_zero_iff, one_ne_zero, false_or, or_self, not_or,
    OfNat.ofNat_ne_zero, sub_eq_zero]
  tauto

/-- The gl-matrix functions meet the contract of invert: a matrix with an
inverse has a determinant other than zero, and for such a matrix the cofactor
formula gives an inverse. -/
theorem glMatrix_invertInverts (sqrt tan : K → K) : (glMatrix sqrt tan).InvertInverts := by
  intro out a b hb
  have hdet : mat4.determinant a ≠ 0 := by
    intro h0
    have h1 := congrArg mat4.determinant hb.1
    simp only [glMatrix] at h1
    rw [mat4.determinant_multiply, mat4.determinant_create, h0, mul_zero] at h1
    exact zero_ne_one h1
  exact mat4.multiply_invert out a hdet

/-- With the gl-matrix functions, the product of the inverse read and the
forward read is the identity exactly when the forward matrix has a determinant
other than zero. -/
theorem Camera.inverse_mul_forward_iff (sqrt tan : K → K) (PI : K) (arrays : Ref → Vec3 K)
    (fov near far : Option K)
    (ops : List (CameraOp K)) :
    mat4.multiply
        ((CameraOp.run PI (glMatrix sqrt tan) (Camera.constructor
            (glMatrix sqrt tan) arrays fov near far)
          ops).inverseProjectionViewMatrix PI (glMatrix sqrt tan)).1
        (((CameraOp.run PI (glMatrix sqrt tan) (Camera.constructor
            (glMatrix sqrt tan) arrays fov near far)
          ops).inverseProjectionViewMatrix PI (glMatrix sqrt tan)).2.projectionViewMatrix PI
            (glMatrix sqrt tan)).1
      = mat4.create ↔
    mat4.determinant
      ((CameraOp.run PI (glMatrix sqrt tan) (Camera.constructor
          (glMatrix sqrt tan) arrays fov near far)
        ops).freshProjectionView PI (glMatrix sqrt tan)) ≠ 0 := by
  have hv := CameraOp.viewCoherent_run PI (glMatrix sqrt tan) ops _
    (Camera.viewCoherent_constructor PI (glMatrix sqrt tan) arrays fov near far)
  have hi := CameraOp.inverseCoherent_run PI (glMatrix sqrt tan) ops _
    (Camera.inverseCoherent_constructor (glMatrix sqrt tan) arrays fov near far)
  obtain ⟨⟨out, ho⟩, -, -⟩ := Camera.inverseProjectionViewMatrix_fresh PI _ _ hv hi
  rw [Camera.projectionViewMatrix_after_inverse PI _ _ hv hi, ho]
  constructor
  · intro h h0
    have h1 := congrArg mat4.determinant h
    rw [mat4.determinant_multiply, mat4.determinant_create, h0, mul_zero] at h1
    exact zero_ne_one h1
  · intro h
    exact (mat4.multiply_invert out _ h).1

/-- The determinant of the forward matrix is the product of the determinants of
the perspective matrix and of the view matrix. -/
theorem Camera.determinant_freshProjectionView (sqrt tan : K → K) (PI : K)
    (c : Camera K (Mat4 K)) :
    mat4.determinant (c.freshProjectionView PI (glMatrix sqrt tan))
      = mat4.determinant (mat4.perspective tan (c._fov * PI / 180) c._ar c._near c._far)
        * mat4.determinant (mat4.invert
            (mat4.lookAt sqrt (c.arrays c._position) (c.arrays c._at) (c.arrays c._up))
            (mat4.lookAt sqrt (c.arrays c._position) (c.arrays c._at) (c.arrays c._up))) := by
  simp only [Camera.freshProjectionView, glMatrix, mat4.determinant_multiply]

/-- C3 (amended): with the gl-matrix functions and after any sequence of
calls, the product inverseProjectionViewMatrix * projectionViewMatrix is the
identity matrix exactly when the projection-view matrix has a determinant
other than zero, that is when neither the perspective matrix nor the view
matrix is singular. -/
theorem Camera.inverse_mul_forward_identity_iff (sqrt tan : K → K) (PI : K)
    (arrays : Ref → Vec3 K) (fov near far : Option K) (ops : List (CameraOp K)) :
    (mat4.multiply
        ((CameraOp.run PI (glMatrix sqrt tan) (Camera.constructor
            (glMatrix sqrt tan) arrays fov near far)
          ops).inverseProjectionViewMatrix PI (glMatrix sqrt tan)).1
        (((CameraOp.run PI (glMatrix sqrt tan) (Camera.constructor
            (glMatrix sqrt tan) arrays fov near far)
          ops).inverseProjectionViewMatrix PI (glMatrix sqrt tan)).2.projectionViewMatrix PI
            (glMatrix sqrt tan)).1
      = mat4.create ↔
      mat4.determinant
        ((CameraOp.run PI (glMatrix sqrt tan) (Camera.constructor
            (glMatrix sqrt tan) arrays fov near far)
          ops).freshProjectionView PI (glMatrix sqrt tan)) ≠ 0)
    ∧ mat4.determinant
        ((CameraOp.run PI (glMatrix sqrt tan) (Camera.constructor
            (glMatrix sqrt tan) arrays fov near far)
          ops).freshProjectionView PI (glMatrix sqrt tan))
      = mat4.determinant
          (mat4.perspective tan
            ((CameraOp.run PI (glMatrix sqrt tan) (Camera.constructor
                (glMatrix sqrt tan) arrays fov near far)
              ops)._fov * PI / 180)
            (CameraOp.run PI (glMatrix sqrt tan) (Camera.constructor
                (glMatrix sqrt tan) arrays fov near far)
              ops)._ar
            (CameraOp.run PI (glMatrix sqrt tan) (Camera.constructor
                (glMatrix sqrt tan) arrays fov near far)
              ops)._near
            (CameraOp.run PI (glMatrix sqrt tan) (Camera.constructor
                (glMatrix sqrt tan) arrays fov near far)
              ops)._far)
        * mat4.determinant
          (mat4.invert
            (mat4.lookAt sqrt
              ((CameraOp.run PI (glMatrix sqrt tan)
                (Camera.constructor (glMatrix sqrt tan) arrays fov near far) ops).arrays
                (CameraOp.run PI (glMatrix sqrt tan)
                (Camera.constructor (glMatrix sqrt tan) arrays fov near far) ops)._position)
              ((CameraOp.run PI (glMatrix sqrt tan)
                (Camera.constructor (glMatrix sqrt tan) arrays fov near far) ops).arrays
                (CameraOp.run PI (glMatrix sqrt tan)
                (Camera.constructor (glMatrix sqrt tan) arrays fov near far) ops)._at)
              ((CameraOp.run PI (glMatrix sqrt tan)
                (Camera.constructor (glMatrix sqrt tan) arrays fov near far) ops).arrays
                (CameraOp.run PI (glMatrix sqrt tan)
                (Camera.constructor (glMatrix sqrt tan) arrays fov near far) ops)._up))
            (mat4.lookAt sqrt
              ((CameraOp.run PI (glMatrix sqrt tan)
                (Camera.constructor (glMatrix sqrt tan) arrays fov near far) ops).arrays
                (CameraOp.run PI (glMatrix sqrt tan)
                (Camera.constructor (glMatrix sqrt tan) arrays fov near far) ops)._position)
              ((CameraOp.run PI (glMatrix sqrt tan)
                (Camera.constructor (glMatrix sqrt tan) arrays fov near far) ops).arrays
                (CameraOp.run PI (glMatrix sqrt tan)
                (Camera.constructor (glMatrix sqrt tan) arrays fov near far) ops)._at)
              ((CameraOp.run PI (glMatrix sqrt tan)
                (Camera.constructor (glMatrix sqrt tan) arrays fov near far) ops).arrays
                (CameraOp.run PI (glMatrix sqrt tan)
                (Camera.constructor (glMatrix sqrt tan) arrays fov near far) ops)._up))) :=
  ⟨Camera.inverse_mul_forward_iff sqrt tan PI arrays fov near far ops,
    Camera.determinant_freshProjectionView sqrt tan PI _⟩

end GlMatrix

section RealCamera

/-- The forward matrix of the default camera with a field of view of 90
degrees, over the real numbers. -/
theorem Camera.projectionViewMatrix_right_angle :
    ((CameraOp.run Real.pi (glMatrix Real.sqrt Real.tan)
        (Camera.constructor (glMatrix Real.sqrt Real.tan) (fun _ => ⟨0, 0, 1⟩) none none none)
        [CameraOp.setFov 90]).projectionViewMatrix Real.pi (glMatrix Real.sqrt Real.tan)).1
    = ⟨-1, 0, 0, 0, 0, 1, 0, 0, 0, 0, 10001 / 9999, 1, 0, 0, 889 / 1111, 1⟩ := by
  have h4 : (90 : ℝ) * Real.pi / 180 / 2 = Real.pi / 4 := by ring
  simp [CameraOp.run, CameraOp.apply, Camera.constructor, Camera.set_fov,
    Camera.projectionViewMatrix, Camera._updateProjectionViewMatrix, glMatrix, deg_to_rad,
    mat4.lookAt, mat4.perspective, mat4.multiply, mat4.invert, mat4.EPSILON, h4,
    Function.update_apply]
  norm_num

/-- Witness of C2: over the real numbers, with the gl-matrix functions, the
default camera set to a field of view of 90 degrees has an invertible forward
matrix, and the inverse read is its inverse. -/
theorem Camera.inverseProjectionViewMatrix_inverts_witness :
    (glMatrix Real.sqrt Real.tan).IsInverse
      ((CameraOp.run Real.pi (glMatrix Real.sqrt Real.tan)
        (Camera.constructor (glMatrix Real.sqrt Real.tan) (fun _ => ⟨0, 0, 1⟩) none none none)
        [CameraOp.setFov 90]).inverseProjectionViewMatrix Real.pi (glMatrix Real.sqrt Real.tan)).1
      ((CameraOp.run Real.pi (glMatrix Real.sqrt Real.tan)
        (Camera.constructor (glMatrix Real.sqrt Real.tan) (fun _ => ⟨0, 0, 1⟩) none none none)
        [CameraOp.setFov 90]).projectionViewMatrix Real.pi (glMatrix Real.sqrt Real.tan)).1 :=
  (Camera.inverseProjectionViewMatrix_inverts Real.pi (glMatrix Real.sqrt Real.tan)
    (glMatrix_invertInverts Real.sqrt Real.tan) (fun _ => ⟨0, 0, 1⟩) none none none
    [CameraOp.setFov 90]
    (mat4.invert mat4.create ⟨-1, 0, 0, 0, 0, 1, 0, 0, 0, 0, 10001 / 9999, 1, 0, 0, 889 / 1111, 1⟩)
    (by
      rw [Camera.projectionViewMatrix_right_angle]
      exact mat4.multiply_invert _ _ (by norm_num [mat4.determinant]))).1

/-- Counterexample to C3 as stated: over the real numbers, the default camera
(position (0,0,-1), at (0,0,0), aspect ratio 1) with up set to an array of the
caller that holds (0,0,1) has position != at and a positive aspect ratio, and
the product of its inverse matrix and its forward matrix is not the identity. -/
theorem Camera.inverse_mul_forward_counterexample :
    ((CameraOp.run Real.pi (glMatrix Real.sqrt Real.tan)
        (Camera.constructor (glMatrix Real.sqrt Real.tan) (fun _ => ⟨0, 0, 1⟩) none none none)
        [CameraOp.setUp (Ref.caller 0)]).arrays
        (CameraOp.run Real.pi (glMatrix Real.sqrt Real.tan)
          (Camera.constructor (glMatrix Real.sqrt Real.tan) (fun _ => ⟨0, 0, 1⟩) none none none)
          [CameraOp.setUp (Ref.caller 0)])._position)
      ≠ ((CameraOp.run Real.pi (glMatrix Real.sqrt Real.tan)
        (Camera.constructor (glMatrix Real.sqrt Real.tan) (fun _ => ⟨0, 0, 1⟩) none none none)
        [CameraOp.setUp (Ref.caller 0)]).arrays
        (CameraOp.run Real.pi (glMatrix Real.sqrt Real.tan)
          (Camera.constructor (glMatrix Real.sqrt Real.tan) (fun _ => ⟨0, 0, 1⟩) none none none)
          [CameraOp.setUp (Ref.caller 0)])._at)
    ∧ 0 < (CameraOp.run Real.pi (glMatrix Real.sqrt Real.tan)
        (Camera.constructor (glMatrix Real.sqrt Real.tan) (fun _ => ⟨0, 0, 1⟩) none none none)
        [CameraOp.setUp (Ref.caller 0)])._ar
    ∧ mat4.multiply
      ((CameraOp.run Real.pi (glMatrix Real.sqrt Real.tan)
        (Camera.constructor (glMatrix Real.sqrt Real.tan) (fun _ => ⟨0, 0, 1⟩) none none none)
        [CameraOp.setUp (Ref.caller 0)]).inverseProjectionViewMatrix Real.pi
          (glMatrix Real.sqrt Real.tan)).1
      (((CameraOp.run Real.pi (glMatrix Real.sqrt Real.tan)
        (Camera.constructor (glMatrix Real.sqrt Real.tan) (fun _ => ⟨0, 0, 1⟩) none none none)
        [CameraOp.setUp (Ref.caller 0)]).inverseProjectionViewMatrix Real.pi
          (glMatrix Real.sqrt Real.tan)).2.projectionViewMatrix Real.pi
            (glMatrix Real.sqrt Real.tan)).1
    ≠ mat4.create := by
  refine ⟨?_, ?_, ?_⟩
  · simp [CameraOp.run, CameraOp.apply, Camera.constructor, Camera.set_up, Function.update_apply]
  · simp [CameraOp.run, CameraOp.apply, Camera.constructor, Camera.set_up]
  · rw [Ne, Camera.inverse_mul_forward_iff, not_not, Camera.determinant_freshProjectionView]
    have hL : mat4.lookAt Real.sqrt (⟨0, 0, -1⟩ : Vec3 ℝ) ⟨0, 0, 0⟩ ⟨0, 0, 1⟩
        = ⟨0, 0, 0, 0, 0, 0, 0, 0, 0, 0, -1, 0, 0, 0, -1, 1⟩ := by
      norm_num [mat4.lookAt, mat4.EPSILON]
    simp only [CameraOp.run, List.foldl, CameraOp.apply, Camera.constructor, Camera.set_up,
      Function.update_apply, reduceCtorEq, if_false, if_true, hL]
    norm_num [mat4.invert, mat4.determinant]

end RealCamera

section ControlPointHit

variable {K Cam : Type} [LinearOrderedField K]

/-- The scan from control point `k` on, over `m` populated points: it returns
the first point from `k` on that is under the threshold, or -1 when there is
none. -/
theorem Curve.intersectsControlPointLoop_spec (c : Curve K Cam) (p : Vec3 K) (error : K)
    (m : Nat) : ∀ d k : Nat, m - k = d → k ≤ m →
    (∃ j : Nat, k ≤ j ∧ j < m ∧ c.controlDistSq p j < error
        ∧ (∀ i, k ≤ i → i < j → ¬ c.controlDistSq p i < error)
        ∧ Curve.intersectsControlPointLoop c.points.control (3 * m) p error (3 * k) = (j : Int))
      ∨ ((∀ j, k ≤ j → j < m → ¬ c.controlDistSq p j < error)
        ∧ Curve.intersectsControlPointLoop c.points.control (3 * m) p error (3 * k) = -1) := by
  intro d
  induction d with
  | zero =>
    intro k hd hk
    have hkm : k = m := by omega
    subst hkm
    right
    refine ⟨fun j h1 h2 => absurd h2 (by omega), ?_⟩
    rw [Curve.intersectsControlPointLoop]
    simp
  | succ d ih =>
    intro k hd hk
    have hlt : k < m := by omega
    rw [Curve.intersectsControlPointLoop]
    have h3 : 3 * k < 3 * m := by omega
    simp only [h3, if_true]
    by_cases hit : c.controlDistSq p k < error
    · left
      refine ⟨k, le_refl k, hlt, hit, fun i h1 h2 => absurd h2 (by omega), ?_⟩
      have hit1 := hit
      unfold Curve.controlDistSq at hit1
      rw [if_pos hit1]
      congr 1
      omega
    · have hit1 := hit
      unfold Curve.controlDistSq at hit1
      rw [if_neg hit1]
      have e3 : 3 * k + 3 = 3 * (k + 1) := by ring
      rw [e3]
      rcases ih (k + 1) (by omega) (by omega) with ⟨j, h1, h2, h3, h4, h5⟩ | ⟨h1, h2⟩
      · left
        refine ⟨j, by omega, h2, h3, ?_, h5⟩
        intro i hi1 hi2
        rcases Nat.eq_or_lt_of_le hi1 with rfl | hi3
        · exact hit
        · exact h4 i hi3 hi2
      · right
        refine ⟨?_, h2⟩
        intro j hj1 hj2
        rcases Nat.eq_or_lt_of_le hj1 with rfl | hj3
        · exact hit
        · exact h1 j hj3 hj2

/-- The scan returns -1 exactly when no populated control point is under the
threshold. -/
theorem Curve.intersectsControlPoint_eq_neg_one_iff (c : Curve K Cam) (p : Vec3 K)
    (error : Option K) (m : Nat) (hoff : c._offset = 3 * m) :
    c.intersectsControlPoint p error = -1 ↔
      ∀ j, j < m → ¬ c.controlDistSq p j < error.getD (1 / 100) := by
  have key := Curve.intersectsControlPointLoop_spec c p (error.getD (1 / 100)) m m 0
    (by omega) (Nat.zero_le m)
  have hdef : c.intersectsControlPoint p error
      = Curve.intersectsControlPointLoop c.points.control (3 * m) p (error.getD (1 / 100))
          (3 * 0) := by
    simp [Curve.intersectsControlPoint, hoff]
  rw [← hdef] at key
  rcases key with ⟨j, _, h2, h3, _, h5⟩ | ⟨h1, h2⟩
  · constructor
    · intro h
      rw [h5] at h
      omega
    · intro h
      exact absurd h3 (h j h2)
  · exact ⟨fun _ j hj => h1 j (Nat.zero_le j) hj, fun _ => h2⟩

/-- The scan returns the index `j` exactly when `j` is the first populated
control point under the threshold. -/
theorem Curve.intersectsControlPoint_eq_iff (c : Curve K Cam) (p : Vec3 K)
    (error : Option K) (m : Nat) (hoff : c._offset = 3 * m) (j : Nat) :
    c.intersectsControlPoint p error = (j : Int) ↔
      (j < m ∧ c.controlDistSq p j < error.getD (1 / 100)
        ∧ ∀ i, i < j → ¬ c.controlDistSq p i < error.getD (1 / 100)) := by
  have key := Curve.intersectsControlPointLoop_spec c p (error.getD (1 / 100)) m m 0
    (by omega) (Nat.zero_le m)
  have hdef : c.intersectsControlPoint p error
      = Curve.intersectsControlPointLoop c.points.control (3 * m) p (error.getD (1 / 100))
          (3 * 0) := by
    simp [Curve.intersectsControlPoint, hoff]
  rw [← hdef] at key
  rcases key with ⟨j0, _, h2, h3, h4, h5⟩ | ⟨h1, h2⟩
  · rw [h5]
    constructor
    · intro h
      have : j0 = j := by exact_mod_cast h
      subst this
      exact ⟨h2, h3, fun i hi => h4 i (Nat.zero_le i) hi⟩
    · rintro ⟨hj1, hj2, hj3⟩
      have : j0 = j := by
        rcases Nat.lt_trichotomy j0 j with h | h | h
        · exact absurd h3 (hj3 j0 h)
        · exact h
        · exact absurd hj2 (h4 j (Nat.zero_le j) h)
      rw [this]
  · rw [h2]
    constructor
    · intro h
      omega
    · rintro ⟨hj1, hj2, _⟩
      exact absurd hj2 (h1 j (Nat.zero_le j) hj1)

/-- C4: for a curve whose write offset is a multiple of 3 (and within the
control buffer, so that every read is a read of the buffer),
intersectsControlPoint returns the index j exactly when j is the smallest
index below offset/3 whose control point is at a squared distance from p
strictly less than epsilon; it returns -1 exactly when no populated control
point is that close, in particular when each lies further than the square
root of epsilon from p; and an omitted epsilon is 0.01. -/
theorem Curve.intersectsControlPoint_first_hit (c : Curve K Cam) (p : Vec3 K)
    (error : Option K) (m : Nat) (hoff : c._offset = 3 * m)
    (_hlen : c._offset ≤ c.points.control.length) :
    (∀ j : Nat, c.intersectsControlPoint p error = (j : Int) ↔
        (j < m ∧ c.controlDistSq p j < error.getD (1 / 100)
          ∧ ∀ i, i < j → ¬ c.controlDistSq p i < error.getD (1 / 100)))
      ∧ (c.intersectsControlPoint p error = -1 ↔
        ∀ j, j < m → ¬ c.controlDistSq p j < error.getD (1 / 100))
      ∧ (∀ (s : K) (dist : Nat → K), 0 ≤ s → s * s = error.getD (1 / 100) →
        (∀ j, j < m → dist j * dist j = c.controlDistSq p j ∧ s < dist j) →
        c.intersectsControlPoint p error = -1)
      ∧ c.intersectsControlPoint p none = c.intersectsControlPoint p (some (1 / 100)) := by
  refine ⟨Curve.intersectsControlPoint_eq_iff c p error m hoff,
    Curve.intersectsControlPoint_eq_neg_one_iff c p error m hoff, ?_, ?_⟩
  · intro s dist hs hss hfar
    rw [Curve.intersectsControlPoint_eq_neg_one_iff c p error m hoff]
    intro j hj
    obtain ⟨h1, h2⟩ := hfar j hj
    rw [← h1, ← hss, not_lt]
    exact mul_self_le_mul_self hs (le_of_lt h2)
  · simp [Curve.intersectsControlPoint]

/-- C5 (amended): for a curve whose populated control points are exactly two
points at distances 0.05 and 0.2 from p (squared distances 1/400 and 1/25), in
either storage order, intersectsControlPoint(p, 0.01) returns the index of the
closer point, whose squared distance is below 0.01, and
intersectsControlPoint(p, 0.25) returns 0, the point stored first, both points
being under that threshold. -/
theorem Curve.intersectsControlPoint_two_points (c : Curve K Cam) (p : Vec3 K)
    (hoff : c._offset = 6) (_hlen : c._offset ≤ c.points.control.length) :
    (c.controlDistSq p 0 = 1 / 400 ∧ c.controlDistSq p 1 = 1 / 25 →
        c.intersectsControlPoint p (some (1 / 100)) = 0
          ∧ c.intersectsControlPoint p (some (1 / 4)) = 0)
      ∧ (c.controlDistSq p 0 = 1 / 25 ∧ c.controlDistSq p 1 = 1 / 400 →
        c.intersectsControlPoint p (some (1 / 100)) = 1
          ∧ c.intersectsControlPoint p (some (1 / 4)) = 0) := by
  have h6 : c._offset = 3 * 2 := by omega
  have e0 := fun e => Curve.intersectsControlPoint_eq_iff c p (some e) 2 h6 0
  have e1 := fun e => Curve.intersectsControlPoint_eq_iff c p (some e) 2 h6 1
  simp only [Nat.cast_zero, Nat.cast_one, Option.getD_some] at e0 e1
  constructor
  · rintro ⟨h0, h1⟩
    refine ⟨(e0 _).2 ⟨by omega, ?_, fun i hi => absurd hi (by omega)⟩,
      (e0 _).2 ⟨by omega, ?_, fun i hi => absurd hi (by omega)⟩⟩
    · rw [h0]; norm_num
    · rw [h0]; norm_num
  · rintro ⟨h0, h1⟩
    refine ⟨(e1 _).2 ⟨by omega, ?_, fun i hi => ?_⟩,
      (e0 _).2 ⟨by omega, ?_, fun i hi => absurd hi (by omega)⟩⟩
    · rw [h1]; norm_num
    · have : i = 0 := by omega
      subst this
      rw [h0]; norm_num
    · rw [h0]; norm_num

end ControlPointHit

section ControlPointExamples

/-- Witness of C4: with control points (0,0,0) and (1,0,0) and the default
epsilon, the scan from p = (1,0,0) returns index 1. -/
theorem Curve.intersectsControlPoint_first_hit_witness :
    (Curve.ofBuffers [(0 : ℚ), 0, 0, 1, 0, 0] 6 []).intersectsControlPoint ⟨1, 0, 0⟩ none = 1 := by
  have h := ((Curve.intersectsControlPoint_first_hit
    (Curve.ofBuffers [(0 : ℚ), 0, 0, 1, 0, 0] 6 []) ⟨1, 0, 0⟩ none 2
    (by simp [Curve.ofBuffers]) (by simp [Curve.ofBuffers])).1 1).2
    ⟨by omega, by norm_num [Curve.controlDistSq, Curve.ofBuffers, TypedArray.get],
      fun i hi => by
        have h0 : i = 0 := by omega
        subst h0
        norm_num [Curve.controlDistSq, Curve.ofBuffers, TypedArray.get]⟩
  simpa using h

/-- Counterexample to C5 as stated: with control points at distances 0.05 and
0.2 from p = (0,0,0), intersectsControlPoint(p, 0.01) does not return -1, and
with the further point stored first intersectsControlPoint(p, 0.25) does not
return the index 1 of the closer point. -/
theorem Curve.intersectsControlPoint_two_points_counterexample :
    (Curve.ofBuffers [(1 / 20 : ℚ), 0, 0, 1 / 5, 0, 0] 6 []).controlDistSq ⟨0, 0, 0⟩ 0
        = (1 / 20) * (1 / 20)
      ∧ (Curve.ofBuffers [(1 / 20 : ℚ), 0, 0, 1 / 5, 0, 0] 6 []).controlDistSq ⟨0, 0, 0⟩ 1
        = (1 / 5) * (1 / 5)
      ∧ (Curve.ofBuffers [(1 / 20 : ℚ), 0, 0, 1 / 5, 0, 0] 6 []).intersectsControlPoint
          ⟨0, 0, 0⟩ (some (1 / 100)) ≠ -1
      ∧ (Curve.ofBuffers [(1 / 5 : ℚ), 0, 0, 1 / 20, 0, 0] 6 []).intersectsControlPoint
          ⟨0, 0, 0⟩ (some (1 / 4)) ≠ 1 := by
  refine ⟨?_, ?_, ?_, ?_⟩
  · norm_num [Curve.controlDistSq, Curve.ofBuffers, TypedArray.get]
  · norm_num [Curve.controlDistSq, Curve.ofBuffers, TypedArray.get]
  · rw [Curve.intersectsControlPoint, Curve.intersectsControlPointLoop]
    norm_num [Curve.ofBuffers, TypedArray.get]
  · rw [Curve.intersectsControlPoint, Curve.intersectsControlPointLoop]
    norm_num [Curve.ofBuffers, TypedArray.get]

/-- Witness of C5 (amended): the further point stored first. -/
theorem Curve.intersectsControlPoint_two_points_witness :
    (Curve.ofBuffers [(1 / 5 : ℚ), 0, 0, 1 / 20, 0, 0] 6 []).intersectsControlPoint
          ⟨0, 0, 0⟩ (some (1 / 100)) = 1
      ∧ (Curve.ofBuffers [(1 / 5 : ℚ), 0, 0, 1 / 20, 0, 0] 6 []).intersectsControlPoint
          ⟨0, 0, 0⟩ (some (1 / 4)) = 0 :=
  (Curve.intersectsControlPoint_two_points
    (Curve.ofBuffers [(1 / 5 : ℚ), 0, 0, 1 / 20, 0, 0] 6 []) ⟨0, 0, 0⟩
    (by simp [Curve.ofBuffers]) (by simp [Curve.ofBuffers])).2
    ⟨by norm_num [Curve.controlDistSq, Curve.ofBuffers, TypedArray.get],
     by norm_num [Curve.controlDistSq, Curve.ofBuffers, TypedArray.get]⟩

end ControlPointExamples

section DerivedGeometry

variable {K Cam : Type} [LinearOrderedField K]

/-- A write at `i/3` with `i` at least 3 leaves entry 0 as it is. -/
theorem TypedArray.get_put_zero (a : List K) (i : Nat) (v : K) (hi : 3 ≤ i) :
    TypedArray.get (TypedArray.put a (TypedArray.div3 (some i)) v) 0 = TypedArray.get a 0 := by
  unfold TypedArray.div3 TypedArray.put TypedArray.get
  by_cases h : i % 3 = 0
  · have h1 : i / 3 ≠ 0 := by omega
    simp only [h, if_true]
    cases a with
    | nil => simp
    | cons x xs =>
      obtain ⟨k, hk⟩ : ∃ k, i / 3 = k + 1 := ⟨i / 3 - 1, by omega⟩
      simp [hk]
  · simp [h]

/-- The loop of `_calculateSlopes` leaves entry 0 of the tangent angles as it
is, and exits with its index at least 3. -/
theorem Curve.calculateSlopesLoop_first (atan2 : K → K → K) (curve : List K) (n : Nat) :
    ∀ (d : Nat) (s : SlopesState K), n - s.i = d → 3 ≤ s.i →
      TypedArray.get (Curve._calculateSlopesLoop atan2 curve n s).slopes 0
          = TypedArray.get s.slopes 0
        ∧ 3 ≤ (Curve._calculateSlopesLoop atan2 curve n s).i := by
  intro d
  induction d using Nat.strong_induction_on with
  | _ d ih =>
    intro s hd hi
    rw [Curve._calculateSlopesLoop]
    by_cases h : s.i + 3 < n
    · simp only [h, if_true]
      have := ih (n - (s.i + 3)) (by omega)
        { i := s.i + 3, lx := TypedArray.get curve s.i, ly := TypedArray.get curve (s.i + 1),
          cx := TypedArray.get curve s.i, cy := TypedArray.get curve (s.i + 1),
          slopes := TypedArray.put s.slopes (TypedArray.div3 (some s.i))
            (atan2 (TypedArray.get curve (s.i + 1) - s.ly) (TypedArray.get curve s.i - s.lx)) }
        rfl (by simp)
      refine ⟨?_, this.2⟩
      rw [this.1, TypedArray.get_put_zero _ _ _ hi]
    · simp only [h, if_false]
      exact ⟨trivial, hi⟩

/-- The tangent angle of sample 0 is never written: `_calculateSlopes` leaves
entry 0 of the array as it finds it. -/
theorem Curve.calculateSlopes_first_sample_not_written (atan2 : K → K → K) (c : Curve K Cam) :
    TypedArray.get (c._calculateSlopes atan2)._slopes 0 = TypedArray.get c._slopes 0 := by
  unfold Curve._calculateSlopes
  simp only []
  have h := Curve.calculateSlopesLoop_first atan2 c.points.curve c.points.curve.length _
    { i := 3, lx := TypedArray.get c.points.curve 0, ly := TypedArray.get c.points.curve 1,
      cx := TypedArray.get c.points.curve 3, cy := TypedArray.get c.points.curve 4,
      slopes := TypedArray.put c._slopes (TypedArray.div3 none)
        (atan2 (TypedArray.get c.points.curve 4 - TypedArray.get c.points.curve 1)
          (TypedArray.get c.points.curve 3 - TypedArray.get c.points.curve 0)) }
    rfl (le_refl 3)
  rw [TypedArray.get_put_zero _ _ _ h.2, h.1]
  simp [TypedArray.div3, TypedArray.put]

/-- The index `i/3` for `i = 3k` is `k`. -/
theorem TypedArray.div3_mul (k : Nat) : TypedArray.div3 (some (3 * k)) = some k := by
  simp [TypedArray.div3]

omit [LinearOrderedField K] in
/-- A write keeps the length of a typed array. -/
theorem TypedArray.length_put (a : List K) (i : Option Nat) (v : K) :
    (TypedArray.put a i v).length = a.length := by
  cases i <;> simp [TypedArray.put]

/-- A read at the index just written, within the array, gives the value
written. -/
theorem TypedArray.get_put_same (a : List K) (k : Nat) (v : K) (hk : k < a.length) :
    TypedArray.get (TypedArray.put a (some k) v) k = v := by
  simp [TypedArray.get, TypedArray.put, List.getD_eq_getElem?_getD, List.getElem?_set, hk]

/-- A write leaves the other entries as they are. -/
theorem TypedArray.get_put_other (a : List K) (k j : Nat) (v : K) (hjk : j ≠ k) :
    TypedArray.get (TypedArray.put a (some k) v) j = TypedArray.get a j := by
  simp [TypedArray.get, TypedArray.put, List.getD_eq_getElem?_getD, List.getElem?_set, hjk.symm]

/-- The loop of `_calculateSlopes` on a buffer of `N+1` samples, entered at
sample `k`: it exits at sample `N` with the previous sample in `lx`, `ly` and
the backward difference stored for every sample from 1 to `N-1`. -/
theorem Curve.calculateSlopesLoop_backward (atan2 : K → K → K) (curve : List K) (N L : Nat) :
    ∀ (d k : Nat) (s : SlopesState K), N - k = d → 1 ≤ k → k ≤ N → N + 1 ≤ L →
      s.i = 3 * k → s.lx = TypedArray.get curve (3 * (k - 1)) →
      s.ly = TypedArray.get curve (3 * (k - 1) + 1) → s.slopes.length = L →
      (∀ j, 1 ≤ j → j < k → TypedArray.get s.slopes j = Curve.backwardSlope atan2 curve j) →
      (Curve._calculateSlopesLoop atan2 curve (3 * (N + 1)) s).i = 3 * N
        ∧ (Curve._calculateSlopesLoop atan2 curve (3 * (N + 1)) s).lx
          = TypedArray.get curve (3 * (N - 1))
        ∧ (Curve._calculateSlopesLoop atan2 curve (3 * (N + 1)) s).ly
          = TypedArray.get curve (3 * (N - 1) + 1)
        ∧ (Curve._calculateSlopesLoop atan2 curve (3 * (N + 1)) s).slopes.length = L
        ∧ ∀ j, 1 ≤ j → j < N →
          TypedArray.get (Curve._calculateSlopesLoop atan2 curve (3 * (N + 1)) s).slopes j
            = Curve.backwardSlope atan2 curve j := by
  intro d
  induction d with
  | zero =>
    intro k s hd hk1 hkN hL hi hlx hly hlen hdone
    have hk : k = N := by omega
    subst hk
    rw [Curve._calculateSlopesLoop]
    have : ¬ s.i + 3 < 3 * (k + 1) := by omega
    simp only [this, if_false]
    exact ⟨hi, hlx, hly, hlen, hdone⟩
  | succ d ih =>
    intro k s hd hk1 hkN hL hi hlx hly hlen hdone
    rw [Curve._calculateSlopesLoop]
    have : s.i + 3 < 3 * (N + 1) := by omega
    simp only [this, if_true]
    apply ih (k + 1) _ (by omega) (by omega) (by omega) hL
    · simp only [hi]; ring
    · simp only [hi, Nat.add_sub_cancel]
    · simp only [hi, Nat.add_sub_cancel]
    · simp only [TypedArray.length_put, hlen]
    · intro j hj1 hj2
      simp only [hi, TypedArray.div3_mul]
      rcases Nat.eq_or_lt_of_le (Nat.le_of_lt_succ hj2) with rfl | hlt
      · rw [TypedArray.get_put_same _ _ _ (by omega), hlx, hly]
        rfl
      · rw [TypedArray.get_put_other _ _ _ _ (by omega)]
        exact hdone j hj1 hlt

/-- For samples 1 to `N` of a buffer of `N+1` samples, `_calculateSlopes`
stores the backward difference `atan2 (y_j - y_(j-1), x_j - x_(j-1))`, when the
array of tangent angles has room for them. -/
theorem Curve.calculateSlopes_backward_difference (atan2 : K → K → K) (c : Curve K Cam)
    (N : Nat) (hN : 1 ≤ N) (hlen : c.points.curve.length = 3 * (N + 1))
    (hcap : N + 1 ≤ c._slopes.length) (j : Nat) (hj1 : 1 ≤ j) (hj2 : j ≤ N) :
    TypedArray.get (c._calculateSlopes atan2)._slopes j
      = atan2 (TypedArray.get c.points.curve (3 * j + 1)
            - TypedArray.get c.points.curve (3 * (j - 1) + 1))
          (TypedArray.get c.points.curve (3 * j) - TypedArray.get c.points.curve (3 * (j - 1))) := by
  unfold Curve._calculateSlopes
  simp only [hlen]
  obtain ⟨h1, h2, h3, h4, h5⟩ := Curve.calculateSlopesLoop_backward atan2 c.points.curve N
    c._slopes.length (N - 1) 1
    { i := 3, lx := TypedArray.get c.points.curve 0, ly := TypedArray.get c.points.curve 1,
      cx := TypedArray.get c.points.curve 3, cy := TypedArray.get c.points.curve 4,
      slopes := TypedArray.put c._slopes (TypedArray.div3 none)
        (atan2 (TypedArray.get c.points.curve 4 - TypedArray.get c.points.curve 1)
          (TypedArray.get c.points.curve 3 - TypedArray.get c.points.curve 0)) }
    rfl (le_refl 1) hN hcap rfl rfl rfl
    (by simp only [TypedArray.length_put])
    (fun j hj1 hj2 => absurd hj2 (by omega))
  rw [h1, h2, h3, TypedArray.div3_mul]
  rcases Nat.eq_or_lt_of_le hj2 with rfl | hlt
  · rw [TypedArray.get_put_same _ _ _ (by omega)]
  · rw [TypedArray.get_put_other _ _ _ _ (by omega)]
    exact h5 j hj1 hlt
end DerivedGeometry

section DerivedGeometryExamples

/-- C6 (the code at the failing input): on a new curve with the two samples
(0,0,0) and (0,1,0), whatever atan2 is, after _calculateSlopes the tangent
angle stored for sample 0 is the initial 0, not atan2(1, 0), while the one
stored for sample 1 is atan2(1, 0). -/
theorem Curve.calculateSlopes_vertical_segment (atan2 : ℚ → ℚ → ℚ) :
    TypedArray.get ((Curve.ofBuffers [] 0 [(0 : ℚ), 0, 0, 0, 1, 0])._calculateSlopes atan2)._slopes 0
        = 0
      ∧ TypedArray.get
          ((Curve.ofBuffers [] 0 [(0 : ℚ), 0, 0, 0, 1, 0])._calculateSlopes atan2)._slopes 1
        = atan2 1 0 := by
  constructor
  · rw [Curve.calculateSlopes_first_sample_not_written]
    simp [Curve.ofBuffers, TypedArray.get]
  · rw [Curve._calculateSlopes, Curve._calculateSlopesLoop]
    simp [Curve.ofBuffers, TypedArray.get, TypedArray.put, TypedArray.div3]

/-- C7 (the code at the failing input): on a new curve with the three samples
(0,0,0), (2,0,0) and (4,0,0), whatever sqrt is, _calculateNormals returns with
the normal of sample 1 equal to (0,2,0), of length 2, and the normal of sample
2 equal to (0,0,0), of length 0. -/
theorem Curve.calculateNormals_three_samples (sqrt : ℚ → ℚ) :
    ∃ c', (Curve.ofBuffers [] 0 [(0 : ℚ), 0, 0, 2, 0, 0, 4, 0, 0])._calculateNormals sqrt = .ok c'
      ∧ TypedArray.subarray c'._normals 3 6 = [0, 2, 0]
      ∧ TypedArray.subarray c'._normals 6 9 = [0, 0, 0] := by
  simp [Curve._calculateNormals, Curve._calculateNormalsLoop, Curve.ofBuffers, TypedArray.get,
    TypedArray.set, vec3.cross, vec3.normalize, TypedArray.subarray]
end DerivedGeometryExamples

section CurveCalls

variable {K Cam : Type}

/-- What `_resetCurveRenderer` returns when the class has a `_calculate` that
returns. -/
theorem Curve.resetCurveRenderer_of_calculate (cls : CurveClass K Cam)
    (calculate : Curve K Cam → Except JsError (Curve K Cam)) (hcalc : cls._calculate = some calculate)
    (c c1 : Curve K Cam) (h1 : calculate c = .ok c1) :
    c._resetCurveRenderer cls
      = .ok { c1 with
          renderers := { c1.renderers with curve := c1.renderers.curve.reset c1.points.curve } } := by
  simp [Curve._resetCurveRenderer, hcalc, h1]

/-- C10 (the code at the failing input): on a subclass that supplies
_calculate and no _reset, setControlPoints throws a TypeError for every curve,
every list of points and every offset. -/
theorem Curve.setControlPoints_throws (cls : CurveClass K Cam) (c : Curve K Cam)
    (controlPoints : List K) (offset : Nat) (hreset : cls._reset = none) :
    c.setControlPoints cls controlPoints offset = .error .TypeError := by
  simp [Curve.setControlPoints, hreset]

end CurveCalls

section CurveState

variable {K Cam : Type} [LinearOrderedField K]

/-- The curve a successful construction returns. -/
theorem Curve.constructor_ok (cls : CurveClass K Cam) (camera : Cam)
    (control : Option (List K)) (iterations : Option Nat)
    (calculate : Curve K Cam → Except JsError (Curve K Cam))
    (hbase : cls.isCurve = false) (hcalc : cls._calculate = some calculate) :
    Curve.constructor cls camera control iterations
      = .ok
        { _camera := camera
          _curveLength := iterations.getD 20 * 3 + 3
          _normals := List.replicate 63 0
          _slopes := List.replicate 21 0
          points :=
            { control := List.replicate 60 0
              curve := List.replicate (iterations.getD 20 * 3 + 3) 0 }
          renderers := { control := ⟨[]⟩, curve := ⟨[]⟩ }
          _iterations := iterations.getD 20
          _tempPoint := vec3.create
          _offset := 0 } := by
  simp only [Curve.constructor, hbase, hcalc]
  rfl

/-- The lengths of the two derived arrays do not follow iterations: for every
iterations value n, on a subclass whose _calculate returns and keeps the two
arrays, a curve constructed with iterations n has a tangent-angle array of 21
entries and a normals array of 63 scalars, which is n+1 entries and 3(n+1)
scalars only for n = 20; and the iterations setter returns with both arrays at
the length they had. -/
theorem Curve.slopes_normals_fixed_capacity (cls : CurveClass K Cam) (camera : Cam)
    (control : Option (List K)) (n : Nat)
    (calculate : Curve K Cam → Except JsError (Curve K Cam))
    (hbase : cls.isCurve = false) (hcalc : cls._calculate = some calculate)
    (hkeep : ∀ s : Curve K Cam, ∃ s', calculate s = .ok s'
      ∧ s'._slopes.length = s._slopes.length ∧ s'._normals.length = s._normals.length) :
    (∃ c, Curve.constructor cls camera control (some n) = .ok c
        ∧ c._slopes.length = 21 ∧ c._normals.length = 63
        ∧ (c._slopes.length = n + 1 ↔ n = 20) ∧ (c._normals.length = 3 * (n + 1) ↔ n = 20))
      ∧ ∀ c : Curve K Cam, ∃ c', c.set_iterations cls n = .ok c'
        ∧ c'._slopes.length = c._slopes.length ∧ c'._normals.length = c._normals.length := by
  constructor
  · refine ⟨_, Curve.constructor_ok cls camera control (some n) calculate hbase hcalc,
      ?_, ?_, ?_, ?_⟩
    · simp only [List.length_replicate]
    · simp only [List.length_replicate]
    · simp only [List.length_replicate]; omega
    · simp only [List.length_replicate]; omega
  · intro c
    unfold Curve.set_iterations
    simp only []
    obtain ⟨s', h1, h2, h3⟩ := hkeep
      { c with _iterations := n,
               points := { c.points with curve := List.replicate (n * 3 + 3) 0 } }
    rw [Curve.resetCurveRenderer_of_calculate cls calculate hcalc _ s' h1]
    exact ⟨_, rfl, h2, h3⟩

/-- C9 (amended): on a subclass whose _calculate only populates the
curve-sample buffer, updateControlPoint (with a point that fits the control
buffer) and the iterations setter return with the tangent angles and the
normals exactly as they were before the call: neither call runs
_calculateSlopes or _calculateNormals. -/
theorem Curve.derived_geometry_left_to_calculate (cls : CurveClass K Cam)
    (calculate : Curve K Cam → Except JsError (Curve K Cam))
    (hcalc : cls._calculate = some calculate)
    (honly : CurveClass.OnlyPopulatesCurve calculate) :
    (∀ (c : Curve K Cam) (index : Nat) (point : List K),
        index * 3 + point.length ≤ c.points.control.length →
        ∃ c', c.updateControlPoint cls index point = .ok c'
          ∧ c'._slopes = c._slopes ∧ c'._normals = c._normals)
      ∧ ∀ (c : Curve K Cam) (n : Nat), ∃ c', c.set_iterations cls n = .ok c'
          ∧ c'._slopes = c._slopes ∧ c'._normals = c._normals := by
  constructor
  · intro c index point hfit
    unfold Curve.updateControlPoint TypedArray.set
    rw [if_neg (by omega)]
    simp only []
    obtain ⟨samples, _, h1⟩ := honly
      { c with
        points := { c.points with
          control := c.points.control.take (index * 3) ++ point
            ++ c.points.control.drop (index * 3 + point.length) }
        renderers := { c.renderers with control := c.renderers.control.update index point } }
    rw [Curve.resetCurveRenderer_of_calculate cls calculate hcalc _ _ h1]
    exact ⟨_, rfl, rfl, rfl⟩
  · intro c n
    unfold Curve.set_iterations
    simp only []
    obtain ⟨samples, _, h1⟩ := honly
      { c with _iterations := n,
               points := { c.points with curve := List.replicate (n * 3 + 3) 0 } }
    rw [Curve.resetCurveRenderer_of_calculate cls calculate hcalc _ _ h1]
    exact ⟨_, rfl, rfl, rfl⟩

/-- The `_calculate` of the examples only populates the curve-sample buffer. -/
theorem Curve.lineCalculate_onlyPopulatesCurve :
    CurveClass.OnlyPopulatesCurve (Curve.lineCalculate : Curve K Cam → _) := by
  intro s
  exact ⟨_, by simp, rfl⟩

end CurveState

section CurveExamples

/-- Witness of C10: the subclass of the examples, the points (0,0,0) and
(2,0,0), offset 6. -/
theorem Curve.setControlPoints_throws_witness :
    (Curve.ofBuffers (List.replicate 60 (0 : ℚ)) 0 (List.replicate 9 0)).setControlPoints
        CurveClass.line [0, 0, 0, 2, 0, 0] 6
      = .error .TypeError :=
  Curve.setControlPoints_throws CurveClass.line _ _ _ rfl

/-- Counterexample to C9 as stated: on the subclass of the examples, whose
_calculate only populates the curve-sample buffer, a new curve of iterations 2
holds, after the iterations setter and after updateControlPoint, normals that
differ from those _calculateNormals derives from its samples, whatever sqrt
is. -/
theorem Curve.derived_geometry_stale_counterexample :
    ∃ c c1 c2, Curve.constructor (CurveClass.line : CurveClass ℚ Unit) () none (some 2) = .ok c
      ∧ c.set_iterations CurveClass.line 2 = .ok c1
      ∧ (∀ sqrt : ℚ → ℚ, ∃ d, c1._calculateNormals sqrt = .ok d ∧ d._normals ≠ c1._normals)
      ∧ c.updateControlPoint CurveClass.line 0 [1, 1, 0] = .ok c2
      ∧ (∀ sqrt : ℚ → ℚ, ∃ d, c2._calculateNormals sqrt = .ok d ∧ d._normals ≠ c2._normals) := by
  refine ⟨_, _, _, rfl, rfl, ?_, rfl, ?_⟩
  · intro sqrt
    simp [Curve._calculateNormals, Curve._calculateNormalsLoop, TypedArray.get,
      TypedArray.set, vec3.cross, vec3.normalize, List.range_succ]
  · intro sqrt
    simp [Curve._calculateNormals, Curve._calculateNormalsLoop, TypedArray.get,
      TypedArray.set, vec3.cross, vec3.normalize, List.range_succ]

/-- Witness of C9 (amended): the subclass of the examples. -/
theorem Curve.derived_geometry_left_to_calculate_witness :
    (∀ (c : Curve ℚ Unit) (index : Nat) (point : List ℚ),
        index * 3 + point.length ≤ c.points.control.length →
        ∃ c', c.updateControlPoint CurveClass.line index point = .ok c'
          ∧ c'._slopes = c._slopes ∧ c'._normals = c._normals)
      ∧ ∀ (c : Curve ℚ Unit) (n : Nat), ∃ c', c.set_iterations CurveClass.line n = .ok c'
          ∧ c'._slopes = c._slopes ∧ c'._normals = c._normals :=
  Curve.derived_geometry_left_to_calculate CurveClass.line Curve.lineCalculate rfl
    Curve.lineCalculate_onlyPopulatesCurve

end CurveExamples

section CameraFrame

variable {K M : Type}

/-- C12: each of the setters position, at, up, ar and fov returns the camera
with the given value in its own parameter and both dirty flags true, every
other field as it was: the other parameters, near, far, width, height, the
four cached matrices and the content of every array. -/
theorem Camera.setters_frame (c : Camera K M) (v : Ref) (a : K) :
    (c.set_position v = { c with _position := v, _dirty := true, _dirtyInverse := true })
      ∧ (c.set_at v = { c with _at := v, _dirty := true, _dirtyInverse := true })
      ∧ (c.set_up v = { c with _up := v, _dirty := true, _dirtyInverse := true })
      ∧ (c.set_ar a = { c with _ar := a, _dirty := true, _dirtyInverse := true })
      ∧ (c.set_fov a = { c with _fov := a, _dirty := true, _dirtyInverse := true })
      ∧ (∀ c' : Camera K M,
          c' = c.set_position v ∨ c' = c.set_at v ∨ c' = c.set_up v ∨ c' = c.set_ar a
            ∨ c' = c.set_fov a →
          c'._dirty = true ∧ c'._dirtyInverse = true
            ∧ c'._viewMatrix = c._viewMatrix ∧ c'._projectionMatrix = c._projectionMatrix
            ∧ c'._projectionViewMatrix = c._projectionViewMatrix
            ∧ c'._inverseProjectionViewMatrix = c._inverseProjectionViewMatrix
            ∧ c'._near = c._near ∧ c'._far = c._far
            ∧ c'._width = c._width ∧ c'._height = c._height
            ∧ c'.arrays = c.arrays) := by
  refine ⟨rfl, rfl, rfl, rfl, rfl, ?_⟩
  rintro c' (h | h | h | h | h) <;> subst h <;>
    simp [Camera.set_position, Camera.set_at, Camera.set_up, Camera.set_ar, Camera.set_fov]

end CameraFrame

section CameraMoves

variable {K M : Type} [Field K]

/-- C13, as amended: incrementPosition(x, y, z) adds in place to the array held
as position.  The position (px, py, pz) becomes (px+x, py+y, pz+z), an omitted
y or z counts as 0, both dirty flags are set, fov, ar, near and far are as they
were, and position, at and up refer to the arrays they referred to.  Every
array other than the position array keeps its content, so at (or up) keeps its
value when it is held in another array than position; when it is the very array
held as position it moves with position. -/
theorem Camera.incrementPosition_in_place (c : Camera K M) (x y z : K) :
    ((c.incrementPosition x (some y) (some z)).arrays
          (c.incrementPosition x (some y) (some z))._position
        = ⟨(c.arrays c._position).x + x, (c.arrays c._position).y + y,
            (c.arrays c._position).z + z⟩)
      ∧ c.incrementPosition x none (some z) = c.incrementPosition x (some 0) (some z)
      ∧ c.incrementPosition x (some y) none = c.incrementPosition x (some y) (some 0)
      ∧ c.incrementPosition x none none = c.incrementPosition x (some 0) (some 0)
      ∧ ∀ oy oz : Option K,
          (c.incrementPosition x oy oz)._dirty = true
            ∧ (c.incrementPosition x oy oz)._dirtyInverse = true
            ∧ (c.incrementPosition x oy oz)._position = c._position
            ∧ (c.incrementPosition x oy oz)._at = c._at
            ∧ (c.incrementPosition x oy oz)._up = c._up
            ∧ (c.incrementPosition x oy oz)._fov = c._fov
            ∧ (c.incrementPosition x oy oz)._ar = c._ar
            ∧ (c.incrementPosition x oy oz)._near = c._near
            ∧ (c.incrementPosition x oy oz)._far = c._far
            ∧ (∀ r : Ref, r ≠ c._position →
                (c.incrementPosition x oy oz).arrays r = c.arrays r)
            ∧ (c._at ≠ c._position →
                (c.incrementPosition x oy oz).arrays (c.incrementPosition x oy oz)._at
                  = c.arrays c._at)
            ∧ (c._up ≠ c._position →
                (c.incrementPosition x oy oz).arrays (c.incrementPosition x oy oz)._up
                  = c.arrays c._up)
            ∧ (c._at = c._position →
                (c.incrementPosition x oy oz).arrays (c.incrementPosition x oy oz)._at
                  = ⟨(c.arrays c._at).x + x, (c.arrays c._at).y + oy.getD 0,
                      (c.arrays c._at).z + oz.getD 0⟩)
            ∧ (c._up = c._position →
                (c.incrementPosition x oy oz).arrays (c.incrementPosition x oy oz)._up
                  = ⟨(c.arrays c._up).x + x, (c.arrays c._up).y + oy.getD 0,
                      (c.arrays c._up).z + oz.getD 0⟩) := by
  refine ⟨by simp [Camera.incrementPosition], rfl, rfl, rfl, fun oy oz =>
    ⟨rfl, rfl, rfl, rfl, rfl, rfl, rfl, rfl, rfl, ?_, ?_, ?_, ?_, ?_⟩⟩
  · intro r hr
    simp [Camera.incrementPosition, Function.update_apply, hr]
  · intro h
    simp [Camera.incrementPosition, Function.update_apply, h]
  · intro h
    simp [Camera.incrementPosition, Function.update_apply, h]
  · intro h
    simp [Camera.incrementPosition, Function.update_apply, h]
  · intro h
    simp [Camera.incrementPosition, Function.update_apply, h]

/-- C19: in every state a camera reaches from construction through setters,
incrementPosition and the two matrix reads, the flags (viewDirty,
inverseDirty) are (true, true), (false, true) or (false, false), never (true,
false); and each of the three occurs: after construction, after a read of the
forward matrix, after a read of the inverse. -/
theorem Camera.flags_reachable (PI : K) (gl : Mat4Lib K M) (arrays : Ref → Vec3 K)
    (fov near far : Option K) (ops : List (CameraOp K)) :
    (((CameraOp.run PI gl (Camera.constructor gl arrays fov near far) ops)._dirty = true
        ∧ (CameraOp.run PI gl (Camera.constructor gl arrays fov near far) ops)._dirtyInverse = true)
      ∨ ((CameraOp.run PI gl (Camera.constructor gl arrays fov near far) ops)._dirty = false
        ∧ (CameraOp.run PI gl (Camera.constructor gl arrays fov near far) ops)._dirtyInverse = true)
      ∨ ((CameraOp.run PI gl (Camera.constructor gl arrays fov near far) ops)._dirty = false
        ∧ (CameraOp.run PI gl (Camera.constructor gl arrays fov near far) ops)._dirtyInverse = false))
    ∧ ((CameraOp.run PI gl (Camera.constructor gl arrays fov near far) [])._dirty = true
        ∧ (CameraOp.run PI gl (Camera.constructor gl arrays fov near far) [])._dirtyInverse = true)
    ∧ ((CameraOp.run PI gl (Camera.constructor gl arrays fov near far)
          [CameraOp.readProjectionViewMatrix])._dirty = false
        ∧ (CameraOp.run PI gl (Camera.constructor gl arrays fov near far)
          [CameraOp.readProjectionViewMatrix])._dirtyInverse = true)
    ∧ ((CameraOp.run PI gl (Camera.constructor gl arrays fov near far)
          [CameraOp.readInverseProjectionViewMatrix])._dirty = false
        ∧ (CameraOp.run PI gl (Camera.constructor gl arrays fov near far)
          [CameraOp.readInverseProjectionViewMatrix])._dirtyInverse = false) := by
  refine ⟨?_, ⟨rfl, rfl⟩, ⟨rfl, rfl⟩, ⟨rfl, rfl⟩⟩
  have hi := CameraOp.inverseCoherent_run PI gl ops _
    (Camera.inverseCoherent_constructor gl arrays fov near far)
  cases hd : (CameraOp.run PI gl (Camera.constructor gl arrays fov near far) ops)._dirty <;>
    cases hdi : (CameraOp.run PI gl (Camera.constructor gl arrays fov near far) ops)._dirtyInverse
  · exact Or.inr (Or.inr ⟨rfl, rfl⟩)
  · exact Or.inr (Or.inl ⟨rfl, rfl⟩)
  · have := (hi hdi).1
    rw [hd] at this
    exact absurd this (by simp)
  · exact Or.inl ⟨rfl, rfl⟩

end CameraMoves

section CameraExamples

/-- Counterexample to C13 as stated: a camera is given one array of the caller,
holding (1, 2, 3), both as position and as at (`c.position = p; c.at = p`).
Before the call at is (1, 2, 3); after `incrementPosition(1)` at is (2, 2, 3):
the call has changed at. -/
theorem Camera.incrementPosition_moves_at_counterexample :
    ((((Camera.constructor (glMatrix Real.sqrt Real.tan) (fun _ => ⟨1, 2, 3⟩)
          none none none).set_position (Ref.caller 0)).set_at (Ref.caller 0)).arrays
        (((Camera.constructor (glMatrix Real.sqrt Real.tan) (fun _ => ⟨1, 2, 3⟩)
          none none none).set_position (Ref.caller 0)).set_at (Ref.caller 0))._at
      = ⟨1, 2, 3⟩)
    ∧ (((((Camera.constructor (glMatrix Real.sqrt Real.tan) (fun _ => ⟨1, 2, 3⟩)
          none none none).set_position (Ref.caller 0)).set_at
            (Ref.caller 0)).incrementPosition 1 none none).arrays
        ((((Camera.constructor (glMatrix Real.sqrt Real.tan) (fun _ => ⟨1, 2, 3⟩)
          none none none).set_position (Ref.caller 0)).set_at
            (Ref.caller 0)).incrementPosition 1 none none)._at
      = ⟨2, 2, 3⟩)
    ∧ (((((Camera.constructor (glMatrix Real.sqrt Real.tan) (fun _ => ⟨1, 2, 3⟩)
          none none none).set_position (Ref.caller 0)).set_at
            (Ref.caller 0)).incrementPosition 1 none none).arrays
        ((((Camera.constructor (glMatrix Real.sqrt Real.tan) (fun _ => ⟨1, 2, 3⟩)
          none none none).set_position (Ref.caller 0)).set_at
            (Ref.caller 0)).incrementPosition 1 none none)._at
      ≠ (((Camera.constructor (glMatrix Real.sqrt Real.tan) (fun _ => ⟨1, 2, 3⟩)
          none none none).set_position (Ref.caller 0)).set_at (Ref.caller 0)).arrays
        (((Camera.constructor (glMatrix Real.sqrt Real.tan) (fun _ => ⟨1, 2, 3⟩)
          none none none).set_position (Ref.caller 0)).set_at (Ref.caller 0))._at) := by
  refine ⟨?_, ?_, ?_⟩
  · simp [Camera.constructor, Camera.set_position, Camera.set_at, Function.update_apply]
  · simp [Camera.constructor, Camera.set_position, Camera.set_at, Camera.incrementPosition,
      Function.update_apply]
    norm_num
  · simp [Camera.constructor, Camera.set_position, Camera.set_at, Camera.incrementPosition,
      Function.update_apply]

end CameraExamples

section TypedArrayLemmas

variable {K : Type}

/-- A `set` that fits returns the array with the source copied in. -/
theorem TypedArray.set_ok (a src : List K) (offset : Nat) (h : offset + src.length ≤ a.length) :
    TypedArray.set a src offset
      = .ok (a.take offset ++ src ++ a.drop (offset + src.length)) := by
  unfold TypedArray.set
  rw [if_neg (by omega)]

/-- A `set` that fits keeps the length. -/
theorem TypedArray.length_patch (a src : List K) (offset : Nat)
    (h : offset + src.length ≤ a.length) :
    (a.take offset ++ src ++ a.drop (offset + src.length)).length = a.length := by
  simp only [List.length_append, List.length_take, List.length_drop]
  omega

/-- A `set` leaves the entries before the offset as they are. -/
theorem TypedArray.getElem?_patch_lt (a src : List K) (offset j : Nat)
    (h : offset + src.length ≤ a.length) (hj : j < offset) :
    (a.take offset ++ src ++ a.drop (offset + src.length))[j]? = a[j]? := by
  rw [List.append_assoc, List.getElem?_append_left (by simp; omega)]
  rw [List.getElem?_take_of_lt hj]

/-- A `set` puts entry `j` of the source at `offset + j`. -/
theorem TypedArray.getElem?_patch_mid (a src : List K) (offset j : Nat)
    (h : offset + src.length ≤ a.length) (hj : j < src.length) :
    (a.take offset ++ src ++ a.drop (offset + src.length))[offset + j]? = src[j]? := by
  rw [List.append_assoc, List.getElem?_append_right (by simp)]
  have : offset + j - (List.take offset a).length = j := by simp; omega
  rw [this, List.getElem?_append_left hj]

/-- A `set` leaves the entries after the copied ones as they are. -/
theorem TypedArray.getElem?_patch_ge (a src : List K) (offset j : Nat)
    (h : offset + src.length ≤ a.length) (hj : offset + src.length ≤ j) :
    (a.take offset ++ src ++ a.drop (offset + src.length))[j]? = a[j]? := by
  rw [List.getElem?_append_right (by simp; omega)]
  rw [List.getElem?_drop]
  congr 1
  simp
  omega

/-- The array after a `set`, up to the end of the copied entries. -/
theorem TypedArray.take_patch (a src : List K) (offset : Nat)
    (h : offset + src.length ≤ a.length) :
    (a.take offset ++ src ++ a.drop (offset + src.length)).take (offset + src.length)
      = a.take offset ++ src := by
  apply List.take_left'
  simp only [List.length_append, List.length_take]
  omega

/-- The copied entries after a `set` are the source. -/
theorem TypedArray.subarray_patch (a src : List K) (offset : Nat)
    (h : offset + src.length ≤ a.length) :
    TypedArray.subarray (a.take offset ++ src ++ a.drop (offset + src.length)) offset
      (offset + src.length) = src := by
  unfold TypedArray.subarray
  rw [TypedArray.take_patch a src offset h]
  apply List.drop_left'
  simp only [List.length_take]
  omega

/-- A subarray from 0 is a prefix. -/
theorem TypedArray.subarray_zero (a : List K) (e : Nat) : TypedArray.subarray a 0 e = a.take e := by
  simp [TypedArray.subarray]

/-- A prefix of the array after a `set` within that prefix is the prefix after
the same `set`. -/
theorem TypedArray.take_patch_within (a src : List K) (offset o : Nat)
    (h : offset + src.length ≤ o) (ho : o ≤ a.length) :
    (a.take offset ++ src ++ a.drop (offset + src.length)).take o
      = (a.take o).take offset ++ src ++ (a.take o).drop (offset + src.length) := by
  apply List.ext_getElem?
  intro j
  have hfit : offset + src.length ≤ a.length := by omega
  have hfit' : offset + src.length ≤ (a.take o).length := by simp; omega
  by_cases hjo : j < o
  · rw [List.getElem?_take_of_lt hjo]
    by_cases h1 : j < offset
    · rw [TypedArray.getElem?_patch_lt a src offset j hfit h1,
        TypedArray.getElem?_patch_lt (a.take o) src offset j hfit' h1,
        List.getElem?_take_of_lt hjo]
    · by_cases h2 : j < offset + src.length
      · obtain ⟨m, rfl⟩ : ∃ m, j = offset + m := ⟨j - offset, by omega⟩
        rw [TypedArray.getElem?_patch_mid a src offset m hfit (by omega),
          TypedArray.getElem?_patch_mid (a.take o) src offset m hfit' (by omega)]
      · rw [TypedArray.getElem?_patch_ge a src offset j hfit (by omega),
          TypedArray.getElem?_patch_ge (a.take o) src offset j hfit' (by omega),
          List.getElem?_take_of_lt hjo]
  · rw [List.getElem?_eq_none (by simp; omega), List.getElem?_eq_none]
    rw [TypedArray.length_patch _ _ _ hfit']
    simp
    omega

end TypedArrayLemmas

section ControlPointUpdate

variable {K Cam : Type}

/-- C11: for a curve with its 60-scalar control buffer, an index below 20 and
a 3-component point, and a _calculate that returns and keeps the length of
the sample buffer, updateControlPoint followed by render completes.
_calculate is invoked on the curve with the point stored in control scalars
3*index .. 3*index+2, every other control scalar, the write offset and the
samples as they were, and the update issued to the control-point renderer; the
final curve is what _calculate returned, its curve renderer reset, and its
sample buffer has the length it had before the call. -/
theorem Curve.updateControlPoint_then_render (cls : CurveClass K Cam)
    (calculate : Curve K Cam → Except JsError (Curve K Cam)) (c : Curve K Cam) (index : Nat)
    (point : List K) (hcalc : cls._calculate = some calculate)
    (hret : ∀ s : Curve K Cam, ∃ s', calculate s = .ok s'
      ∧ s'.points.curve.length = s.points.curve.length)
    (hcap : c.points.control.length = 60) (hidx : index < 20) (hpt : point.length = 3) :
    ∃ c2 c3 cf : Curve K Cam,
      c2 = { c with
          points := { c.points with
            control := c.points.control.take (index * 3) ++ point
              ++ c.points.control.drop (index * 3 + point.length) }
          renderers := { c.renderers with control := c.renderers.control.update index point } }
        ∧ calculate c2 = .ok c3
        ∧ (c.updateControlPoint cls index point).map Curve.render = .ok cf
        ∧ TypedArray.subarray c2.points.control (3 * index) (3 * index + 3) = point
        ∧ (∀ j, j < 3 * index ∨ 3 * index + 3 ≤ j →
            c2.points.control[j]? = c.points.control[j]?)
        ∧ c2.points.control.length = c.points.control.length
        ∧ c2._offset = c._offset
        ∧ c2.points.curve = c.points.curve
        ∧ cf.points.curve.length = c.points.curve.length
        ∧ cf.points.control = c3.points.control ∧ cf._offset = c3._offset
        ∧ cf.renderers.control = c3.renderers.control := by
  have hfit : index * 3 + point.length ≤ c.points.control.length := by omega
  obtain ⟨c3, h3, hlen⟩ := hret
    { c with
      points := { c.points with
        control := c.points.control.take (index * 3) ++ point
          ++ c.points.control.drop (index * 3 + point.length) }
      renderers := { c.renderers with control := c.renderers.control.update index point } }
  refine ⟨_, c3,
    Curve.render { c3 with
      renderers := { c3.renderers with curve := c3.renderers.curve.reset c3.points.curve } },
    rfl, h3, ?_, ?_, ?_, ?_, rfl, rfl, ?_, ?_, ?_, ?_⟩
  · unfold Curve.updateControlPoint
    rw [TypedArray.set_ok _ _ _ hfit]
    simp only []
    rw [Curve.resetCurveRenderer_of_calculate cls calculate hcalc _ c3 h3]
    rfl
  · have := TypedArray.subarray_patch c.points.control point (index * 3) hfit
    rw [hpt] at this
    simp only [hpt]
    rw [show 3 * index = index * 3 by ring]
    exact this
  · intro j hj
    rcases hj with hj | hj
    · exact TypedArray.getElem?_patch_lt _ _ _ _ hfit (by omega)
    · exact TypedArray.getElem?_patch_ge _ _ _ _ hfit (by omega)
  · exact TypedArray.length_patch _ _ _ hfit
  · simpa [Curve.render, BatchRenderer.flush, BatchRenderer.reset] using hlen
  · rfl
  · rfl
  · rfl

end ControlPointUpdate

section CurveConstruction

variable {K Cam : Type} [LinearOrderedField K]

/-- C15: for every n, a curve constructed with iterations n has a sample
buffer of 3n+3 scalars; and the iterations setter, for a _calculate that
returns and fills the buffer in place, invokes _calculate on the curve with a
new buffer of 3n+3 scalars and returns with a buffer of 3n+3 scalars and the
curve renderer reset to it. -/
theorem Curve.curve_samples_length (cls : CurveClass K Cam) (camera : Cam)
    (control : Option (List K)) (n : Nat)
    (calculate : Curve K Cam → Except JsError (Curve K Cam))
    (hbase : cls.isCurve = false) (hcalc : cls._calculate = some calculate)
    (hret : ∀ s : Curve K Cam, ∃ s', calculate s = .ok s'
      ∧ s'.points.curve.length = s.points.curve.length) :
    (∃ c, Curve.constructor cls camera control (some n) = .ok c
        ∧ c.points.curve.length = 3 * n + 3)
      ∧ ∀ c : Curve K Cam, ∃ c2 c3 c',
          c2 = { c with
            _iterations := n
            points := { c.points with curve := List.replicate (n * 3 + 3) 0 } }
          ∧ calculate c2 = .ok c3
          ∧ c.set_iterations cls n = .ok c'
          ∧ c' = { c3 with
              renderers := { c3.renderers with curve := c3.renderers.curve.reset c3.points.curve } }
          ∧ c'.points.curve.length = 3 * n + 3
          ∧ c'.renderers.curve.coords = c'.points.curve := by
  constructor
  · refine ⟨_, Curve.constructor_ok cls camera control (some n) calculate hbase hcalc, ?_⟩
    simp only [List.length_replicate, Option.getD_some]
    ring
  · intro c
    obtain ⟨c3, h3, hlen⟩ := hret
      { c with
        _iterations := n
        points := { c.points with curve := List.replicate (n * 3 + 3) 0 } }
    refine ⟨_, c3, _, rfl, h3, ?_, rfl, ?_, rfl⟩
    · unfold Curve.set_iterations
      simp only []
      rw [Curve.resetCurveRenderer_of_calculate cls calculate hcalc _ c3 h3]
    · simp only [List.length_replicate] at hlen
      simp only [hlen]
      ring

/-- C17: constructing a curve fails, and then with a TypeError, exactly when
the object is the base Curve itself or its class has no _calculate; otherwise
it succeeds with write offset 0, a control buffer of 60 scalars and a sample
buffer of iterations*3+3 scalars, 63 when iterations is omitted. -/
theorem Curve.constructor_contract (cls : CurveClass K Cam) (camera : Cam)
    (control : Option (List K)) (iterations : Option Nat) :
    (Curve.constructor cls camera control iterations = .error .TypeError
        ↔ (cls.isCurve = true ∨ cls._calculate = none))
      ∧ (∀ e, Curve.constructor cls camera control iterations = .error e → e = .TypeError)
      ∧ (cls.isCurve = false → cls._calculate ≠ none →
          ∃ c, Curve.constructor cls camera control iterations = .ok c
            ∧ c._offset = 0 ∧ c.points.control.length = 60
            ∧ c.points.curve.length = iterations.getD 20 * 3 + 3)
      ∧ (cls.isCurve = false → cls._calculate ≠ none →
          ∃ c, Curve.constructor cls camera control none = .ok c
            ∧ c._offset = 0 ∧ c.points.control.length = 60 ∧ c.points.curve.length = 63) := by
  cases hb : cls.isCurve with
  | true => simp [Curve.constructor, hb]
  | false =>
    cases hc : cls._calculate with
    | none => simp [Curve.constructor, hb, hc]
    | some f =>
      refine ⟨?_, ?_, ?_, ?_⟩
      · simp [Curve.constructor_ok cls camera control iterations f hb hc]
      · intro e he
        rw [Curve.constructor_ok cls camera control iterations f hb hc] at he
        cases he
      · intro _ _
        exact ⟨_, Curve.constructor_ok cls camera control iterations f hb hc, rfl,
          by simp, by simp⟩
      · intro _ _
        exact ⟨_, Curve.constructor_ok cls camera control none f hb hc, rfl,
          by simp, by simp⟩
end CurveConstruction

section Normals

variable {K Cam : Type} [LinearOrderedField K]

/-- The cross product of an in-plane vector with the forward axis. -/
theorem vec3.cross_forward (a b : K) :
    vec3.cross (⟨a, b, 0⟩ : Vec3 K) ⟨0, 0, -1⟩ = ⟨-b, a, 0⟩ := by
  simp [vec3.cross]

/-- The normalized cross product of an in-plane vector `(a, b, 0)` with the
forward axis is in the plane and orthogonal to `(a, b, 0)`, whatever `sqrt` is. -/
theorem vec3.normalize_cross_forward (sqrt : K → K) (a b : K) :
    (vec3.normalize sqrt (vec3.cross (⟨a, b, 0⟩ : Vec3 K) ⟨0, 0, -1⟩)
        (vec3.cross (⟨a, b, 0⟩ : Vec3 K) ⟨0, 0, -1⟩)).z = 0
      ∧ (vec3.normalize sqrt (vec3.cross (⟨a, b, 0⟩ : Vec3 K) ⟨0, 0, -1⟩)
          (vec3.cross (⟨a, b, 0⟩ : Vec3 K) ⟨0, 0, -1⟩)).x * a
        + (vec3.normalize sqrt (vec3.cross (⟨a, b, 0⟩ : Vec3 K) ⟨0, 0, -1⟩)
          (vec3.cross (⟨a, b, 0⟩ : Vec3 K) ⟨0, 0, -1⟩)).y * b = 0 := by
  rw [vec3.cross_forward]
  unfold vec3.normalize
  simp only []
  split
  · constructor
    · simp
    · ring
  · constructor
    · rfl
    · ring

/-- A read in terms of the optional entry. -/
theorem TypedArray.get_eq (a : List K) (j : Nat) : TypedArray.get a j = (a[j]?).getD 0 := by
  simp [TypedArray.get, List.getD_eq_getElem?_getD]

/-- A `set` of three values that fits: the result, its length and its entries. -/
theorem TypedArray.set3 (a : List K) (x y z : K) (i : Nat) (h : i + 3 ≤ a.length) :
    ∃ a', TypedArray.set a [x, y, z] i = .ok a' ∧ a'.length = a.length
      ∧ TypedArray.get a' i = x ∧ TypedArray.get a' (i + 1) = y ∧ TypedArray.get a' (i + 2) = z
      ∧ ∀ j, j < i ∨ i + 3 ≤ j → TypedArray.get a' j = TypedArray.get a j := by
  have hfit : i + [x, y, z].length ≤ a.length := by simpa using h
  refine ⟨_, TypedArray.set_ok a [x, y, z] i hfit, TypedArray.length_patch _ _ _ hfit, ?_, ?_, ?_, ?_⟩
  · have := TypedArray.getElem?_patch_mid a [x, y, z] i 0 hfit (by simp)
    rw [TypedArray.get_eq]
    simp only [Nat.add_zero] at this
    rw [this]
    rfl
  · have := TypedArray.getElem?_patch_mid a [x, y, z] i 1 hfit (by simp)
    rw [TypedArray.get_eq, this]
    rfl
  · have := TypedArray.getElem?_patch_mid a [x, y, z] i 2 hfit (by simp)
    rw [TypedArray.get_eq, this]
    rfl
  · intro j hj
    rw [TypedArray.get_eq, TypedArray.get_eq]
    rcases hj with hj | hj
    · rw [TypedArray.getElem?_patch_lt a [x, y, z] i j hfit hj]
    · rw [TypedArray.getElem?_patch_ge a [x, y, z] i j hfit (by simpa using hj)]

/-- A normal written earlier stays as it is when the array changes only from a
later index on. -/
theorem Curve.normalInPlane_of_agree (curve a a' : List K) (j i : Nat) (hj : 3 * j + 3 ≤ i)
    (hsame : ∀ m, m < i ∨ i + 3 ≤ m → TypedArray.get a' m = TypedArray.get a m)
    (h : Curve.NormalInPlane curve a j) : Curve.NormalInPlane curve a' j := by
  unfold Curve.NormalInPlane at h ⊢
  rw [hsame (3 * j) (Or.inl (by omega)), hsame (3 * j + 1) (Or.inl (by omega)),
    hsame (3 * j + 2) (Or.inl (by omega))]
  exact h

/-- A normal just written that is in the plane and orthogonal to the tangent. -/
theorem Curve.normalInPlane_of_written (curve a' : List K) (j : Nat) (v : Vec3 K)
    (h0 : TypedArray.get a' (3 * j) = v.x) (h1 : TypedArray.get a' (3 * j + 1) = v.y)
    (h2 : TypedArray.get a' (3 * j + 2) = v.z) (hz : v.z = 0)
    (ho : v.x * Curve.tangentX curve j + v.y * Curve.tangentY curve j = 0) :
    Curve.NormalInPlane curve a' j := by
  unfold Curve.NormalInPlane
  rw [h0, h1, h2, hz]
  refine ⟨rfl, ?_⟩
  rw [mul_zero, add_zero]
  exact ho

/-- The tangent of a sample after the first, X component. -/
theorem Curve.tangentX_succ (curve : List K) (k : Nat) (hk : 1 ≤ k) :
    Curve.tangentX curve k = TypedArray.get curve (3 * k) - TypedArray.get curve (3 * (k - 1)) := by
  unfold Curve.tangentX
  rw [if_neg (by omega)]

/-- The tangent of a sample after the first, Y component. -/
theorem Curve.tangentY_succ (curve : List K) (k : Nat) (hk : 1 ≤ k) :
    Curve.tangentY curve k
      = TypedArray.get curve (3 * k + 1) - TypedArray.get curve (3 * (k - 1) + 1) := by
  unfold Curve.tangentY
  rw [if_neg (by omega)]

/-- The loop of `_calculateNormals` on a buffer of `N+1` samples, entered at
sample `k`: it returns, at sample `N`, with every normal before `N` in the
plane and orthogonal to its tangent, and with `cx - lx`, `cy - ly` either the
tangent of sample `N` (the loop did not run) or zero (it ran). -/
theorem Curve.calculateNormalsLoop_inPlane (sqrt : K → K) (curve : List K) (N L : Nat) :
    ∀ (d k : Nat) (s : NormalsState K), N - k = d → 1 ≤ k → k ≤ N → 3 * (N + 1) ≤ L →
      s.i = 3 * k → s.lx = TypedArray.get curve (3 * (k - 1)) →
      s.ly = TypedArray.get curve (3 * (k - 1) + 1) → s.normals.length = L →
      ((k = 1 ∧ s.cx = TypedArray.get curve 3 ∧ s.cy = TypedArray.get curve 4)
        ∨ (s.cx = s.lx ∧ s.cy = s.ly)) →
      (∀ j, j < k → Curve.NormalInPlane curve s.normals j) →
      ∃ s', Curve._calculateNormalsLoop sqrt curve (3 * (N + 1)) s = .ok s'
        ∧ s'.i = 3 * N ∧ s'.normals.length = L
        ∧ ((s'.cx - s'.lx = Curve.tangentX curve N ∧ s'.cy - s'.ly = Curve.tangentY curve N)
          ∨ (s'.cx - s'.lx = 0 ∧ s'.cy - s'.ly = 0))
        ∧ ∀ j, j < N → Curve.NormalInPlane curve s'.normals j := by
  intro d
  induction d with
  | zero =>
    intro k s hd hk1 hkN hL hi hlx hly hlen hc hdone
    have hk : k = N := by omega
    subst hk
    rw [Curve._calculateNormalsLoop]
    have : ¬ s.i + 3 < 3 * (k + 1) := by omega
    simp only [this, if_false]
    refine ⟨s, rfl, hi, hlen, ?_, hdone⟩
    rcases hc with ⟨h1, h3, h4⟩ | ⟨h3, h4⟩
    · left
      subst h1
      rw [Curve.tangentX_succ curve 1 (le_refl 1), Curve.tangentY_succ curve 1 (le_refl 1),
        h3, h4, hlx, hly]
      exact ⟨rfl, rfl⟩
    · right
      rw [h3, h4]
      exact ⟨sub_self _, sub_self _⟩
  | succ d ih =>
    intro k s hd hk1 hkN hL hi hlx hly hlen hc hdone
    rw [Curve._calculateNormalsLoop]
    have : s.i + 3 < 3 * (N + 1) := by omega
    simp only [this, if_true]
    obtain ⟨a', hset, hlen', h0, h1, h2, hsame⟩ := TypedArray.set3 s.normals
      (vec3.cross (⟨TypedArray.get curve s.i - s.lx, TypedArray.get curve (s.i + 1) - s.ly, 0⟩ :
        Vec3 K) ⟨0, 0, -1⟩).x
      (vec3.cross (⟨TypedArray.get curve s.i - s.lx, TypedArray.get curve (s.i + 1) - s.ly, 0⟩ :
        Vec3 K) ⟨0, 0, -1⟩).y
      (vec3.cross (⟨TypedArray.get curve s.i - s.lx, TypedArray.get curve (s.i + 1) - s.ly, 0⟩ :
        Vec3 K) ⟨0, 0, -1⟩).z
      s.i (by omega)
    rw [hset]
    simp only []
    apply ih (k + 1) _ (by omega) (by omega) (by omega) hL
    · simp only [hi]; ring
    · simp only [hi, Nat.add_sub_cancel]
    · simp only [hi, Nat.add_sub_cancel]
    · simp only [hlen', hlen]
    · right
      exact ⟨rfl, rfl⟩
    · intro j hj
      simp only []
      rcases Nat.eq_or_lt_of_le (Nat.le_of_lt_succ hj) with rfl | hlt
      · rw [hi] at h0 h1 h2
        apply Curve.normalInPlane_of_written curve a' j _ h0 h1 h2
        · rw [vec3.cross_forward]
        · rw [vec3.cross_forward, Curve.tangentX_succ curve j hk1,
            Curve.tangentY_succ curve j hk1, hlx, hly]
          ring
      · exact Curve.normalInPlane_of_agree curve s.normals a' j s.i (by omega) hsame
          (hdone j hlt)

/-- Every normal `_calculateNormals` stores lies in the plane and has a zero
dot product with the tangent of its sample: on a sample buffer of n+1 points
with 1 <= n <= 20 and a normals array of 63 scalars the method returns, and
for every sample i <= n the stored normal has z-component 0 and its dot
product with the in-plane tangent (dx, dy, 0) of that sample is 0, whatever
sqrt is.  The zero vector meets both conditions. -/
theorem Curve.calculateNormals_in_plane (sqrt : K → K) (c : Curve K Cam) (N : Nat)
    (hN1 : 1 ≤ N) (hN2 : N ≤ 20) (hlen : c.points.curve.length = 3 * (N + 1))
    (hcap : c._normals.length = 63) :
    ∃ c', c._calculateNormals sqrt = .ok c'
      ∧ c'.points.curve = c.points.curve
      ∧ ∀ i, i ≤ N →
        TypedArray.get c'._normals (3 * i + 2) = 0
          ∧ TypedArray.get c'._normals (3 * i) * Curve.tangentX c.points.curve i
              + TypedArray.get c'._normals (3 * i + 1) * Curve.tangentY c.points.curve i
              + TypedArray.get c'._normals (3 * i + 2) * 0 = 0 := by
  unfold Curve._calculateNormals
  simp only [hlen]
  obtain ⟨h0z, h0o⟩ := vec3.normalize_cross_forward sqrt
    (TypedArray.get c.points.curve 3 - TypedArray.get c.points.curve 0)
    (TypedArray.get c.points.curve 4 - TypedArray.get c.points.curve 1)
  obtain ⟨a0, hset0, hlen0, g0, g1, g2, hsame0⟩ := TypedArray.set3 c._normals
    (vec3.normalize sqrt
      (vec3.cross (⟨TypedArray.get c.points.curve 3 - TypedArray.get c.points.curve 0,
        TypedArray.get c.points.curve 4 - TypedArray.get c.points.curve 1, 0⟩ : Vec3 K) ⟨0, 0, -1⟩)
      (vec3.cross (⟨TypedArray.get c.points.curve 3 - TypedArray.get c.points.curve 0,
        TypedArray.get c.points.curve 4 - TypedArray.get c.points.curve 1, 0⟩ : Vec3 K)
        ⟨0, 0, -1⟩)).x
    (vec3.normalize sqrt
      (vec3.cross (⟨TypedArray.get c.points.curve 3 - TypedArray.get c.points.curve 0,
        TypedArray.get c.points.curve 4 - TypedArray.get c.points.curve 1, 0⟩ : Vec3 K) ⟨0, 0, -1⟩)
      (vec3.cross (⟨TypedArray.get c.points.curve 3 - TypedArray.get c.points.curve 0,
        TypedArray.get c.points.curve 4 - TypedArray.get c.points.curve 1, 0⟩ : Vec3 K)
        ⟨0, 0, -1⟩)).y
    (vec3.normalize sqrt
      (vec3.cross (⟨TypedArray.get c.points.curve 3 - TypedArray.get c.points.curve 0,
        TypedArray.get c.points.curve 4 - TypedArray.get c.points.curve 1, 0⟩ : Vec3 K) ⟨0, 0, -1⟩)
      (vec3.cross (⟨TypedArray.get c.points.curve 3 - TypedArray.get c.points.curve 0,
        TypedArray.get c.points.curve 4 - TypedArray.get c.points.curve 1, 0⟩ : Vec3 K)
        ⟨0, 0, -1⟩)).z
    0 (by omega)
  rw [hset0]
  simp only []
  have hgood0 : Curve.NormalInPlane c.points.curve a0 0 := by
    apply Curve.normalInPlane_of_written c.points.curve a0 0 _ g0 g1 g2 h0z
    simpa [Curve.tangentX, Curve.tangentY] using h0o
  obtain ⟨s', hloop, hi', hlen', hexit, hdone⟩ := Curve.calculateNormalsLoop_inPlane sqrt
    c.points.curve N 63 (N - 1) 1
    { i := 3, lx := TypedArray.get c.points.curve 0, ly := TypedArray.get c.points.curve 1,
      cx := TypedArray.get c.points.curve 3, cy := TypedArray.get c.points.curve 4,
      tmpNormal := _, normals := a0 }
    rfl (le_refl 1) hN1 (by omega) rfl rfl rfl (by simp only [hlen0, hcap])
    (Or.inl ⟨rfl, rfl, rfl⟩)
    (fun j hj => by
      have hj0 : j = 0 := by omega
      subst hj0
      exact hgood0)
  rw [hloop]
  simp only []
  obtain ⟨hz, ho⟩ := vec3.normalize_cross_forward sqrt (s'.cx - s'.lx) (s'.cy - s'.ly)
  obtain ⟨a1, hset1, _, f0, f1, f2, hsame1⟩ := TypedArray.set3 s'.normals
    (vec3.normalize sqrt
      (vec3.cross (⟨s'.cx - s'.lx, s'.cy - s'.ly, 0⟩ : Vec3 K) ⟨0, 0, -1⟩)
      (vec3.cross (⟨s'.cx - s'.lx, s'.cy - s'.ly, 0⟩ : Vec3 K) ⟨0, 0, -1⟩)).x
    (vec3.normalize sqrt
      (vec3.cross (⟨s'.cx - s'.lx, s'.cy - s'.ly, 0⟩ : Vec3 K) ⟨0, 0, -1⟩)
      (vec3.cross (⟨s'.cx - s'.lx, s'.cy - s'.ly, 0⟩ : Vec3 K) ⟨0, 0, -1⟩)).y
    (vec3.normalize sqrt
      (vec3.cross (⟨s'.cx - s'.lx, s'.cy - s'.ly, 0⟩ : Vec3 K) ⟨0, 0, -1⟩)
      (vec3.cross (⟨s'.cx - s'.lx, s'.cy - s'.ly, 0⟩ : Vec3 K) ⟨0, 0, -1⟩)).z
    s'.i (by omega)
  rw [hset1]
  refine ⟨_, rfl, rfl, ?_⟩
  intro i hi
  rcases Nat.eq_or_lt_of_le hi with rfl | hlt
  · rw [hi'] at f0 f1 f2
    apply Curve.normalInPlane_of_written c.points.curve a1 i _ f0 f1 f2 hz
    rcases hexit with ⟨e1, e2⟩ | ⟨e1, e2⟩
    · rw [← e1, ← e2]
      exact ho
    · have hx : (vec3.normalize sqrt
          (vec3.cross (⟨s'.cx - s'.lx, s'.cy - s'.ly, 0⟩ : Vec3 K) ⟨0, 0, -1⟩)
          (vec3.cross (⟨s'.cx - s'.lx, s'.cy - s'.ly, 0⟩ : Vec3 K) ⟨0, 0, -1⟩))
          = ⟨0, 0, 0⟩ := by
        rw [e1, e2]
        simp [vec3.cross, vec3.normalize]
      rw [hx]
      simp
  · exact Curve.normalInPlane_of_agree c.points.curve s'.normals a1 i s'.i (by omega) hsame1
      (hdone i hlt)


end Normals

section Slopes

variable {K Cam : Type} [LinearOrderedField K]

/-- Every read of an array of zeros gives 0. -/
theorem TypedArray.get_replicate_zero (n m : Nat) :
    TypedArray.get (List.replicate n (0 : K)) m = 0 := by
  simp only [TypedArray.get, List.getD_eq_getElem?_getD, List.getElem?_replicate]
  split <;> rfl

/-- The loop of `_calculateSlopes` leaves the entries past sample `N` as they
are. -/
theorem Curve.calculateSlopesLoop_beyond (atan2 : K → K → K) (curve : List K) (N : Nat) :
    ∀ (d k : Nat) (s : SlopesState K), N - k = d → k ≤ N → s.i = 3 * k →
      ∀ j, N < j →
        TypedArray.get (Curve._calculateSlopesLoop atan2 curve (3 * (N + 1)) s).slopes j
          = TypedArray.get s.slopes j := by
  intro d
  induction d with
  | zero =>
    intro k s hd hkN hi j hj
    rw [Curve._calculateSlopesLoop]
    have : ¬ s.i + 3 < 3 * (N + 1) := by omega
    simp only [this, if_false]
  | succ d ih =>
    intro k s hd hkN hi j hj
    rw [Curve._calculateSlopesLoop]
    have : s.i + 3 < 3 * (N + 1) := by omega
    simp only [this, if_true]
    rw [ih (k + 1) _ (by omega) (by omega) (by simp only [hi]; ring) j hj]
    simp only [hi, TypedArray.div3_mul]
    exact TypedArray.get_put_other _ _ _ _ (by omega)

/-- On a buffer of `N+1` samples `_calculateSlopes` leaves the entries past
sample `N` as they are, and keeps the length of the array. -/
theorem Curve.calculateSlopes_beyond (atan2 : K → K → K) (c : Curve K Cam) (N : Nat)
    (hN : 1 ≤ N) (hlen : c.points.curve.length = 3 * (N + 1))
    (hcap : N + 1 ≤ c._slopes.length) (j : Nat) (hj : N < j) :
    TypedArray.get (c._calculateSlopes atan2)._slopes j = TypedArray.get c._slopes j
      ∧ (c._calculateSlopes atan2)._slopes.length = c._slopes.length := by
  unfold Curve._calculateSlopes
  simp only [hlen]
  obtain ⟨h1, _, _, h4, _⟩ := Curve.calculateSlopesLoop_backward atan2 c.points.curve N
    c._slopes.length (N - 1) 1
    { i := 3, lx := TypedArray.get c.points.curve 0, ly := TypedArray.get c.points.curve 1,
      cx := TypedArray.get c.points.curve 3, cy := TypedArray.get c.points.curve 4,
      slopes := TypedArray.put c._slopes (TypedArray.div3 none)
        (atan2 (TypedArray.get c.points.curve 4 - TypedArray.get c.points.curve 1)
          (TypedArray.get c.points.curve 3 - TypedArray.get c.points.curve 0)) }
    rfl (le_refl 1) hN hcap rfl rfl rfl (by simp only [TypedArray.length_put])
    (fun j hj1 hj2 => absurd hj2 (by omega))
  have h5 := Curve.calculateSlopesLoop_beyond atan2 c.points.curve N (N - 1) 1
    { i := 3, lx := TypedArray.get c.points.curve 0, ly := TypedArray.get c.points.curve 1,
      cx := TypedArray.get c.points.curve 3, cy := TypedArray.get c.points.curve 4,
      slopes := TypedArray.put c._slopes (TypedArray.div3 none)
        (atan2 (TypedArray.get c.points.curve 4 - TypedArray.get c.points.curve 1)
          (TypedArray.get c.points.curve 3 - TypedArray.get c.points.curve 0)) }
    rfl hN rfl j hj
  constructor
  · rw [h1, TypedArray.div3_mul, TypedArray.get_put_other _ _ _ _ (by omega), h5]
    simp [TypedArray.div3, TypedArray.put]
  · rw [TypedArray.length_put, h4]

/-- C16: for a new curve of iterations n, 1 <= n <= 20, whose sample buffer
holds n+1 points with one and the same y and strictly increasing x, and an
atan2 with atan2(0, x) = 0 for x > 0, after _calculateSlopes the array of
tangent angles has its 21 entries and every one of them is 0. -/
theorem Curve.calculateSlopes_horizontal_line (atan2 : K → K → K)
    (hatan : ∀ x : K, 0 < x → atan2 0 x = 0) (cls : CurveClass K Cam) (camera : Cam)
    (control : Option (List K)) (N : Nat)
    (calculate : Curve K Cam → Except JsError (Curve K Cam)) (samples : List K)
    (hbase : cls.isCurve = false) (hcalc : cls._calculate = some calculate)
    (hN1 : 1 ≤ N) (hN2 : N ≤ 20) (hlen : samples.length = 3 * (N + 1))
    (hy : ∀ k, k ≤ N → TypedArray.get samples (3 * k + 1) = TypedArray.get samples 1)
    (hx : ∀ k, k < N → TypedArray.get samples (3 * k) < TypedArray.get samples (3 * (k + 1))) :
    ∃ c0, Curve.constructor cls camera control (some N) = .ok c0
      ∧ (Curve._calculateSlopes atan2
          { c0 with points := { c0.points with curve := samples } })._slopes.length = 21
      ∧ ∀ j, TypedArray.get (Curve._calculateSlopes atan2
          { c0 with points := { c0.points with curve := samples } })._slopes j = 0 := by
  refine ⟨_, Curve.constructor_ok cls camera control (some N) calculate hbase hcalc, ?_, ?_⟩
  · have := (Curve.calculateSlopes_beyond atan2
      ({ _camera := camera, _curveLength := (some N).getD 20 * 3 + 3,
         _normals := List.replicate 63 0, _slopes := List.replicate 21 0,
         points := { control := List.replicate 60 0, curve := samples },
         renderers := { control := ⟨[]⟩, curve := ⟨[]⟩ },
         _iterations := (some N).getD 20, _tempPoint := vec3.create, _offset := 0 } : Curve K Cam)
      N hN1 hlen (by simp only [List.length_replicate]; omega) (N + 1) (by omega)).2
    simpa using this
  · intro j
    have hzero : ∀ m, TypedArray.get (List.replicate 21 (0 : K)) m = 0 :=
      TypedArray.get_replicate_zero 21
    rcases Nat.eq_zero_or_pos j with rfl | hjpos
    · rw [Curve.calculateSlopes_first_sample_not_written]
      exact hzero 0
    · rcases Nat.lt_or_ge N j with hj | hj
      · rw [(Curve.calculateSlopes_beyond atan2 _ N hN1 hlen
          (by simp only [List.length_replicate]; omega) j hj).1]
        exact hzero j
      · rw [Curve.calculateSlopes_backward_difference atan2 _ N hN1 hlen
          (by simp only [List.length_replicate]; omega) j hjpos hj]
        simp only []
        rw [hy j hj, hy (j - 1) (by omega), sub_self]
        apply hatan
        have := hx (j - 1) (by omega)
        rw [show j - 1 + 1 = j by omega] at this
        exact sub_pos.mpr this
end Slopes

section NormalsStored

variable {K Cam : Type} [LinearOrderedField K]

/-- The loop of `_calculateNormals` on a buffer of `N+1` samples, entered at
sample `k`: it returns, at sample `N`, with the first normal as it was, with
the vector `(-dy, dx, 0)` of the tangent `(dx, dy, 0)` stored as it is, not
normalized, for every sample from 1 to `N-1`, and, once the body has run, with
`cx`, `cy` equal to `lx`, `ly`. -/
theorem Curve.calculateNormalsLoop_stored (sqrt : K → K) (curve : List K) (N L : Nat) :
    ∀ (d k : Nat) (s : NormalsState K), N - k = d → 1 ≤ k → k ≤ N → 3 * (N + 1) ≤ L →
      s.i = 3 * k → s.lx = TypedArray.get curve (3 * (k - 1)) →
      s.ly = TypedArray.get curve (3 * (k - 1) + 1) → s.normals.length = L →
      (2 ≤ k → s.cx = s.lx ∧ s.cy = s.ly) →
      (∀ j, 1 ≤ j → j < k →
        TypedArray.get s.normals (3 * j) = -Curve.tangentY curve j
          ∧ TypedArray.get s.normals (3 * j + 1) = Curve.tangentX curve j
          ∧ TypedArray.get s.normals (3 * j + 2) = 0) →
      ∃ s', Curve._calculateNormalsLoop sqrt curve (3 * (N + 1)) s = .ok s'
        ∧ s'.i = 3 * N ∧ s'.normals.length = L
        ∧ (2 ≤ N → s'.cx = s'.lx ∧ s'.cy = s'.ly)
        ∧ (∀ m, m < 3 → TypedArray.get s'.normals m = TypedArray.get s.normals m)
        ∧ ∀ j, 1 ≤ j → j < N →
          TypedArray.get s'.normals (3 * j) = -Curve.tangentY curve j
            ∧ TypedArray.get s'.normals (3 * j + 1) = Curve.tangentX curve j
            ∧ TypedArray.get s'.normals (3 * j + 2) = 0 := by
  intro d
  induction d with
  | zero =>
    intro k s hd hk1 hkN hL hi hlx hly hlen hc hdone
    have hk : k = N := by omega
    subst hk
    rw [Curve._calculateNormalsLoop]
    have : ¬ s.i + 3 < 3 * (k + 1) := by omega
    simp only [this, if_false]
    exact ⟨s, rfl, hi, hlen, hc, fun _ _ => rfl, hdone⟩
  | succ d ih =>
    intro k s hd hk1 hkN hL hi hlx hly hlen hc hdone
    rw [Curve._calculateNormalsLoop]
    have : s.i + 3 < 3 * (N + 1) := by omega
    simp only [this, if_true]
    obtain ⟨a', hset, hlen', h0, h1, h2, hsame⟩ := TypedArray.set3 s.normals
      (vec3.cross (⟨TypedArray.get curve s.i - s.lx, TypedArray.get curve (s.i + 1) - s.ly, 0⟩ :
        Vec3 K) ⟨0, 0, -1⟩).x
      (vec3.cross (⟨TypedArray.get curve s.i - s.lx, TypedArray.get curve (s.i + 1) - s.ly, 0⟩ :
        Vec3 K) ⟨0, 0, -1⟩).y
      (vec3.cross (⟨TypedArray.get curve s.i - s.lx, TypedArray.get curve (s.i + 1) - s.ly, 0⟩ :
        Vec3 K) ⟨0, 0, -1⟩).z
      s.i (by omega)
    rw [hset]
    simp only []
    obtain ⟨s', hs', hi', hl', hc', hfirst, hdone'⟩ := ih (k + 1)
      { i := s.i + 3, lx := TypedArray.get curve s.i, ly := TypedArray.get curve (s.i + 1),
        cx := TypedArray.get curve s.i, cy := TypedArray.get curve (s.i + 1),
        tmpNormal := vec3.cross
          (⟨TypedArray.get curve s.i - s.lx, TypedArray.get curve (s.i + 1) - s.ly, 0⟩ : Vec3 K)
          ⟨0, 0, -1⟩,
        normals := a' }
      (by omega) (by omega) (by omega) hL
      (by simp only [hi]; ring)
      (by simp only [hi, Nat.add_sub_cancel])
      (by simp only [hi, Nat.add_sub_cancel])
      (by simp only [hlen', hlen])
      (fun _ => ⟨rfl, rfl⟩)
      (by
        intro j hj1 hj
        simp only []
        rcases Nat.eq_or_lt_of_le (Nat.le_of_lt_succ hj) with rfl | hlt
        · rw [hi] at h0 h1 h2
          rw [h0, h1, h2, vec3.cross_forward, Curve.tangentX_succ curve j hk1,
            Curve.tangentY_succ curve j hk1, hlx, hly]
          exact ⟨rfl, rfl, rfl⟩
        · rw [hsame (3 * j) (Or.inl (by omega)), hsame (3 * j + 1) (Or.inl (by omega)),
            hsame (3 * j + 2) (Or.inl (by omega))]
          exact hdone j hj1 hlt)
    refine ⟨s', hs', hi', hl', hc', ?_, hdone'⟩
    intro m hm
    rw [hfirst m hm]
    exact hsame m (Or.inl (by omega))

/-- C14 (the code at the failing inputs): on a sample buffer of n+1 points with
2 <= n <= 20 and a normals array of 63 scalars, _calculateNormals returns with
exactly these vectors stored, whatever sqrt is and whatever the samples are.
For sample 0 the normalized (-dy, dx, 0) of its tangent (dx, dy, 0); for each
sample from 1 to n-1 the vector (-dy, dx, 0) of its tangent, not normalized;
for the last sample n the zero vector (0, 0, 0), whatever its tangent is.  So
for the last sample no direction perpendicular to its tangent is stored. -/
theorem Curve.calculateNormals_last_normal_zero (sqrt : K → K) (c : Curve K Cam) (N : Nat)
    (hN1 : 2 ≤ N) (hN2 : N ≤ 20) (hlen : c.points.curve.length = 3 * (N + 1))
    (hcap : c._normals.length = 63) :
    ∃ c', c._calculateNormals sqrt = .ok c'
      ∧ c'.points.curve = c.points.curve
      ∧ (TypedArray.get c'._normals 0
            = (vec3.normalize sqrt
                ⟨-Curve.tangentY c.points.curve 0, Curve.tangentX c.points.curve 0, 0⟩
                ⟨-Curve.tangentY c.points.curve 0, Curve.tangentX c.points.curve 0, 0⟩).x
          ∧ TypedArray.get c'._normals 1
            = (vec3.normalize sqrt
                ⟨-Curve.tangentY c.points.curve 0, Curve.tangentX c.points.curve 0, 0⟩
                ⟨-Curve.tangentY c.points.curve 0, Curve.tangentX c.points.curve 0, 0⟩).y
          ∧ TypedArray.get c'._normals 2
            = (vec3.normalize sqrt
                ⟨-Curve.tangentY c.points.curve 0, Curve.tangentX c.points.curve 0, 0⟩
                ⟨-Curve.tangentY c.points.curve 0, Curve.tangentX c.points.curve 0, 0⟩).z)
      ∧ (∀ i, 1 ≤ i → i < N →
          TypedArray.get c'._normals (3 * i) = -Curve.tangentY c.points.curve i
            ∧ TypedArray.get c'._normals (3 * i + 1) = Curve.tangentX c.points.curve i
            ∧ TypedArray.get c'._normals (3 * i + 2) = 0)
      ∧ (TypedArray.get c'._normals (3 * N) = 0
          ∧ TypedArray.get c'._normals (3 * N + 1) = 0
          ∧ TypedArray.get c'._normals (3 * N + 2) = 0) := by
  unfold Curve._calculateNormals
  simp only [hlen]
  obtain ⟨a0, hset0, hlen0, g0, g1, g2, hsame0⟩ := TypedArray.set3 c._normals
    (vec3.normalize sqrt
      (vec3.cross (⟨TypedArray.get c.points.curve 3 - TypedArray.get c.points.curve 0,
        TypedArray.get c.points.curve 4 - TypedArray.get c.points.curve 1, 0⟩ : Vec3 K) ⟨0, 0, -1⟩)
      (vec3.cross (⟨TypedArray.get c.points.curve 3 - TypedArray.get c.points.curve 0,
        TypedArray.get c.points.curve 4 - TypedArray.get c.points.curve 1, 0⟩ : Vec3 K)
        ⟨0, 0, -1⟩)).x
    (vec3.normalize sqrt
      (vec3.cross (⟨TypedArray.get c.points.curve 3 - TypedArray.get c.points.curve 0,
        TypedArray.get c.points.curve 4 - TypedArray.get c.points.curve 1, 0⟩ : Vec3 K) ⟨0, 0, -1⟩)
      (vec3.cross (⟨TypedArray.get c.points.curve 3 - TypedArray.get c.points.curve 0,
        TypedArray.get c.points.curve 4 - TypedArray.get c.points.curve 1, 0⟩ : Vec3 K)
        ⟨0, 0, -1⟩)).y
    (vec3.normalize sqrt
      (vec3.cross (⟨TypedArray.get c.points.curve 3 - TypedArray.get c.points.curve 0,
        TypedArray.get c.points.curve 4 - TypedArray.get c.points.curve 1, 0⟩ : Vec3 K) ⟨0, 0, -1⟩)
      (vec3.cross (⟨TypedArray.get c.points.curve 3 - TypedArray.get c.points.curve 0,
        TypedArray.get c.points.curve 4 - TypedArray.get c.points.curve 1, 0⟩ : Vec3 K)
        ⟨0, 0, -1⟩)).z
    0 (by omega)
  rw [hset0]
  simp only []
  obtain ⟨s', hloop, hi', hlen', hexit, hfirst, hdone⟩ := Curve.calculateNormalsLoop_stored sqrt
    c.points.curve N 63 (N - 1) 1
    { i := 3, lx := TypedArray.get c.points.curve 0, ly := TypedArray.get c.points.curve 1,
      cx := TypedArray.get c.points.curve 3, cy := TypedArray.get c.points.curve 4,
      tmpNormal := _, normals := a0 }
    rfl (le_refl 1) (by omega) (by omega) rfl rfl rfl (by simp only [hlen0, hcap])
    (fun h => absurd h (by omega))
    (fun j hj1 hj => absurd hj (by omega))
  rw [hloop]
  simp only []
  obtain ⟨e1, e2⟩ := hexit hN1
  have hx : (vec3.normalize sqrt
      (vec3.cross (⟨s'.cx - s'.lx, s'.cy - s'.ly, 0⟩ : Vec3 K) ⟨0, 0, -1⟩)
      (vec3.cross (⟨s'.cx - s'.lx, s'.cy - s'.ly, 0⟩ : Vec3 K) ⟨0, 0, -1⟩))
      = ⟨0, 0, 0⟩ := by
    rw [e1, e2]
    simp [vec3.cross, vec3.normalize]
  rw [hx]
  obtain ⟨a1, hset1, _, f0, f1, f2, hsame1⟩ := TypedArray.set3 s'.normals (0 : K) 0 0
    s'.i (by omega)
  rw [hset1]
  refine ⟨_, rfl, rfl, ⟨?_, ?_, ?_⟩, ?_, ?_⟩
  · simp only []
    rw [hsame1 0 (Or.inl (by omega)), hfirst 0 (by omega), g0, vec3.cross_forward]
    simp only [Curve.tangentX, Curve.tangentY, if_true]
  · simp only []
    rw [hsame1 1 (Or.inl (by omega)), hfirst 1 (by omega), g1, vec3.cross_forward]
    simp only [Curve.tangentX, Curve.tangentY, if_true]
  · simp only []
    rw [hsame1 2 (Or.inl (by omega)), hfirst 2 (by omega), g2, vec3.cross_forward]
    simp only [Curve.tangentX, Curve.tangentY, if_true]
  · intro i hi1 hi2
    simp only []
    rw [hsame1 (3 * i) (Or.inl (by omega)), hsame1 (3 * i + 1) (Or.inl (by omega)),
      hsame1 (3 * i + 2) (Or.inl (by omega))]
    exact hdone i hi1 hi2
  · rw [hi'] at f0 f1 f2
    exact ⟨f0, f1, f2⟩

end NormalsStored

section DerivedCapacity

variable {K Cam : Type} [LinearOrderedField K]

/-- The loop of `_calculateSlopes` keeps the length of the array of tangent
angles. -/
theorem Curve.calculateSlopesLoop_length (atan2 : K → K → K) (curve : List K) (n : Nat) :
    ∀ (d : Nat) (s : SlopesState K), n - s.i = d →
      (Curve._calculateSlopesLoop atan2 curve n s).slopes.length = s.slopes.length := by
  intro d
  induction d using Nat.strong_induction_on with
  | _ d ih =>
    intro s hd
    rw [Curve._calculateSlopesLoop]
    by_cases h : s.i + 3 < n
    · simp only [h, if_true]
      rw [ih (n - (s.i + 3)) (by omega) _ rfl]
      simp only [TypedArray.length_put]
    · simp only [h, if_false]

/-- The method `_calculateSlopes` keeps the length of the array of tangent
angles, whatever the number of samples is: a write past its end is dropped. -/
theorem Curve.calculateSlopes_length (atan2 : K → K → K) (c : Curve K Cam) :
    (c._calculateSlopes atan2)._slopes.length = c._slopes.length := by
  unfold Curve._calculateSlopes
  simp only [TypedArray.length_put]
  rw [Curve.calculateSlopesLoop_length atan2 _ _ _ _ rfl]
  simp only [TypedArray.length_put]

/-- The loop of `_calculateNormals` on a buffer of `N+1` samples, `N` at least
21, and a normals array of 63 scalars, entered at sample `k` up to 21: it
throws the RangeError of `set`, or it exits at index 63, the length of the
array. -/
theorem Curve.calculateNormalsLoop_overflow (sqrt : K → K) (curve : List K) (N : Nat)
    (hN : 21 ≤ N) :
    ∀ (d k : Nat) (s : NormalsState K), 21 - k = d → 1 ≤ k → k ≤ 21 →
      s.i = 3 * k → s.normals.length = 63 →
      Curve._calculateNormalsLoop sqrt curve (3 * (N + 1)) s = .error .RangeError
        ∨ ∃ s', Curve._calculateNormalsLoop sqrt curve (3 * (N + 1)) s = .ok s'
          ∧ s'.i = 63 ∧ s'.normals.length = 63 := by
  intro d
  induction d with
  | zero =>
    intro k s hd hk1 hk2 hi hlen
    have hk : k = 21 := by omega
    subst hk
    rw [Curve._calculateNormalsLoop]
    by_cases h : s.i + 3 < 3 * (N + 1)
    · left
      simp only [h, if_true]
      have hover : TypedArray.set s.normals
          [(vec3.cross (⟨TypedArray.get curve s.i - s.lx, TypedArray.get curve (s.i + 1) - s.ly,
              0⟩ : Vec3 K) ⟨0, 0, -1⟩).x,
            (vec3.cross (⟨TypedArray.get curve s.i - s.lx, TypedArray.get curve (s.i + 1) - s.ly,
              0⟩ : Vec3 K) ⟨0, 0, -1⟩).y,
            (vec3.cross (⟨TypedArray.get curve s.i - s.lx, TypedArray.get curve (s.i + 1) - s.ly,
              0⟩ : Vec3 K) ⟨0, 0, -1⟩).z] s.i = .error .RangeError := by
        unfold TypedArray.set
        rw [if_pos (by simp only [List.length_cons, List.length_nil, hlen, hi]; omega)]
      rw [hover]
    · right
      simp only [h, if_false]
      exact ⟨s, rfl, by omega, hlen⟩
  | succ d ih =>
    intro k s hd hk1 hk2 hi hlen
    rw [Curve._calculateNormalsLoop]
    have : s.i + 3 < 3 * (N + 1) := by omega
    simp only [this, if_true]
    obtain ⟨a', hset, hlen', _⟩ := TypedArray.set3 s.normals
      (vec3.cross (⟨TypedArray.get curve s.i - s.lx, TypedArray.get curve (s.i + 1) - s.ly, 0⟩ :
        Vec3 K) ⟨0, 0, -1⟩).x
      (vec3.cross (⟨TypedArray.get curve s.i - s.lx, TypedArray.get curve (s.i + 1) - s.ly, 0⟩ :
        Vec3 K) ⟨0, 0, -1⟩).y
      (vec3.cross (⟨TypedArray.get curve s.i - s.lx, TypedArray.get curve (s.i + 1) - s.ly, 0⟩ :
        Vec3 K) ⟨0, 0, -1⟩).z
      s.i (by omega)
    rw [hset]
    simp only []
    exact ih (k + 1) _ (by omega) (by omega) (by omega) (by simp only [hi]; ring)
      (by simp only [hlen', hlen])

/-- On a buffer of `N+1` samples, `N` at least 21, and a normals array of 63
scalars, `_calculateNormals` throws a RangeError. -/
theorem Curve.calculateNormals_overflow (sqrt : K → K) (c : Curve K Cam) (N : Nat)
    (hN : 21 ≤ N) (hlen : c.points.curve.length = 3 * (N + 1))
    (hcap : c._normals.length = 63) :
    c._calculateNormals sqrt = .error .RangeError := by
  unfold Curve._calculateNormals
  simp only [hlen]
  obtain ⟨a0, hset0, hlen0, _⟩ := TypedArray.set3 c._normals
    (vec3.normalize sqrt
      (vec3.cross (⟨TypedArray.get c.points.curve 3 - TypedArray.get c.points.curve 0,
        TypedArray.get c.points.curve 4 - TypedArray.get c.points.curve 1, 0⟩ : Vec3 K) ⟨0, 0, -1⟩)
      (vec3.cross (⟨TypedArray.get c.points.curve 3 - TypedArray.get c.points.curve 0,
        TypedArray.get c.points.curve 4 - TypedArray.get c.points.curve 1, 0⟩ : Vec3 K)
        ⟨0, 0, -1⟩)).x
    (vec3.normalize sqrt
      (vec3.cross (⟨TypedArray.get c.points.curve 3 - TypedArray.get c.points.curve 0,
        TypedArray.get c.points.curve 4 - TypedArray.get c.points.curve 1, 0⟩ : Vec3 K) ⟨0, 0, -1⟩)
      (vec3.cross (⟨TypedArray.get c.points.curve 3 - TypedArray.get c.points.curve 0,
        TypedArray.get c.points.curve 4 - TypedArray.get c.points.curve 1, 0⟩ : Vec3 K)
        ⟨0, 0, -1⟩)).y
    (vec3.normalize sqrt
      (vec3.cross (⟨TypedArray.get c.points.curve 3 - TypedArray.get c.points.curve 0,
        TypedArray.get c.points.curve 4 - TypedArray.get c.points.curve 1, 0⟩ : Vec3 K) ⟨0, 0, -1⟩)
      (vec3.cross (⟨TypedArray.get c.points.curve 3 - TypedArray.get c.points.curve 0,
        TypedArray.get c.points.curve 4 - TypedArray.get c.points.curve 1, 0⟩ : Vec3 K)
        ⟨0, 0, -1⟩)).z
    0 (by omega)
  rw [hset0]
  simp only []
  rcases Curve.calculateNormalsLoop_overflow sqrt c.points.curve N hN 20 1
    { i := 3, lx := TypedArray.get c.points.curve 0, ly := TypedArray.get c.points.curve 1,
      cx := TypedArray.get c.points.curve 3, cy := TypedArray.get c.points.curve 4,
      tmpNormal := _, normals := a0 }
    rfl (le_refl 1) (by omega) rfl (by simp only [hlen0, hcap]) with h | ⟨s', h, hi', hlen'⟩
  · rw [h]
  · rw [h]
    simp only []
    unfold TypedArray.set
    rw [if_pos (by simp only [List.length_cons, List.length_nil, hlen', hi']; omega)]

/-- C8 (the code at the failing inputs): for every iterations value n from 21
on, on a subclass whose _calculate returns and keeps the lengths of the
arrays, a curve constructed with iterations n, and a curve after iterations is
set to n, has a sample buffer of 3(n+1) scalars but a tangent-angle array of 21
entries and a normals array of 63 scalars, fewer than n+1 and 3(n+1).  On such
a curve, whatever its n+1 samples are, _calculateNormals throws a RangeError
and _calculateSlopes leaves the tangent-angle array at 21 entries, so the
angles of the samples from 21 on are not stored. -/
theorem Curve.derived_arrays_too_small (sqrt : K → K) (atan2 : K → K → K)
    (cls : CurveClass K Cam) (camera : Cam) (control : Option (List K)) (n : Nat)
    (calculate : Curve K Cam → Except JsError (Curve K Cam))
    (hbase : cls.isCurve = false) (hcalc : cls._calculate = some calculate)
    (hkeep : ∀ s : Curve K Cam, ∃ s', calculate s = .ok s'
      ∧ s'._slopes.length = s._slopes.length ∧ s'._normals.length = s._normals.length
      ∧ s'.points.curve.length = s.points.curve.length)
    (hn : 21 ≤ n) :
    (∃ c, Curve.constructor cls camera control (some n) = .ok c
        ∧ c.points.curve.length = 3 * (n + 1)
        ∧ c._slopes.length = 21 ∧ c._normals.length = 63
        ∧ c._slopes.length < n + 1 ∧ c._normals.length < 3 * (n + 1)
        ∧ ∃ c', c.set_iterations cls n = .ok c'
          ∧ c'.points.curve.length = 3 * (n + 1)
          ∧ c'._slopes.length = 21 ∧ c'._normals.length = 63)
      ∧ ∀ c : Curve K Cam, c.points.curve.length = 3 * (n + 1) → c._slopes.length = 21 →
          c._normals.length = 63 →
          c._calculateNormals sqrt = .error .RangeError
            ∧ (c._calculateSlopes atan2)._slopes.length = 21 := by
  constructor
  · refine ⟨_, Curve.constructor_ok cls camera control (some n) calculate hbase hcalc,
      ?_, ?_, ?_, ?_, ?_, ?_⟩
    · simp only [List.length_replicate, Option.getD_some]; ring
    · simp only [List.length_replicate]
    · simp only [List.length_replicate]
    · simp only [List.length_replicate]; omega
    · simp only [List.length_replicate]; omega
    · unfold Curve.set_iterations
      simp only []
      obtain ⟨s', h1, h2, h3, h4⟩ := hkeep
        { _camera := camera, _curveLength := (some n).getD 20 * 3 + 3,
          _normals := List.replicate 63 0, _slopes := List.replicate 21 0,
          points := { control := List.replicate 60 0, curve := List.replicate (n * 3 + 3) 0 },
          renderers := { control := ⟨[]⟩, curve := ⟨[]⟩ },
          _iterations := n, _tempPoint := vec3.create, _offset := 0 }
      rw [Curve.resetCurveRenderer_of_calculate cls calculate hcalc _ s' h1]
      refine ⟨_, rfl, ?_, ?_, ?_⟩
      · simp only [h4, List.length_replicate]; ring
      · simp only [h2, List.length_replicate]
      · simp only [h3, List.length_replicate]
  · intro c hlen hs hcap
    exact ⟨Curve.calculateNormals_overflow sqrt c n hn hlen hcap,
      by rw [Curve.calculateSlopes_length, hs]⟩

end DerivedCapacity

section MirrorSteps

variable {K Cam : Type} [LinearOrderedField K]

omit [LinearOrderedField K] in
/-- An append that fits: the points are copied to `control[offset ..)`, the
write offset advances by their number, and the control renderer still mirrors
the populated control points. -/
theorem Curve.controlMirrored_append (c : Curve K Cam) (points : List K)
    (hm : c.ControlMirrored) (hfit : c._offset + points.length ≤ 60) :
    ∃ c', c._appendToControlRenderer points = .ok c'
      ∧ c'._offset = c._offset + points.length
      ∧ TypedArray.subarray c'.points.control c._offset (c._offset + points.length) = points
      ∧ (∀ j, j < c._offset ∨ c._offset + points.length ≤ j →
          c'.points.control[j]? = c.points.control[j]?)
      ∧ c'.points.curve = c.points.curve ∧ c'.renderers.curve = c.renderers.curve
      ∧ c'.ControlMirrored := by
  obtain ⟨h1, h2, h3⟩ := hm
  have hfit' : c._offset + points.length ≤ c.points.control.length := by omega
  unfold Curve._appendToControlRenderer
  rw [TypedArray.set_ok _ _ _ hfit']
  refine ⟨_, rfl, rfl, TypedArray.subarray_patch _ _ _ hfit', ?_, rfl, rfl, ?_, ?_, ?_⟩
  · intro j hj
    rcases hj with hj | hj
    · exact TypedArray.getElem?_patch_lt _ _ _ _ hfit' hj
    · exact TypedArray.getElem?_patch_ge _ _ _ _ hfit' hj
  · simp only [BatchRenderer.submit, TypedArray.subarray_zero]
    rw [TypedArray.take_patch _ _ _ hfit', h1, TypedArray.subarray_zero]
  · simp only [TypedArray.length_patch _ _ _ hfit']
    exact hfit'
  · simp only [TypedArray.length_patch _ _ _ hfit']
    exact h3

omit [LinearOrderedField K] in
/-- After `_resetControlRenderer` the control renderer mirrors the populated
control points. -/
theorem Curve.controlMirrored_resetControl (c : Curve K Cam) (hm : c.ControlMirrored) :
    c._resetControlRenderer.ControlMirrored := by
  obtain ⟨_, h2, h3⟩ := hm
  exact ⟨rfl, h2, h3⟩

omit [LinearOrderedField K] in
/-- With a `_calculate` that only populates the samples,
`_resetCurveRenderer` returns with the curve renderer holding the samples and
the control side as it was. -/
theorem Curve.controlMirrored_resetCurve (cls : CurveClass K Cam)
    (calculate : Curve K Cam → Except JsError (Curve K Cam))
    (hcalc : cls._calculate = some calculate)
    (honly : CurveClass.OnlyPopulatesCurve calculate) (c : Curve K Cam)
    (hm : c.ControlMirrored) :
    ∃ c', c._resetCurveRenderer cls = .ok c'
      ∧ c'.renderers.curve.coords = c'.points.curve
      ∧ c'.points.control = c.points.control ∧ c'._offset = c._offset
      ∧ c'.ControlMirrored := by
  obtain ⟨samples, _, h1⟩ := honly c
  rw [Curve.resetCurveRenderer_of_calculate cls calculate hcalc c _ h1]
  exact ⟨_, rfl, rfl, rfl, rfl, hm⟩

omit [LinearOrderedField K] in
/-- An update of a populated control point keeps the control renderer a mirror
of the populated control points. -/
theorem Curve.controlMirrored_update (cls : CurveClass K Cam)
    (calculate : Curve K Cam → Except JsError (Curve K Cam))
    (hcalc : cls._calculate = some calculate)
    (honly : CurveClass.OnlyPopulatesCurve calculate) (c : Curve K Cam) (index : Nat)
    (point : List K) (hm : c.ControlMirrored) (hpt : point.length = 3)
    (hidx : index * 3 + 3 ≤ c._offset) :
    ∃ c', c.updateControlPoint cls index point = .ok c' ∧ c'.ControlMirrored := by
  obtain ⟨h1, h2, h3⟩ := hm
  have hfit : index * 3 + point.length ≤ c.points.control.length := by omega
  unfold Curve.updateControlPoint
  rw [TypedArray.set_ok _ _ _ hfit]
  simp only []
  have hm2 : Curve.ControlMirrored
      ({ c with
        points := { c.points with
          control := c.points.control.take (index * 3) ++ point
            ++ c.points.control.drop (index * 3 + point.length) }
        renderers := { c.renderers with
          control := c.renderers.control.update index point } } : Curve K Cam) := by
    refine ⟨?_, ?_, ?_⟩
    · simp only [TypedArray.subarray_zero]
      rw [TypedArray.take_patch_within _ _ _ _ (by omega) h2]
      have hlen : c.renderers.control.coords.length = c._offset := by
        rw [h1, TypedArray.subarray_zero, List.length_take]
        omega
      unfold BatchRenderer.update
      rw [if_pos (by omega)]
      simp only []
      rw [h1, TypedArray.subarray_zero]
    · simp only [TypedArray.length_patch _ _ _ hfit]
      exact h2
    · simp only [TypedArray.length_patch _ _ _ hfit]
      exact h3
  obtain ⟨c', hc', _, _, _, hm'⟩ := Curve.controlMirrored_resetCurve cls calculate hcalc honly _ hm2
  exact ⟨c', hc', hm'⟩

/-- Every call that meets its side condition returns and keeps the mirror
invariant. -/
theorem CurveOp.controlMirrored_apply (cls : CurveClass K Cam)
    (calculate : Curve K Cam → Except JsError (Curve K Cam))
    (hcalc : cls._calculate = some calculate)
    (honly : CurveClass.OnlyPopulatesCurve calculate) (c : Curve K Cam) (op : CurveOp K)
    (hm : c.ControlMirrored) (hop : op.Admissible c) :
    ∃ c', op.apply cls c = .ok c' ∧ c'.ControlMirrored := by
  cases op with
  | appendToControlRenderer points =>
    obtain ⟨c', h, _, _, _, _, _, hm'⟩ := Curve.controlMirrored_append c points hm hop
    exact ⟨c', h, hm'⟩
  | resetControlRenderer => exact ⟨_, rfl, Curve.controlMirrored_resetControl c hm⟩
  | updateControlPoint index point =>
    exact Curve.controlMirrored_update cls calculate hcalc honly c index point hm hop.1 hop.2
  | resetCurveRenderer =>
    obtain ⟨c', h, _, _, _, hm'⟩ := Curve.controlMirrored_resetCurve cls calculate hcalc honly c hm
    exact ⟨c', h, hm'⟩
  | setIterations n =>
    obtain ⟨c', h, _, _, _, hm'⟩ := Curve.controlMirrored_resetCurve cls calculate hcalc honly
      { c with
        _iterations := n
        points := { c.points with curve := List.replicate (n * 3 + 3) 0 } } hm
    exact ⟨c', h, hm'⟩
  | render => exact ⟨_, rfl, hm⟩

/-- Every reachable state satisfies the mirror invariant. -/
theorem Curve.controlMirrored_of_reachable (cls : CurveClass K Cam)
    (calculate : Curve K Cam → Except JsError (Curve K Cam))
    (hcalc : cls._calculate = some calculate)
    (honly : CurveClass.OnlyPopulatesCurve calculate) (c : Curve K Cam)
    (hr : Curve.Reachable cls c) : c.ControlMirrored := by
  induction hr with
  | constructed camera control iterations c h =>
    have hb : cls.isCurve = false := by
      cases hb : cls.isCurve with
      | false => rfl
      | true => simp [Curve.constructor, hb] at h
    rw [Curve.constructor_ok cls camera control iterations calculate hb hcalc] at h
    cases h
    refine ⟨?_, ?_, ?_⟩ <;> simp [TypedArray.subarray]
  | step c c' op _ hop h ih =>
    obtain ⟨c'', h', hm'⟩ := CurveOp.controlMirrored_apply cls calculate hcalc honly c op ih hop
    rw [h] at h'
    cases h'
    exact hm'

/-- C18: with the renderers as buffers and a _calculate that only populates
the samples, in every state reached from a new curve through appends that fit
the 60 scalars, resets, updates of populated control points, the iterations
setter and render: the buffer of the control-point renderer is
control[0 .. writeOffset); every such call returns and keeps it so;
_appendToControlRenderer(points) copies points to
control[oldOffset .. oldOffset+points.length), leaves the rest of the control
buffer as it was and advances the write offset by points.length; and after
_resetCurveRenderer the buffer of the curve renderer is the sample buffer. -/
theorem Curve.renderers_mirror_buffers (cls : CurveClass K Cam)
    (calculate : Curve K Cam → Except JsError (Curve K Cam))
    (hcalc : cls._calculate = some calculate)
    (honly : CurveClass.OnlyPopulatesCurve calculate) (c : Curve K Cam)
    (hr : Curve.Reachable cls c) :
    c.renderers.control.coords = TypedArray.subarray c.points.control 0 c._offset
      ∧ (∀ op : CurveOp K, op.Admissible c →
          ∃ c', op.apply cls c = .ok c'
            ∧ c'.renderers.control.coords = TypedArray.subarray c'.points.control 0 c'._offset)
      ∧ (∀ points : List K, c._offset + points.length ≤ 60 →
          ∃ c', c._appendToControlRenderer points = .ok c'
            ∧ c'._offset = c._offset + points.length
            ∧ TypedArray.subarray c'.points.control c._offset (c._offset + points.length) = points
            ∧ ∀ j, j < c._offset ∨ c._offset + points.length ≤ j →
                c'.points.control[j]? = c.points.control[j]?)
      ∧ ∃ c', c._resetCurveRenderer cls = .ok c'
          ∧ c'.renderers.curve.coords = c'.points.curve := by
  have hm := Curve.controlMirrored_of_reachable cls calculate hcalc honly c hr
  refine ⟨hm.1, ?_, ?_, ?_⟩
  · intro op hop
    obtain ⟨c', h, hm'⟩ := CurveOp.controlMirrored_apply cls calculate hcalc honly c op hm hop
    exact ⟨c', h, hm'.1⟩
  · intro points hfit
    obtain ⟨c', h, h1, h2, h3, _⟩ := Curve.controlMirrored_append c points hm hfit
    exact ⟨c', h, h1, h2, h3⟩
  · obtain ⟨c', h, h1, _⟩ := Curve.controlMirrored_resetCurve cls calculate hcalc honly c hm
    exact ⟨c', h, h1⟩

end MirrorSteps

section InputState

/-- Whatever the events, no button is ever recorded as pressed: the state of a
button is absent or false. -/
theorem PaintBoard.button_never_true (l : Listeners) (events : List WindowEvent) :
    ∀ pb : PaintBoard, (∀ b, pb._buttons b ≠ some true) →
      ∀ b, (PaintBoard.run l pb events)._buttons b ≠ some true := by
  induction events with
  | nil => intro pb h; exact h
  | cons ev events ih =>
    intro pb h
    apply ih
    intro b
    cases ev with
    | keydown keyCode =>
      simp only [PaintBoard.dispatch]
      split <;> exact h b
    | keyup keyCode =>
      simp only [PaintBoard.dispatch]
      split <;> exact h b
    | mousedown button =>
      simp only [PaintBoard.dispatch]
      split
      · simp only [Function.update_apply]
        split
        · simp
        · exact h b
      · exact h b
    | mouseup button =>
      simp only [PaintBoard.dispatch]
      split
      · simp only [Function.update_apply]
        split
        · simp
        · exact h b
      · exact h b
    | contextmenu => exact h b

/-- C20 (the code at the failing input): after bindControls, whatever its
argument, a mousedown for button b records false for b, not true, and no
sequence of events on a new board ever records true for a button;
isButtonActive(b) throws a ReferenceError when the page has no global named
code, and otherwise returns the state of the button of that number whatever b
is.  A keydown for key k, for comparison, records true and isKeyActive(k)
returns true. -/
theorem PaintBoard.mousedown_records_false (props : Option ControlProps) (pb : PaintBoard)
    (b k : Nat) :
    (PaintBoard.bindControls props).mouse = true
      ∧ (PaintBoard.bindControls props).keys = true
      ∧ (PaintBoard.dispatch (PaintBoard.bindControls props) pb (.mousedown b))._buttons b
          = some false
      ∧ (∀ events : List WindowEvent,
          (PaintBoard.run (PaintBoard.bindControls props) PaintBoard.constructor events)._buttons b
            ≠ some true)
      ∧ PaintBoard.isButtonActive none
          (PaintBoard.dispatch (PaintBoard.bindControls props) pb (.mousedown b)) b
          = .error .ReferenceError
      ∧ (∀ code : Nat, PaintBoard.isButtonActive (some code) pb b = .ok (pb._buttons code))
      ∧ PaintBoard.isKeyActive
          (PaintBoard.dispatch (PaintBoard.bindControls props) pb (.keydown k)) k
          = some true := by
  have hm : (PaintBoard.bindControls props).mouse = true := by
    unfold PaintBoard.bindControls PaintBoard.orDefault
    simp only []
    split <;> rfl
  have hk : (PaintBoard.bindControls props).keys = true := by
    unfold PaintBoard.bindControls PaintBoard.orDefault
    simp only []
    split <;> rfl
  refine ⟨hm, hk, ?_, ?_, rfl, fun _ => rfl, ?_⟩
  · simp [PaintBoard.dispatch, hm]
  · intro events
    exact PaintBoard.button_never_true _ events _ (fun _ => by simp [PaintBoard.constructor]) b
  · simp [PaintBoard.dispatch, PaintBoard.isKeyActive, hk]

end InputState

section NewExamples

/-- Witness of C11: the subclass of the examples, a new curve of iterations 2,
control point 1 set to (1,2,3). -/
theorem Curve.updateControlPoint_then_render_witness :
    ∃ cf : Curve ℚ Unit,
      ((Curve.ofBuffers (List.replicate 60 (0 : ℚ)) 0 (List.replicate 9 0)).updateControlPoint
          CurveClass.line 1 [1, 2, 3]).map Curve.render = .ok cf
        ∧ cf.points.curve.length = 9 := by
  obtain ⟨_, _, cf, _, _, h, _, _, _, _, _, hlen, _⟩ :=
    Curve.updateControlPoint_then_render (CurveClass.line : CurveClass ℚ Unit)
      Curve.lineCalculate (Curve.ofBuffers (List.replicate 60 (0 : ℚ)) 0 (List.replicate 9 0))
      1 [1, 2, 3] rfl (fun s => ⟨_, rfl, by simp⟩) (by simp [Curve.ofBuffers]) (by omega) rfl
  exact ⟨cf, h, by simpa [Curve.ofBuffers] using hlen⟩

/-- Witness of C15: the subclass of the examples, iterations 2. -/
theorem Curve.curve_samples_length_witness :
    ∃ c, Curve.constructor (CurveClass.line : CurveClass ℚ Unit) () none (some 2) = .ok c
      ∧ c.points.curve.length = 3 * 2 + 3 :=
  (Curve.curve_samples_length (CurveClass.line : CurveClass ℚ Unit) () none 2
    Curve.lineCalculate rfl rfl (fun s => ⟨_, rfl, by simp⟩)).1

/-- Witness of C16: over the real numbers with atan2 the argument of x + iy,
the samples (0,0,0), (1,0,0), (2,0,0) and iterations 2. -/
theorem Curve.calculateSlopes_horizontal_line_witness :
    ∃ c0, Curve.constructor (CurveClass.line : CurveClass ℝ Unit) () none (some 2) = .ok c0
      ∧ (Curve._calculateSlopes (fun y x : ℝ => Complex.arg ⟨x, y⟩)
          { c0 with points := { c0.points with curve := [0, 0, 0, 1, 0, 0, 2, 0, 0] } })._slopes.length
        = 21
      ∧ ∀ j, TypedArray.get (Curve._calculateSlopes (fun y x : ℝ => Complex.arg ⟨x, y⟩)
          { c0 with points := { c0.points with curve := [0, 0, 0, 1, 0, 0, 2, 0, 0] } })._slopes j
        = 0 :=
  Curve.calculateSlopes_horizontal_line (fun y x : ℝ => Complex.arg ⟨x, y⟩)
    (fun x hx => Complex.arg_ofReal_of_nonneg (le_of_lt hx))
    (CurveClass.line : CurveClass ℝ Unit) () none 2 Curve.lineCalculate
    [0, 0, 0, 1, 0, 0, 2, 0, 0] rfl rfl (by omega) (by omega) rfl
    (fun k hk => by interval_cases k <;> simp [TypedArray.get])
    (fun k hk => by interval_cases k <;> norm_num [TypedArray.get])

/-- Witness of C18: a new curve of the subclass of the examples. -/
theorem Curve.renderers_mirror_buffers_witness :
    ∃ c : Curve ℚ Unit, Curve.constructor CurveClass.line () none none = .ok c
      ∧ c.renderers.control.coords = TypedArray.subarray c.points.control 0 c._offset
      ∧ ∃ c', c._appendToControlRenderer [1, 2, 3] = .ok c' ∧ c'._offset = c._offset + 3 :=
  ⟨_, rfl,
    (Curve.renderers_mirror_buffers CurveClass.line Curve.lineCalculate rfl
      Curve.lineCalculate_onlyPopulatesCurve _
      (Curve.Reachable.constructed () none none _ rfl)).1,
    by
      obtain ⟨c', h, h1, _⟩ := (Curve.renderers_mirror_buffers (CurveClass.line : CurveClass ℚ Unit)
        Curve.lineCalculate rfl Curve.lineCalculate_onlyPopulatesCurve _
        (Curve.Reachable.constructed () none none _ rfl)).2.2.1 [1, 2, 3] (by simp)
      exact ⟨c', h, h1⟩⟩

end NewExamples

section NormalsExamples

/-- Witness of C14 (the code at the failing input): the samples (0,0,0),
(2,0,0), (4,0,0) and the square root of the rationals.  The tangent of the
last sample is (2, 0, 0) and the normal stored for it is (0, 0, 0); the normal
stored for sample 1 is (0, 2, 0). -/
theorem Curve.calculateNormals_last_normal_zero_witness :
    ∃ c', (Curve.ofBuffers [] 0 [(0 : ℚ), 0, 0, 2, 0, 0, 4, 0, 0])._calculateNormals Rat.sqrt
        = .ok c'
      ∧ Curve.tangentX [(0 : ℚ), 0, 0, 2, 0, 0, 4, 0, 0] 2 = 2
      ∧ Curve.tangentY [(0 : ℚ), 0, 0, 2, 0, 0, 4, 0, 0] 2 = 0
      ∧ TypedArray.get c'._normals 3 = 0
      ∧ TypedArray.get c'._normals 4 = 2
      ∧ TypedArray.get c'._normals 5 = 0
      ∧ TypedArray.get c'._normals 6 = 0
      ∧ TypedArray.get c'._normals 7 = 0
      ∧ TypedArray.get c'._normals 8 = 0 := by
  obtain ⟨c', h, _, _, hmid, h6, h7, h8⟩ := Curve.calculateNormals_last_normal_zero Rat.sqrt
    (Curve.ofBuffers [] 0 [(0 : ℚ), 0, 0, 2, 0, 0, 4, 0, 0]) 2 (by omega) (by omega)
    (by simp [Curve.ofBuffers]) (by simp [Curve.ofBuffers])
  obtain ⟨h3, h4, h5⟩ := hmid 1 (by omega) (by omega)
  refine ⟨c', h, ?_, ?_, ?_, ?_, ?_, h6, h7, h8⟩
  · norm_num [Curve.tangentX, TypedArray.get]
  · norm_num [Curve.tangentY, TypedArray.get]
  · rw [h3]; norm_num [Curve.ofBuffers, Curve.tangentY, TypedArray.get]
  · rw [h4]; norm_num [Curve.ofBuffers, Curve.tangentX, TypedArray.get]
  · exact h5

end NormalsExamples

section DerivedCapacityExamples

/-- Witness of C8 (the code at the failing input): over the real numbers with
atan2 the argument of x + iy, the subclass of the examples and iterations 21,
that is 22 samples. -/
theorem Curve.derived_arrays_too_small_witness :
    (∃ c, Curve.constructor (CurveClass.line : CurveClass ℝ Unit) () none (some 21) = .ok c
        ∧ c.points.curve.length = 3 * (21 + 1)
        ∧ c._slopes.length = 21 ∧ c._normals.length = 63
        ∧ c._slopes.length < 21 + 1 ∧ c._normals.length < 3 * (21 + 1)
        ∧ ∃ c', c.set_iterations CurveClass.line 21 = .ok c'
          ∧ c'.points.curve.length = 3 * (21 + 1)
          ∧ c'._slopes.length = 21 ∧ c'._normals.length = 63)
      ∧ ∀ c : Curve ℝ Unit, c.points.curve.length = 3 * (21 + 1) → c._slopes.length = 21 →
          c._normals.length = 63 →
          c._calculateNormals Real.sqrt = .error .RangeError
            ∧ (c._calculateSlopes (fun y x : ℝ => Complex.arg ⟨x, y⟩))._slopes.length = 21 :=
  Curve.derived_arrays_too_small Real.sqrt (fun y x : ℝ => Complex.arg ⟨x, y⟩)
    (CurveClass.line : CurveClass ℝ Unit) () none 21 Curve.lineCalculate rfl rfl
    (fun _ => ⟨_, rfl, rfl, rfl, by simp⟩) (by omega)

end DerivedCapacityExamples

end Utea
